import Mathlib

/-!
# GBufferedInputStream (gio/gbufferedinputstream.c)

A shallow embedding of the buffer management of `GBufferedInputStream`:
the private cursor record, the fill engine, the blocking read / skip /
read_byte / peek operations, buffer resizing, and the asynchronous fill and
read with their completion callbacks, followed by theorems about them.

Conventions of the embedding

* `gsize` values are natural numbers below `2 ^ 64`; every `gsize` addition
  and subtraction of the source is written with `gsize_add` / `gsize_sub`,
  which wrap modulo `2 ^ 64`.  `gssize` values are integers.
* A block of memory is a `List guint8`.  `mem_read` and `mem_write` are the
  two halves of `memcpy` / `g_memmove`.  Pointer arithmetic (`buffer + pos`)
  is an offset into the list.
* The backing source (`G_FILTER_INPUT_STREAM (stream)->base_stream`) is not
  part of this file of the library: its `g_input_stream_read` and
  `g_input_stream_skip` are taken as a parameter (`BackingSource`), together
  with the state of the base stream.
* A `gssize` result with its `GError **` out-parameter is an
  `Except GError Nat`: `.error e` is the return value `-1` with `*error = e`,
  `.ok n` is the non-negative return value `n`.
* The `GCancellable` is only forwarded to the backing source and is left out.
* `priv->buffer` is `NULL` exactly when the block is empty.
* To observe the calls an operation makes, it is run over `traced B`, the
  source `B` with a log of the calls made to it.
* `fill` and `read_byte` call the fill engine through the class
  (`class->fill`).  They are embedded twice: at the default engine
  `g_buffered_input_stream_real_fill`, and with the `fill` of the class as a
  parameter (`..._with`); the first is the second at the default engine.
* An asynchronous operation is split where the source splits it: the function
  that issues it returns what it has set going, and the completion callback is
  a function of the answer.  The base stream answers an asynchronous read as
  `B` answers the blocking read of the same number of bytes.
-/

namespace GBuffered

/-! ## Machine integers -/

/-- Modelled from the spec: the representable-size ceiling `G_MAXSIZE`, a macro of
glibconfig.h, which is not part of this file of the library.  The value is that
of a platform with 64-bit `gsize`. -/
def G_MAXSIZE : Nat := 18446744073709551615

/-- Modelled from the spec: the signed ceiling `G_MAXSSIZE`, a macro of
glibconfig.h, which is not part of this file of the library.  The value is that
of a platform with 64-bit `gssize`. -/
def G_MAXSSIZE : Nat := 9223372036854775807

/-- Sum of two `gsize` values as the machine computes it. -/
def gsize_add (a b : Nat) : Nat := (a + b) % (G_MAXSIZE + 1)

/-- Difference of two `gsize` values (both at most `G_MAXSIZE`) as the machine
computes it: it wraps around when `b > a`. -/
def gsize_sub (a b : Nat) : Nat := (a + (G_MAXSIZE + 1) - b) % (G_MAXSIZE + 1)

/-- Conversion `gsize → gssize` (two's complement reinterpretation). -/
def to_gssize (n : Nat) : Int :=
  if n ≤ G_MAXSSIZE then (n : Int) else (n : Int) - ((G_MAXSIZE : Int) + 1)

/-- Conversion `gssize → gsize` (two's complement reinterpretation). -/
def to_gsize (i : Int) : Nat := (i % ((G_MAXSIZE : Int) + 1)).toNat

/-! ## Memory -/

/-- One byte. -/
abbrev guint8 := Fin 256

/-- The `n` bytes found at offset `off` of the block `src`. -/
def mem_read (src : List guint8) (off n : Nat) : List guint8 :=
  (src.drop off).take n

/-- The block `dst` after `data` has been stored at offset `off`. -/
def mem_write (dst : List guint8) (off : Nat) (data : List guint8) : List guint8 :=
  dst.take off ++ data ++ dst.drop (off + data.length)

/-- `memcpy (dst + doff, src + soff, n)`; the source bytes are read before
anything is stored, so the same definition serves for `g_memmove`. -/
def memcpy (dst : List guint8) (doff : Nat) (src : List guint8) (soff n : Nat) :
    List guint8 :=
  mem_write dst doff (mem_read src soff n)

/-- Modelled from the spec: `g_malloc` of gmem.c, which is not part of this file of
the library.  It allocates a fresh region of `size` bytes; `g_malloc (0)` is
`NULL`, the empty block. -/
def g_malloc (size : Nat) : List guint8 := List.replicate size 0

/-! ## Errors -/

/-- The error codes of `G_IO_ERROR` that occur in this file, and the errors
raised by the backing source. -/
inductive GError where
  | G_IO_ERROR_INVALID_ARGUMENT
  | G_IO_ERROR_PENDING
  | G_IO_ERROR_CLOSED
  | G_IO_ERROR_CANCELLED
  | G_IO_ERROR_SOURCE (code : Nat)
  deriving DecidableEq, Repr

/-! ## Data model -/

/-- `struct _GBufferedInputStreamPrivate` (without `outstanding_callback`). -/
structure GBufferedInputStreamPrivate where
  buffer : List guint8
  len : Nat
  pos : Nat
  end_ : Nat
  deriving DecidableEq, Repr

/-- A buffered input stream: its private record, the state of its base stream,
and the `pending` / `closed` flags of the `GInputStream` it is. -/
structure GBufferedInputStream (σ : Type) where
  priv : GBufferedInputStreamPrivate
  base_stream : σ
  pending : Bool
  closed : Bool
  deriving DecidableEq, Repr

/-- The backing source: what `g_input_stream_read (base_stream, ptr, count, ..)`
and `g_input_stream_skip (base_stream, count, ..)` do on a base stream in state
`σ`.  A read answers an error or the bytes it stored at `ptr` (their number is
the return value); a skip answers an error or the number of bytes skipped. -/
structure BackingSource (σ : Type) where
  g_input_stream_read : σ → Nat → Except GError (List guint8) × σ
  g_input_stream_skip : σ → Nat → Except GError Nat × σ

/-! ## Buffer operations -/

/-- `g_buffered_input_stream_get_available`. -/
def g_buffered_input_stream_get_available {σ : Type} (stream : GBufferedInputStream σ) :
    Nat :=
  gsize_sub stream.priv.end_ stream.priv.pos

/-- `g_buffered_input_stream_peek`: the returned `gsize`, the caller's buffer
afterwards, and the stream afterwards. -/
def g_buffered_input_stream_peek {σ : Type} (stream : GBufferedInputStream σ)
    (buffer : List guint8) (offset count : Nat) :
    Nat × List guint8 × GBufferedInputStream σ :=
  let available := g_buffered_input_stream_get_available stream
  if offset > available then
    (0, buffer, stream)
  else
    let end_ := min (gsize_add offset count) available
    let count := gsize_sub end_ offset
    (count, memcpy buffer 0 stream.priv.buffer (stream.priv.pos + offset) count, stream)

/-- `compact_buffer`. -/
def compact_buffer {σ : Type} (stream : GBufferedInputStream σ) : GBufferedInputStream σ :=
  let priv := stream.priv
  let current_size := gsize_sub priv.end_ priv.pos
  let buffer := memcpy priv.buffer 0 priv.buffer priv.pos current_size
  { stream with priv := { priv with buffer := buffer, pos := 0, end_ := current_size } }

/-- The stream with its buffer emptied (`priv->pos = 0; priv->end = 0`). -/
def emptied {σ : Type} (stream : GBufferedInputStream σ) : GBufferedInputStream σ :=
  { stream with priv := { stream.priv with pos := 0, end_ := 0 } }

/-- `g_buffered_input_stream_real_fill`, the default `fill` of the class.
`count` is a `gssize`; `MIN (count, priv->len - in_buffer)` and the comparison
with `priv->len - priv->end` are carried out on `gsize` values, as the usual
arithmetic conversions make them. -/
def g_buffered_input_stream_real_fill {σ : Type} (B : BackingSource σ)
    (stream : GBufferedInputStream σ) (count : Int) :
    Except GError Nat × GBufferedInputStream σ :=
  let priv := stream.priv
  let count : Nat := if count = -1 then priv.len else to_gsize count
  let in_buffer := gsize_sub priv.end_ priv.pos
  -- Never fill more than can fit in the buffer
  let count := min count (gsize_sub priv.len in_buffer)
  -- If requested length does not fit at end, compact
  let stream := if gsize_sub priv.len priv.end_ < count then compact_buffer stream else stream
  let priv := stream.priv
  match B.g_input_stream_read stream.base_stream count with
  | (.error e, base) => (.error e, { stream with base_stream := base })
  | (.ok data, base) =>
    let nread := data.length
    let buffer := mem_write priv.buffer priv.end_ data
    let end_ := if nread > 0 then gsize_add priv.end_ nread else priv.end_
    (.ok nread,
      { stream with priv := { priv with buffer := buffer, end_ := end_ }, base_stream := base })

/-- `g_buffered_input_stream_skip`. -/
def g_buffered_input_stream_skip {σ : Type} (B : BackingSource σ)
    (stream : GBufferedInputStream σ) (count : Nat) :
    Except GError Nat × GBufferedInputStream σ :=
  let priv := stream.priv
  let available := gsize_sub priv.end_ priv.pos
  if count ≤ available then
    (.ok count, { stream with priv := { priv with pos := gsize_add priv.pos count } })
  else
    -- Full request not available, skip all currently available and request refill for more
    let stream := { stream with priv := { priv with pos := 0, end_ := 0 } }
    let priv := stream.priv
    let bytes_skipped := available
    let count := gsize_sub count available
    if count > priv.len then
      -- Large request, shortcut buffer
      match B.g_input_stream_skip stream.base_stream count with
      | (.error e, base) =>
        (if bytes_skipped = 0 then .error e else .ok bytes_skipped,
          { stream with base_stream := base })
      | (.ok nread, base) =>
        (.ok (if nread > 0 then gsize_add bytes_skipped nread else bytes_skipped),
          { stream with base_stream := base })
    else
      match g_buffered_input_stream_real_fill B stream (to_gssize priv.len) with
      | (.error e, stream) =>
        (if bytes_skipped = 0 then .error e else .ok bytes_skipped, stream)
      | (.ok _, stream) =>
        let priv := stream.priv
        let available := gsize_sub priv.end_ priv.pos
        let count := min count available
        (.ok (gsize_add bytes_skipped count),
          { stream with priv := { priv with pos := gsize_add priv.pos count } })

/-- `g_buffered_input_stream_read`: the result, the caller's `buffer`
afterwards, and the stream afterwards. -/
def g_buffered_input_stream_read {σ : Type} (B : BackingSource σ)
    (stream : GBufferedInputStream σ) (buffer : List guint8) (count : Nat) :
    Except GError Nat × List guint8 × GBufferedInputStream σ :=
  let priv := stream.priv
  let available := gsize_sub priv.end_ priv.pos
  if count ≤ available then
    (.ok count, memcpy buffer 0 priv.buffer priv.pos count,
      { stream with priv := { priv with pos := gsize_add priv.pos count } })
  else
    -- Full request not available, read all currently available and request refill for more
    let buffer := memcpy buffer 0 priv.buffer priv.pos available
    let stream := { stream with priv := { priv with pos := 0, end_ := 0 } }
    let priv := stream.priv
    let bytes_read := available
    let count := gsize_sub count available
    if count > priv.len then
      -- Large request, shortcut buffer
      match B.g_input_stream_read stream.base_stream count with
      | (.error e, base) =>
        (if bytes_read = 0 then .error e else .ok bytes_read, buffer,
          { stream with base_stream := base })
      | (.ok data, base) =>
        let nread := data.length
        (.ok (if nread > 0 then gsize_add bytes_read nread else bytes_read),
          mem_write buffer bytes_read data, { stream with base_stream := base })
    else
      match g_buffered_input_stream_real_fill B stream (to_gssize priv.len) with
      | (.error e, stream) =>
        (if bytes_read = 0 then .error e else .ok bytes_read, buffer, stream)
      | (.ok _, stream) =>
        let priv := stream.priv
        let available := gsize_sub priv.end_ priv.pos
        let count := min count available
        (.ok (gsize_add bytes_read count),
          memcpy buffer bytes_read priv.buffer priv.pos count,
          { stream with priv := { priv with pos := gsize_add priv.pos count } })

/-- Modelled from the spec: `g_input_stream_is_closed` of ginputstream.c, which
is not part of this file of the library; it reads the closed flag. -/
def g_input_stream_is_closed {σ : Type} (stream : GBufferedInputStream σ) : Bool :=
  stream.closed

/-- Modelled from the spec: `g_input_stream_set_pending` of ginputstream.c, which
is not part of this file of the library.  Starting an operation on a closed
stream fails with `Closed`, starting one while another is outstanding fails
with `PendingOperation`; otherwise the stream is marked pending. -/
def g_input_stream_set_pending {σ : Type} (stream : GBufferedInputStream σ) :
    Except GError (GBufferedInputStream σ) :=
  if stream.closed then .error .G_IO_ERROR_CLOSED
  else if stream.pending then .error .G_IO_ERROR_PENDING
  else .ok { stream with pending := true }

/-- Modelled from the spec: `g_input_stream_clear_pending` of ginputstream.c,
which is not part of this file of the library; it clears the pending mark. -/
def g_input_stream_clear_pending {σ : Type} (stream : GBufferedInputStream σ) :
    GBufferedInputStream σ :=
  { stream with pending := false }

/-- `g_buffered_input_stream_fill`. -/
def g_buffered_input_stream_fill {σ : Type} (B : BackingSource σ)
    (stream : GBufferedInputStream σ) (count : Int) :
    Except GError Nat × GBufferedInputStream σ :=
  if count < -1 then
    (.error .G_IO_ERROR_INVALID_ARGUMENT, stream)
  else
    match g_input_stream_set_pending stream with
    | .error e => (.error e, stream)
    | .ok stream =>
      match g_buffered_input_stream_real_fill B stream count with
      | (res, stream) => (res, g_input_stream_clear_pending stream)

/-- `g_buffered_input_stream_read_byte`: the returned `int`, the error stored
through `error` (if any), and the stream afterwards. -/
def g_buffered_input_stream_read_byte {σ : Type} (B : BackingSource σ)
    (stream : GBufferedInputStream σ) :
    Int × Option GError × GBufferedInputStream σ :=
  if g_input_stream_is_closed stream then
    (-1, some .G_IO_ERROR_CLOSED, stream)
  else
    match g_input_stream_set_pending stream with
    | .error e => (-1, some e, stream)
    | .ok stream =>
      let priv := stream.priv
      let available := gsize_sub priv.end_ priv.pos
      if available ≠ 0 then
        let stream := g_input_stream_clear_pending stream
        (((priv.buffer.getD priv.pos 0).val : Int), none,
          { stream with priv := { priv with pos := gsize_add priv.pos 1 } })
      else
        -- Byte not available, request refill for more
        let stream := { stream with priv := { priv with pos := 0, end_ := 0 } }
        let priv := stream.priv
        match g_buffered_input_stream_real_fill B stream (to_gssize priv.len) with
        | (.error e, stream) => (-1, some e, g_input_stream_clear_pending stream)
        | (.ok nread, stream) =>
          let stream := g_input_stream_clear_pending stream
          let priv := stream.priv
          if nread ≤ 0 then
            (-1, none, stream) -- end of stream
          else
            (((priv.buffer.getD priv.pos 0).val : Int), none,
              { stream with priv := { priv with pos := gsize_add priv.pos 1 } })

/-- `g_buffered_input_stream_get_buffer_size`. -/
def g_buffered_input_stream_get_buffer_size {σ : Type} (stream : GBufferedInputStream σ) :
    Nat :=
  stream.priv.len

/-- `g_buffered_input_stream_set_buffer_size`.  `priv->buffer` is `NULL`
exactly when the block is empty. -/
def g_buffered_input_stream_set_buffer_size {σ : Type} (stream : GBufferedInputStream σ)
    (size : Nat) : GBufferedInputStream σ :=
  let priv := stream.priv
  if priv.len = size then
    stream
  else if priv.buffer ≠ [] then
    let in_buffer := gsize_sub priv.end_ priv.pos
    -- Never resize smaller than current buffer contents
    let size := max size in_buffer
    let buffer := g_malloc size
    let buffer := memcpy buffer 0 priv.buffer priv.pos in_buffer
    { stream with priv := { buffer := buffer, len := size, pos := 0, end_ := in_buffer } }
  else
    { stream with priv := { buffer := g_malloc size, len := size, pos := 0, end_ := 0 } }

/-! ## Predicates on states and sources -/

/-- The fields of the private record have the types the source gives them:
`len`, `pos` and `end` are `gsize` values and `buffer` points to `len` bytes. -/
def well_typed (priv : GBufferedInputStreamPrivate) : Prop :=
  priv.len ≤ G_MAXSIZE ∧ priv.pos ≤ G_MAXSIZE ∧ priv.end_ ≤ G_MAXSIZE ∧
    priv.buffer.length = priv.len

instance (priv : GBufferedInputStreamPrivate) : Decidable (well_typed priv) := by
  unfold well_typed; infer_instance

/-- The cursor invariant of the data model: `0 ≤ pos ≤ end ≤ len`. -/
def cursor_inv (priv : GBufferedInputStreamPrivate) : Prop :=
  priv.pos ≤ priv.end_ ∧ priv.end_ ≤ priv.len

instance (priv : GBufferedInputStreamPrivate) : Decidable (cursor_inv priv) := by
  unfold cursor_inv; infer_instance

/-- The state is well typed and satisfies the cursor invariant. -/
def state_ok {σ : Type} (stream : GBufferedInputStream σ) : Prop :=
  well_typed stream.priv ∧ cursor_inv stream.priv

/-- The buffered window `storage[pos, end)`. -/
def window (priv : GBufferedInputStreamPrivate) : List guint8 :=
  mem_read priv.buffer priv.pos (gsize_sub priv.end_ priv.pos)

/-- The backing source never returns more bytes than were requested of it: a
read answers at most `count` bytes. -/
def read_bounded {σ : Type} (B : BackingSource σ) : Prop :=
  ∀ (st : σ) (count : Nat) (data : List guint8),
    (B.g_input_stream_read st count).1 = .ok data → data.length ≤ count

/-- The reads of the backing source hand out its remaining data in order.
`remaining st` is the data the source in state `st` has not yet produced.  A
read answers at most `count` bytes, which are a prefix of the remaining data and
are removed from it; a read that fails produces nothing and leaves the remaining
data as it was. -/
def read_in_order {σ : Type} (B : BackingSource σ) (remaining : σ → List guint8) : Prop :=
  ∀ (st : σ) (count : Nat),
    (∀ data, (B.g_input_stream_read st count).1 = .ok data →
      data.length ≤ count ∧ remaining st = data ++ remaining (B.g_input_stream_read st count).2) ∧
    (∀ e, (B.g_input_stream_read st count).1 = .error e →
      remaining (B.g_input_stream_read st count).2 = remaining st)

/-- The skips of the backing source consume its remaining data in order: a skip
removes at most `count` bytes from the front of the remaining data and answers
how many; a skip that fails leaves the remaining data as it was. -/
def skip_in_order {σ : Type} (B : BackingSource σ) (remaining : σ → List guint8) : Prop :=
  ∀ (st : σ) (count : Nat),
    (∀ n, (B.g_input_stream_skip st count).1 = .ok n →
      n ≤ count ∧ n ≤ (remaining st).length ∧
        remaining (B.g_input_stream_skip st count).2 = (remaining st).drop n) ∧
    (∀ e, (B.g_input_stream_skip st count).1 = .error e →
      remaining (B.g_input_stream_skip st count).2 = remaining st)

/-- The logical stream of a state: the buffered window followed by the bytes the
backing source has not yet produced. -/
def logical_stream {σ : Type} (remaining : σ → List guint8) (stream : GBufferedInputStream σ) :
    List guint8 :=
  window stream.priv ++ remaining stream.base_stream

/-! ## Observing the calls made to the backing source -/

/-- One call into the backing source, with the number of bytes requested. -/
inductive SourceCall where
  | read (count : Nat)
  | skip (count : Nat)
  deriving DecidableEq, Repr

/-- The backing source `B` with a log: every call is appended to the log kept
next to the state of the base stream, and is otherwise answered as `B` does. -/
def traced {σ : Type} (B : BackingSource σ) : BackingSource (σ × List SourceCall) where
  g_input_stream_read := fun st count =>
    ((B.g_input_stream_read st.1 count).1,
      ((B.g_input_stream_read st.1 count).2, st.2 ++ [SourceCall.read count]))
  g_input_stream_skip := fun st count =>
    ((B.g_input_stream_skip st.1 count).1,
      ((B.g_input_stream_skip st.1 count).2, st.2 ++ [SourceCall.skip count]))

/-- The stream `stream` over the traced source, starting with the log `log`. -/
def with_log {σ : Type} (stream : GBufferedInputStream σ) (log : List SourceCall) :
    GBufferedInputStream (σ × List SourceCall) :=
  { priv := stream.priv, base_stream := (stream.base_stream, log),
    pending := stream.pending, closed := stream.closed }

/-! ## A concrete backing source -/

/-- State of a scripted source: the data it has not yet produced, and for each
coming call how it will answer (`none`: fail; `some m`: produce at most `m`
bytes).  With the script used up, a call is answered in full. -/
structure ScriptedSource where
  data : List guint8
  script : List (Option Nat)
  deriving DecidableEq, Repr

/-- The scripted source as a backing source. -/
def scripted : BackingSource ScriptedSource where
  g_input_stream_read := fun st count =>
    match st.script with
    | [] => (.ok (st.data.take count), { st with data := st.data.drop count })
    | none :: rest => (.error (.G_IO_ERROR_SOURCE 0), { st with script := rest })
    | some m :: rest =>
      (.ok (st.data.take (min m count)),
        { data := st.data.drop (min m count), script := rest })
  g_input_stream_skip := fun st count =>
    match st.script with
    | [] => (.ok (min count st.data.length), { st with data := st.data.drop count })
    | none :: rest => (.error (.G_IO_ERROR_SOURCE 0), { st with script := rest })
    | some m :: rest =>
      (.ok (min (min m count) st.data.length),
        { data := st.data.drop (min m count), script := rest })

/-- A stream of capacity `len` with an empty buffer over the scripted source. -/
def new_sized (len : Nat) (src : ScriptedSource) : GBufferedInputStream ScriptedSource :=
  { priv := { buffer := g_malloc len, len := len, pos := 0, end_ := 0 },
    base_stream := src, pending := false, closed := false }

/-! ## Concrete states -/

/-- Scenario A: capacity 4 and an empty buffer; the source still holds
`[1, 2, 3, 4, 5, 6]` and hands it out in a chunk of 4 and then a chunk of 2. -/
def scenario_A : GBufferedInputStream ScriptedSource :=
  new_sized 4 { data := [1, 2, 3, 4, 5, 6], script := [some 4, some 2] }

/-- Scenario A once `read (3)` has been served: one byte is left in the buffer. -/
def scenario_A_after_read : GBufferedInputStream ScriptedSource :=
  { priv := { buffer := [1, 2, 3, 4], len := 4, pos := 3, end_ := 4 },
    base_stream := { data := [5, 6], script := [some 2] },
    pending := false, closed := false }

/-- Scenario A once the following `read (5)` has been served: the buffer is
drained and the source is exhausted. -/
def scenario_A_end : GBufferedInputStream ScriptedSource :=
  { priv := { buffer := [5, 6, 3, 4], len := 4, pos := 2, end_ := 2 },
    base_stream := { data := [], script := [] },
    pending := false, closed := false }

/-- Scenario B: capacity 4 and an empty buffer; the source answers the next
read with 40 bytes. -/
def scenario_B : GBufferedInputStream ScriptedSource :=
  new_sized 4 { data := List.replicate 60 7, script := [some 40] }

/-- Scenario C: capacity 8 with 3 buffered bytes; the next call into the source
fails. -/
def scenario_C : GBufferedInputStream ScriptedSource :=
  { priv := { buffer := [1, 2, 3, 4, 5, 6, 7, 8], len := 8, pos := 0, end_ := 3 },
    base_stream := { data := [9, 10], script := [none] },
    pending := false, closed := false }

/-- A stream of capacity 4 holding the three unread bytes `[2, 3, 4]`. -/
def three_buffered : GBufferedInputStream ScriptedSource :=
  { priv := { buffer := [1, 2, 3, 4], len := 4, pos := 1, end_ := 4 },
    base_stream := { data := [5, 6], script := [] },
    pending := false, closed := false }

/-! ## Fill requests -/

/-- The number of bytes a fill is to ask of the backing source, in the words of
the specification: `min (c, len - available)`, where `c = len` when `count = -1`
and `c = count` otherwise. -/
def fill_request (priv : GBufferedInputStreamPrivate) (count : Int) : Nat :=
  min (if count = -1 then priv.len else count.toNat) (priv.len - (priv.end_ - priv.pos))

/-- The stream once a fill has made room for its request: the buffered window is
moved to the start of the buffer when the room at the tail is smaller than the
request, and is left where it is otherwise. -/
def fill_prepared {σ : Type} (stream : GBufferedInputStream σ) (count : Int) :
    GBufferedInputStream σ :=
  if stream.priv.len - stream.priv.end_ < fill_request stream.priv count then
    compact_buffer stream
  else stream

/-! ## Further concrete states -/

/-- Scenario A after `read (3)`, with the stream closed since. -/
def scenario_A_closed : GBufferedInputStream ScriptedSource :=
  { scenario_A_after_read with closed := true }

/-- Scenario A after `read (3)`, while another operation is outstanding. -/
def scenario_A_pending : GBufferedInputStream ScriptedSource :=
  { scenario_A_after_read with pending := true }

/-- A stream of capacity 4 whose buffer is full of unread bytes; the source
still holds `[5, 6]`. -/
def full_buffer : GBufferedInputStream ScriptedSource :=
  { priv := { buffer := [1, 2, 3, 4], len := 4, pos := 0, end_ := 4 },
    base_stream := { data := [5, 6], script := [] },
    pending := false, closed := false }

/-- A backing source that turns every request down with its own
`G_IO_ERROR_INVALID_ARGUMENT` (as a descriptor-based source does on `EINVAL`). -/
def rejecting : BackingSource Unit where
  g_input_stream_read := fun st _ => (.error .G_IO_ERROR_INVALID_ARGUMENT, st)
  g_input_stream_skip := fun st _ => (.error .G_IO_ERROR_INVALID_ARGUMENT, st)

/-- An open, idle stream of capacity 4 with an empty buffer over `rejecting`. -/
def rejecting_stream : GBufferedInputStream Unit :=
  { priv := { buffer := g_malloc 4, len := 4, pos := 0, end_ := 0 },
    base_stream := (), pending := false, closed := false }

/-- A stream of capacity 4 with an empty buffer over a source whose next call
fails. -/
def scenario_failing : GBufferedInputStream ScriptedSource :=
  new_sized 4 { data := [9], script := [none] }

/-! ## Asynchronous operations -/

/-- The `gssize` a blocking call returns together with the `GError` it stores:
`-1` with the error, or the non-negative count with no error. -/
def gssize_of_result (r : Except GError Nat) : Int × Option GError :=
  match r with
  | .error e => (-1, some e)
  | .ok n => ((n : Int), none)

/-- The functions of this file that serve as the source tag of a
`GSimpleAsyncResult`. -/
inductive SourceTag where
  | g_buffered_input_stream_fill_async
  | g_buffered_input_stream_real_fill_async
  | g_buffered_input_stream_read_async
  deriving DecidableEq, Repr

/-- Modelled from the spec: `GSimpleAsyncResult` of gsimpleasyncresult.c, which is
not part of this file of the library.  It carries the source tag it was created
with, the error stored by `g_simple_async_result_set_from_error` (if any), and
the result of the operation. -/
structure GSimpleAsyncResult (α : Type) where
  source_tag : SourceTag
  error : Option GError
  op_res : α
  deriving DecidableEq, Repr

/-- The asynchronous read asked of the base stream by
`g_input_stream_read_async (base_stream, ptr, count, ..)`: `offset` is the
offset of `ptr` in the block it points into, `count` the number of bytes. -/
structure SourceReadAsync where
  offset : Nat
  count : Nat
  deriving DecidableEq, Repr

/-- Modelled from the spec: `g_input_stream_read_finish (base_stream, result, &error)`
of ginputstream.c, which is not part of this file of the library.  The result of
a completed read of the base stream is its answer: an error, or the bytes
it has stored; the call returns `-1` with the error, or the number of bytes. -/
def g_input_stream_read_finish (result : Except GError (List guint8)) : Int × Option GError :=
  match result with
  | .error e => (-1, some e)
  | .ok data => ((data.length : Int), none)

/-- `fill_async_callback`: the `GSimpleAsyncResult` and the stream after the
callback, or `none` when the assertion
`g_assert_cmpint (priv->end + res, <=, priv->len)` fails and the program is
aborted.  `g_assert_cmpint` is a macro of gtestutils.h, which is not part of
this file of the library; it is taken to compare the two values it is given.
`priv->end + res` is a `gsize` sum. -/
def fill_async_callback {σ : Type} (stream : GBufferedInputStream σ)
    (simple : GSimpleAsyncResult Int) (result : Except GError (List guint8)) :
    Option (GSimpleAsyncResult Int × GBufferedInputStream σ) :=
  let res := (g_input_stream_read_finish result).1
  let error := (g_input_stream_read_finish result).2
  let simple := { simple with op_res := res }
  if res = -1 then
    some ({ simple with error := error }, stream)
  else
    let priv := stream.priv
    if gsize_add priv.end_ (to_gsize res) ≤ priv.len then
      some (simple,
        { stream with priv := { priv with end_ := gsize_add priv.end_ (to_gsize res) } })
    else
      none

/-- `g_buffered_input_stream_real_fill_async`, the default `fill_async` of the
class: the stream afterwards, the `GSimpleAsyncResult` created for the
operation (its result is not set yet and is shown as 0), and the read asked of
the base stream, whose completion runs `fill_async_callback`. -/
def g_buffered_input_stream_real_fill_async {σ : Type} (stream : GBufferedInputStream σ)
    (count : Int) : GBufferedInputStream σ × GSimpleAsyncResult Int × SourceReadAsync :=
  let priv := stream.priv
  let count : Nat := if count = -1 then priv.len else to_gsize count
  let in_buffer := gsize_sub priv.end_ priv.pos
  -- Never fill more than can fit in the buffer
  let count := min count (gsize_sub priv.len in_buffer)
  -- If requested length does not fit at end, compact
  let stream := if gsize_sub priv.len priv.end_ < count then compact_buffer stream else stream
  let priv := stream.priv
  (stream,
    { source_tag := .g_buffered_input_stream_real_fill_async, error := none, op_res := 0 },
    { offset := priv.end_, count := count })

/-- `g_buffered_input_stream_real_fill_finish`. -/
def g_buffered_input_stream_real_fill_finish (result : GSimpleAsyncResult Int) : Int :=
  result.op_res

/-- `g_buffered_input_stream_fill_finish`: the returned `gssize` and the error
stored through `error` (if any). -/
def g_buffered_input_stream_fill_finish (result : GSimpleAsyncResult Int) :
    Int × Option GError :=
  match result.error with
  | some e => (-1, some e)
  | none =>
    -- Special case read of 0 bytes
    if result.source_tag = .g_buffered_input_stream_fill_async then (0, none)
    else (g_buffered_input_stream_real_fill_finish result, none)

/-- The base stream carrying out the read asked of it for a fill: it answers as
`B` answers a blocking read of `request.count` bytes, and the bytes it produces
are stored at `request.offset` of the stream's buffer, where the pointer
`priv->buffer + priv->end` handed over with the request points.  The answer and
the stream afterwards. -/
def base_read_into_buffer {σ : Type} (B : BackingSource σ) (stream : GBufferedInputStream σ)
    (request : SourceReadAsync) : Except GError (List guint8) × GBufferedInputStream σ :=
  let r := B.g_input_stream_read stream.base_stream request.count
  let buffer :=
    match r.1 with
    | .ok data => mem_write stream.priv.buffer request.offset data
    | .error _ => stream.priv.buffer
  (r.1, { stream with priv := { stream.priv with buffer := buffer }, base_stream := r.2 })

/-- An asynchronous fill of the class run to its end:
`g_buffered_input_stream_real_fill_async`, then the read of the base stream, then
`fill_async_callback` on its completion. -/
def real_fill_async_run {σ : Type} (B : BackingSource σ) (stream : GBufferedInputStream σ)
    (count : Int) : Option (GSimpleAsyncResult Int × GBufferedInputStream σ) :=
  let issued := g_buffered_input_stream_real_fill_async stream count
  let done := base_read_into_buffer B issued.1 issued.2.2
  fill_async_callback done.2 issued.2.1 done.1

/-- `ReadAsyncData`.  `buffer` is the caller's block that the record points to;
`bytes_read` and `count` are `gssize` fields. -/
structure ReadAsyncData where
  bytes_read : Int
  count : Int
  buffer : List guint8
  deriving DecidableEq, Repr

/-- What `g_buffered_input_stream_read_async` has set going when it returns:
the completion in idle of the finished result, a read of the base stream that
completes with `large_read_callback`, or a `fill_async` of the class that
completes with `read_fill_buffer_callback`. -/
inductive ReadAsyncIssued where
  | complete_in_idle
  | base_read_async (request : SourceReadAsync)
  | fill_async (count : Int)
  deriving DecidableEq, Repr

/-- `g_buffered_input_stream_read_async`: the stream afterwards, the
`GSimpleAsyncResult` of the operation with its `ReadAsyncData`, and what has
been set going.  `data->count` is not set on the immediate path and is shown
as 0 there. -/
def g_buffered_input_stream_read_async {σ : Type} (stream : GBufferedInputStream σ)
    (buffer : List guint8) (count : Nat) :
    GBufferedInputStream σ × GSimpleAsyncResult ReadAsyncData × ReadAsyncIssued :=
  let priv := stream.priv
  let available := gsize_sub priv.end_ priv.pos
  if count ≤ available then
    ({ stream with priv := { priv with pos := gsize_add priv.pos count } },
      { source_tag := .g_buffered_input_stream_read_async, error := none,
        op_res := { buffer := memcpy buffer 0 priv.buffer priv.pos count,
                    bytes_read := to_gssize count, count := 0 } },
      .complete_in_idle)
  else
    -- Full request not available, read all currently available and request refill for more
    let buffer := memcpy buffer 0 priv.buffer priv.pos available
    let stream := { stream with priv := { priv with pos := 0, end_ := 0 } }
    let priv := stream.priv
    let count := gsize_sub count available
    let data : ReadAsyncData :=
      { buffer := buffer, bytes_read := to_gssize available, count := to_gssize count }
    let simple : GSimpleAsyncResult ReadAsyncData :=
      { source_tag := .g_buffered_input_stream_read_async, error := none, op_res := data }
    if count > priv.len then
      -- Large request, shortcut buffer
      (stream, simple, .base_read_async { offset := data.bytes_read.toNat, count := count })
    else
      (stream, simple, .fill_async (to_gssize priv.len))

/-- `large_read_callback`.  The bytes the base stream produced are in the
caller's block already. -/
def large_read_callback (simple : GSimpleAsyncResult ReadAsyncData)
    (result : Except GError (List guint8)) : GSimpleAsyncResult ReadAsyncData :=
  let data := simple.op_res
  let nread := (g_input_stream_read_finish result).1
  let error := (g_input_stream_read_finish result).2
  -- Only report the error if we've not already read some data
  let simple := if nread < 0 ∧ data.bytes_read = 0 then { simple with error := error } else simple
  let data := if nread > 0 then { data with bytes_read := data.bytes_read + nread } else data
  { simple with op_res := data }

/-- `read_fill_buffer_callback`: the `GSimpleAsyncResult` of the read and the
stream afterwards.  `MIN (data->count, available)` is carried out on `gsize`
values. -/
def read_fill_buffer_callback {σ : Type} (stream : GBufferedInputStream σ)
    (simple : GSimpleAsyncResult ReadAsyncData) (result : GSimpleAsyncResult Int) :
    GSimpleAsyncResult ReadAsyncData × GBufferedInputStream σ :=
  let priv := stream.priv
  let data := simple.op_res
  let nread := (g_buffered_input_stream_fill_finish result).1
  let error := (g_buffered_input_stream_fill_finish result).2
  let simple := if nread < 0 ∧ data.bytes_read = 0 then { simple with error := error } else simple
  if nread > 0 then
    let available := gsize_sub priv.end_ priv.pos
    let count := to_gssize (min (to_gsize data.count) available)
    let buffer := memcpy data.buffer data.bytes_read.toNat priv.buffer priv.pos (to_gsize count)
    ({ simple with
        op_res := { buffer := buffer, bytes_read := data.bytes_read + count, count := count } },
      { stream with priv := { priv with pos := gsize_add priv.pos (to_gsize count) } })
  else
    ({ simple with op_res := data }, stream)

/-- `g_buffered_input_stream_read_finish`. -/
def g_buffered_input_stream_read_finish (result : GSimpleAsyncResult ReadAsyncData) : Int :=
  result.op_res.bytes_read

/-- An asynchronous read run to its end: `g_buffered_input_stream_read_async`,
then what it has set going, then the completion callback.  On the bypass shape
the base stream answers as `B` answers a blocking read and stores its bytes in
the caller's block at the offset handed over with the request. -/
def read_async_run {σ : Type} (B : BackingSource σ) (stream : GBufferedInputStream σ)
    (buffer : List guint8) (count : Nat) :
    Option (GSimpleAsyncResult ReadAsyncData × GBufferedInputStream σ) :=
  let issued := g_buffered_input_stream_read_async stream buffer count
  let simple := issued.2.1
  match issued.2.2 with
  | .complete_in_idle => some (simple, issued.1)
  | .base_read_async request =>
    let r := B.g_input_stream_read issued.1.base_stream request.count
    let buffer :=
      match r.1 with
      | .ok bytes => mem_write simple.op_res.buffer request.offset bytes
      | .error _ => simple.op_res.buffer
    some (large_read_callback { simple with op_res := { simple.op_res with buffer := buffer } } r.1,
      { issued.1 with base_stream := r.2 })
  | .fill_async count =>
    match real_fill_async_run B issued.1 count with
    | none => none
    | some (result, stream) => some (read_fill_buffer_callback stream simple result)

/-- Modelled from the spec: what the caller of a finished asynchronous read is
handed by `g_input_stream_read_finish` of ginputstream.c, which is not part of
this file of the library: the error stored in the result, if there is one, with
`-1`, and otherwise what the `read_finish` of the class returns. -/
def read_async_result (result : GSimpleAsyncResult ReadAsyncData) : Int × Option GError :=
  match result.error with
  | some e => (-1, some e)
  | none => (g_buffered_input_stream_read_finish result, none)

/-- Modelled from the spec: `g_input_stream_read_async` of ginputstream.c, which is
not part of this file of the library.  It starts the operation with
`g_input_stream_set_pending`; when that fails the failure is the outcome and the
`read_async` of the class is not called; otherwise the `read_async` of the class
is called on the stream marked pending. -/
def g_input_stream_read_async {σ : Type} (stream : GBufferedInputStream σ)
    (buffer : List guint8) (count : Nat) :
    Except GError (GSimpleAsyncResult ReadAsyncData × ReadAsyncIssued) ×
      GBufferedInputStream σ :=
  match g_input_stream_set_pending stream with
  | .error e => (.error e, stream)
  | .ok stream =>
    let issued := g_buffered_input_stream_read_async stream buffer count
    (.ok (issued.2.1, issued.2.2), issued.1)

/-! ## The fill of the class as a parameter -/

/-- The `fill` of a class (`GBufferedInputStreamClass.fill`), which
`g_buffered_input_stream_fill` and `g_buffered_input_stream_read_byte` call as
`class->fill (stream, count, cancellable, error)`: from the stream and `count`
to the result and the stream afterwards. -/
abbrev ClassFill (σ : Type) : Type :=
  GBufferedInputStream σ → Int → Except GError Nat × GBufferedInputStream σ

/-- `g_buffered_input_stream_fill` with the `fill` of the class as a parameter.
`g_buffered_input_stream_fill B` is its instance at the default `fill` of the
class, `g_buffered_input_stream_real_fill B`. -/
def g_buffered_input_stream_fill_with {σ : Type} (class_fill : ClassFill σ)
    (stream : GBufferedInputStream σ) (count : Int) :
    Except GError Nat × GBufferedInputStream σ :=
  if count < -1 then
    (.error .G_IO_ERROR_INVALID_ARGUMENT, stream)
  else
    match g_input_stream_set_pending stream with
    | .error e => (.error e, stream)
    | .ok stream =>
      match class_fill stream count with
      | (res, stream) => (res, g_input_stream_clear_pending stream)

/-- `g_buffered_input_stream_read_byte` with the `fill` of the class as a
parameter.  `g_buffered_input_stream_read_byte B` is its instance at the
default `fill` of the class, `g_buffered_input_stream_real_fill B`. -/
def g_buffered_input_stream_read_byte_with {σ : Type} (class_fill : ClassFill σ)
    (stream : GBufferedInputStream σ) :
    Int × Option GError × GBufferedInputStream σ :=
  if g_input_stream_is_closed stream then
    (-1, some .G_IO_ERROR_CLOSED, stream)
  else
    match g_input_stream_set_pending stream with
    | .error e => (-1, some e, stream)
    | .ok stream =>
      let priv := stream.priv
      let available := gsize_sub priv.end_ priv.pos
      if available ≠ 0 then
        let stream := g_input_stream_clear_pending stream
        (((priv.buffer.getD priv.pos 0).val : Int), none,
          { stream with priv := { priv with pos := gsize_add priv.pos 1 } })
      else
        -- Byte not available, request refill for more
        let stream := { stream with priv := { priv with pos := 0, end_ := 0 } }
        let priv := stream.priv
        match class_fill stream (to_gssize priv.len) with
        | (.error e, stream) => (-1, some e, g_input_stream_clear_pending stream)
        | (.ok nread, stream) =>
          let stream := g_input_stream_clear_pending stream
          let priv := stream.priv
          if nread ≤ 0 then
            (-1, none, stream) -- end of stream
          else
            (((priv.buffer.getD priv.pos 0).val : Int), none,
              { stream with priv := { priv with pos := gsize_add priv.pos 1 } })

/-- A `fill` of a class that, while it runs, tries to start another operation
on the stream it is handed: it calls `g_buffered_input_stream_read_byte` and
reports how that call ends (its error, or 0 bytes filled). -/
def reentrant_fill {σ : Type} (B : BackingSource σ) : ClassFill σ :=
  fun stream _ =>
    ((match (g_buffered_input_stream_read_byte B stream).2.1 with
      | some e => .error e
      | none => .ok 0),
      (g_buffered_input_stream_read_byte B stream).2.2)

/-! ## Machine arithmetic lemmas -/

theorem gsize_sub_eq {a b : Nat} (h : b ≤ a) (ha : a ≤ G_MAXSIZE) : gsize_sub a b = a - b := by
  simp only [gsize_sub, G_MAXSIZE] at *
  omega

theorem gsize_add_eq {a b : Nat} (h : a + b ≤ G_MAXSIZE) : gsize_add a b = a + b := by
  simp only [gsize_add, G_MAXSIZE] at *
  omega

theorem gsize_sub_le (a b : Nat) : gsize_sub a b ≤ G_MAXSIZE := by
  simp only [gsize_sub, G_MAXSIZE] at *
  omega

theorem to_gsize_to_gssize {n : Nat} (h : n ≤ G_MAXSIZE) : to_gsize (to_gssize n) = n := by
  simp only [to_gsize, to_gssize, G_MAXSIZE, G_MAXSSIZE] at *
  split <;> omega

theorem to_gssize_eq_neg_one {n : Nat} (h : n ≤ G_MAXSIZE) : to_gssize n = -1 ↔ n = G_MAXSIZE := by
  simp only [to_gssize, G_MAXSIZE, G_MAXSSIZE] at *
  split <;> omega

theorem fill_count_len {n : Nat} (h : n ≤ G_MAXSIZE) :
    (if to_gssize n = -1 then n else to_gsize (to_gssize n)) = n := by
  split
  · rfl
  · exact to_gsize_to_gssize h

/-! ## Memory lemmas -/

theorem mem_read_length (src : List guint8) (off n : Nat) :
    (mem_read src off n).length = min n (src.length - off) := by
  simp [mem_read]

theorem mem_read_length_of_le {src : List guint8} {off n : Nat} (h : off + n ≤ src.length) :
    (mem_read src off n).length = n := by
  simp [mem_read]; omega

theorem mem_write_zero (dst data : List guint8) :
    mem_write dst 0 data = data ++ dst.drop data.length := by
  simp [mem_write]

theorem mem_write_nil (dst : List guint8) (off : Nat) : mem_write dst off [] = dst := by
  simp [mem_write]

theorem mem_write_length {dst data : List guint8} {off : Nat} (h : off + data.length ≤ dst.length) :
    (mem_write dst off data).length = dst.length := by
  simp [mem_write]; omega

theorem mem_read_mem_write_same {dst data : List guint8} {off : Nat} (h : off ≤ dst.length)
    (n : Nat) (hn : n ≤ data.length) :
    mem_read (mem_write dst off data) off n = data.take n := by
  simp only [mem_read, mem_write, List.append_assoc]
  rw [List.drop_append_of_le_length (by simp; omega)]
  simp [List.drop_take, Nat.min_eq_left h]
  exact Or.inr hn

theorem mem_read_mem_write_before {dst data : List guint8} {off a n : Nat} (h : a + n ≤ off)
    (hoff : off ≤ dst.length) :
    mem_read (mem_write dst off data) a n = mem_read dst a n := by
  simp only [mem_read, mem_write, List.append_assoc]
  apply List.ext_getElem
  · simp; omega
  · intro i h1 h2
    simp at h1 h2
    simp [List.getElem_append, List.getElem_take', List.getElem_drop]
    rw [dif_pos (by omega)]

theorem real_fill_emptied_ok {σ : Type} (B : BackingSource σ) (stream : GBufferedInputStream σ)
    (hp : stream.priv.pos = 0) (he : stream.priv.end_ = 0) (hl : stream.priv.len ≤ G_MAXSIZE)
    (data : List guint8) (base : σ)
    (hr : B.g_input_stream_read stream.base_stream stream.priv.len = (.ok data, base))
    (hn : data.length ≤ G_MAXSIZE) :
    g_buffered_input_stream_real_fill B stream (to_gssize stream.priv.len) =
      (.ok data.length,
        { stream with
          priv := { stream.priv with buffer := mem_write stream.priv.buffer 0 data,
                                     end_ := data.length },
          base_stream := base }) := by
  have h0 : gsize_sub 0 0 = 0 := by simp [gsize_sub]
  have h1 : gsize_sub stream.priv.len 0 = stream.priv.len := gsize_sub_eq (Nat.zero_le _) hl
  have h2 : gsize_add 0 data.length = data.length := by rw [gsize_add_eq (by omega)]; omega
  simp only [g_buffered_input_stream_real_fill, fill_count_len hl, hp, he, h0, h1, Nat.min_self,
    Nat.lt_irrefl, if_false, hr, h2]
  by_cases hd : data.length > 0
  · simp [hd]
  · simp [hd]; omega

theorem real_fill_emptied_error {σ : Type} (B : BackingSource σ) (stream : GBufferedInputStream σ)
    (hp : stream.priv.pos = 0) (he : stream.priv.end_ = 0) (hl : stream.priv.len ≤ G_MAXSIZE)
    (e : GError) (base : σ)
    (hr : B.g_input_stream_read stream.base_stream stream.priv.len = (.error e, base)) :
    g_buffered_input_stream_real_fill B stream (to_gssize stream.priv.len) =
      (.error e, { stream with base_stream := base }) := by
  have h0 : gsize_sub 0 0 = 0 := by simp [gsize_sub]
  have h1 : gsize_sub stream.priv.len 0 = stream.priv.len := gsize_sub_eq (Nat.zero_le _) hl
  simp only [g_buffered_input_stream_real_fill, fill_count_len hl, hp, he, h0, h1, Nat.min_self,
    Nat.lt_irrefl, if_false, hr]

theorem read_fast_raw {σ : Type} (B : BackingSource σ) (stream : GBufferedInputStream σ)
    (buffer : List guint8) (count : Nat)
    (h : count ≤ gsize_sub stream.priv.end_ stream.priv.pos) :
    g_buffered_input_stream_read B stream buffer count =
      (.ok count, memcpy buffer 0 stream.priv.buffer stream.priv.pos count,
        { stream with priv := { stream.priv with pos := gsize_add stream.priv.pos count } }) := by
  simp [g_buffered_input_stream_read, h]

theorem read_bypass_ok_raw {σ : Type} (B : BackingSource σ) (stream : GBufferedInputStream σ)
    (buffer : List guint8) (count : Nat)
    (h1 : ¬ count ≤ gsize_sub stream.priv.end_ stream.priv.pos)
    (h2 : gsize_sub count (gsize_sub stream.priv.end_ stream.priv.pos) > stream.priv.len)
    (data : List guint8) (base : σ)
    (hr : B.g_input_stream_read stream.base_stream
      (gsize_sub count (gsize_sub stream.priv.end_ stream.priv.pos)) = (.ok data, base)) :
    g_buffered_input_stream_read B stream buffer count =
      (.ok (if data.length > 0 then
              gsize_add (gsize_sub stream.priv.end_ stream.priv.pos) data.length
            else gsize_sub stream.priv.end_ stream.priv.pos),
        mem_write (memcpy buffer 0 stream.priv.buffer stream.priv.pos
          (gsize_sub stream.priv.end_ stream.priv.pos))
          (gsize_sub stream.priv.end_ stream.priv.pos) data,
        { emptied stream with base_stream := base }) := by
  simp [g_buffered_input_stream_read, h1, h2, hr, emptied]

theorem read_bypass_error_raw {σ : Type} (B : BackingSource σ) (stream : GBufferedInputStream σ)
    (buffer : List guint8) (count : Nat)
    (h1 : ¬ count ≤ gsize_sub stream.priv.end_ stream.priv.pos)
    (h2 : gsize_sub count (gsize_sub stream.priv.end_ stream.priv.pos) > stream.priv.len)
    (e : GError) (base : σ)
    (hr : B.g_input_stream_read stream.base_stream
      (gsize_sub count (gsize_sub stream.priv.end_ stream.priv.pos)) = (.error e, base)) :
    g_buffered_input_stream_read B stream buffer count =
      (if gsize_sub stream.priv.end_ stream.priv.pos = 0 then .error e
        else .ok (gsize_sub stream.priv.end_ stream.priv.pos),
        memcpy buffer 0 stream.priv.buffer stream.priv.pos
          (gsize_sub stream.priv.end_ stream.priv.pos),
        { emptied stream with base_stream := base }) := by
  simp [g_buffered_input_stream_read, h1, h2, hr, emptied]

theorem read_refill_ok_raw {σ : Type} (B : BackingSource σ) (stream : GBufferedInputStream σ)
    (buffer : List guint8) (count : Nat) (hl : stream.priv.len ≤ G_MAXSIZE)
    (h1 : ¬ count ≤ gsize_sub stream.priv.end_ stream.priv.pos)
    (h2 : ¬ gsize_sub count (gsize_sub stream.priv.end_ stream.priv.pos) > stream.priv.len)
    (data : List guint8) (base : σ)
    (hr : B.g_input_stream_read stream.base_stream stream.priv.len = (.ok data, base))
    (hn : data.length ≤ G_MAXSIZE) :
    g_buffered_input_stream_read B stream buffer count =
      (.ok (gsize_add (gsize_sub stream.priv.end_ stream.priv.pos)
          (min (gsize_sub count (gsize_sub stream.priv.end_ stream.priv.pos)) data.length)),
        memcpy (memcpy buffer 0 stream.priv.buffer stream.priv.pos
            (gsize_sub stream.priv.end_ stream.priv.pos))
          (gsize_sub stream.priv.end_ stream.priv.pos)
          (mem_write stream.priv.buffer 0 data) 0
          (min (gsize_sub count (gsize_sub stream.priv.end_ stream.priv.pos)) data.length),
        { stream with
          priv := { buffer := mem_write stream.priv.buffer 0 data, len := stream.priv.len,
                    pos := min (gsize_sub count (gsize_sub stream.priv.end_ stream.priv.pos))
                      data.length,
                    end_ := data.length },
          base_stream := base }) := by
  have hf := real_fill_emptied_ok B (emptied stream) rfl rfl hl data base hr hn
  have h3 : gsize_sub data.length 0 = data.length := gsize_sub_eq (Nat.zero_le _) hn
  have h4 : ∀ n, n ≤ data.length → gsize_add 0 n = n := by
    intro n hn2; rw [gsize_add_eq (by omega)]; omega
  simp only [emptied] at hf
  simp [g_buffered_input_stream_read, h1, h2, hf, h3, h4]

theorem read_refill_error_raw {σ : Type} (B : BackingSource σ) (stream : GBufferedInputStream σ)
    (buffer : List guint8) (count : Nat) (hl : stream.priv.len ≤ G_MAXSIZE)
    (h1 : ¬ count ≤ gsize_sub stream.priv.end_ stream.priv.pos)
    (h2 : ¬ gsize_sub count (gsize_sub stream.priv.end_ stream.priv.pos) > stream.priv.len)
    (e : GError) (base : σ)
    (hr : B.g_input_stream_read stream.base_stream stream.priv.len = (.error e, base)) :
    g_buffered_input_stream_read B stream buffer count =
      (if gsize_sub stream.priv.end_ stream.priv.pos = 0 then .error e
        else .ok (gsize_sub stream.priv.end_ stream.priv.pos),
        memcpy buffer 0 stream.priv.buffer stream.priv.pos
          (gsize_sub stream.priv.end_ stream.priv.pos),
        { emptied stream with base_stream := base }) := by
  have hf := real_fill_emptied_error B (emptied stream) rfl rfl hl e base hr
  simp only [emptied] at hf
  simp [g_buffered_input_stream_read, h1, h2, hf, emptied]

theorem traced_read {σ : Type} (B : BackingSource σ) (stream : GBufferedInputStream σ)
    (log : List SourceCall) (c : Nat) :
    (traced B).g_input_stream_read (with_log stream log).base_stream c =
      ((B.g_input_stream_read stream.base_stream c).1,
        ((B.g_input_stream_read stream.base_stream c).2, log ++ [SourceCall.read c])) := rfl

theorem traced_skip {σ : Type} (B : BackingSource σ) (stream : GBufferedInputStream σ)
    (log : List SourceCall) (c : Nat) :
    (traced B).g_input_stream_skip (with_log stream log).base_stream c =
      ((B.g_input_stream_skip stream.base_stream c).1,
        ((B.g_input_stream_skip stream.base_stream c).2, log ++ [SourceCall.skip c])) := rfl

theorem available_eq {σ : Type} (stream : GBufferedInputStream σ)
    (ht : well_typed stream.priv) (hinv : cursor_inv stream.priv) :
    g_buffered_input_stream_get_available stream = stream.priv.end_ - stream.priv.pos := by
  obtain ⟨_, _, h3, _⟩ := ht
  exact gsize_sub_eq hinv.1 h3

theorem window_length {σ : Type} (stream : GBufferedInputStream σ)
    (ht : well_typed stream.priv) (hinv : cursor_inv stream.priv) :
    (window stream.priv).length = g_buffered_input_stream_get_available stream := by
  obtain ⟨h1, h2, h3, h4⟩ := ht
  obtain ⟨h5, h6⟩ := hinv
  rw [window, mem_read_length, g_buffered_input_stream_get_available, gsize_sub_eq h5 h3]
  omega

theorem take_two_writes (buffer w d : List guint8) :
    (mem_write (mem_write buffer 0 w) w.length d).take (w.length + d.length) = w ++ d := by
  rw [mem_write_zero]
  simp only [mem_write, List.take_left', List.append_assoc]
  rw [← List.append_assoc, List.take_append_of_le_length (by simp)]
  rw [List.take_of_length_le (by simp)]

theorem read_fast_eq {σ : Type} (B : BackingSource σ) (stream : GBufferedInputStream σ)
    (buffer : List guint8) (count : Nat)
    (ht : well_typed stream.priv) (hinv : cursor_inv stream.priv)
    (hcount : count ≤ g_buffered_input_stream_get_available stream) :
    g_buffered_input_stream_read B stream buffer count =
      (.ok count,
        mem_write buffer 0 (mem_read stream.priv.buffer stream.priv.pos count),
        { stream with priv := { stream.priv with pos := stream.priv.pos + count } }) := by
  obtain ⟨h1, h2, h3, h4⟩ := ht
  obtain ⟨h5, h6⟩ := hinv
  have ha : gsize_sub stream.priv.end_ stream.priv.pos = stream.priv.end_ - stream.priv.pos :=
    gsize_sub_eq h5 h3
  rw [g_buffered_input_stream_get_available, ha] at hcount
  rw [read_fast_raw B stream buffer count (by rw [ha]; exact hcount)]
  have hp : gsize_add stream.priv.pos count = stream.priv.pos + count :=
    gsize_add_eq (by omega)
  simp only [memcpy, hp]

theorem read_zero_eq {σ : Type} (B : BackingSource σ) (stream : GBufferedInputStream σ)
    (buffer : List guint8) (ht : well_typed stream.priv) :
    g_buffered_input_stream_read B stream buffer 0 = (.ok 0, buffer, stream) := by
  obtain ⟨h1, h2, h3, h4⟩ := ht
  rw [read_fast_raw B stream buffer 0 (Nat.zero_le _)]
  have hp : gsize_add stream.priv.pos 0 = stream.priv.pos := by
    rw [gsize_add_eq (by omega)]; rfl
  simp [memcpy, mem_read, mem_write, hp]

theorem read_refill_eq {σ : Type} (B : BackingSource σ) (stream : GBufferedInputStream σ)
    (buffer : List guint8) (count : Nat)
    (ht : well_typed stream.priv) (hc : count ≤ G_MAXSIZE)
    (h1 : g_buffered_input_stream_get_available stream < count)
    (h2 : count - g_buffered_input_stream_get_available stream ≤ stream.priv.len)
    (data : List guint8) (hn : data.length ≤ G_MAXSSIZE)
    (hr : (B.g_input_stream_read stream.base_stream stream.priv.len).1 = .ok data) :
    g_buffered_input_stream_read B stream buffer count =
      (.ok (g_buffered_input_stream_get_available stream +
          min (count - g_buffered_input_stream_get_available stream) data.length),
        mem_write (mem_write buffer 0 (window stream.priv))
          (g_buffered_input_stream_get_available stream)
          (data.take (min (count - g_buffered_input_stream_get_available stream) data.length)),
        { stream with
          priv := { buffer := mem_write stream.priv.buffer 0 data, len := stream.priv.len,
                    pos := min (count - g_buffered_input_stream_get_available stream)
                      data.length,
                    end_ := data.length },
          base_stream := (B.g_input_stream_read stream.base_stream stream.priv.len).2 }) := by
  obtain ⟨t1, t2, t3, t4⟩ := ht
  have hg : gsize_sub stream.priv.end_ stream.priv.pos =
      g_buffered_input_stream_get_available stream := rfl
  have hsub : gsize_sub count (g_buffered_input_stream_get_available stream) =
      count - g_buffered_input_stream_get_available stream :=
    gsize_sub_eq (by omega) hc
  have hn2 : data.length ≤ G_MAXSIZE := by
    simp only [G_MAXSIZE, G_MAXSSIZE] at *; omega
  rw [read_refill_ok_raw B stream buffer count t1 (by rw [hg]; omega)
    (by rw [hg, hsub]; omega) data
    (B.g_input_stream_read stream.base_stream stream.priv.len).2 (by rw [← hr]) hn2]
  have hadd : gsize_add (g_buffered_input_stream_get_available stream)
      (min (count - g_buffered_input_stream_get_available stream) data.length) =
      g_buffered_input_stream_get_available stream +
        min (count - g_buffered_input_stream_get_available stream) data.length :=
    gsize_add_eq (by omega)
  have hrd : mem_read (mem_write stream.priv.buffer 0 data) 0
      (min (count - g_buffered_input_stream_get_available stream) data.length) =
      data.take (min (count - g_buffered_input_stream_get_available stream) data.length) :=
    mem_read_mem_write_same (Nat.zero_le _) _ (Nat.min_le_right _ _)
  simp only [hg, hsub, hadd, memcpy, hrd, window]

theorem read_bypass_ok_eq {σ : Type} (B : BackingSource σ) (stream : GBufferedInputStream σ)
    (buffer : List guint8) (count : Nat)
    (ht : well_typed stream.priv) (hinv : cursor_inv stream.priv) (hc : count ≤ G_MAXSIZE)
    (h1 : g_buffered_input_stream_get_available stream < count)
    (h2 : stream.priv.len < count - g_buffered_input_stream_get_available stream)
    (data : List guint8) (hn : data.length ≤ G_MAXSSIZE)
    (hr : (B.g_input_stream_read stream.base_stream
      (count - g_buffered_input_stream_get_available stream)).1 = .ok data) :
    g_buffered_input_stream_read B stream buffer count =
      (.ok (g_buffered_input_stream_get_available stream + data.length),
        mem_write (mem_write buffer 0 (window stream.priv))
          (g_buffered_input_stream_get_available stream) data,
        { stream with
          priv := { stream.priv with pos := 0, end_ := 0 },
          base_stream := (B.g_input_stream_read stream.base_stream
            (count - g_buffered_input_stream_get_available stream)).2 }) := by
  have ha := available_eq stream ht hinv
  obtain ⟨t1, t2, t3, t4⟩ := ht
  obtain ⟨i1, i2⟩ := hinv
  have hg : gsize_sub stream.priv.end_ stream.priv.pos =
      g_buffered_input_stream_get_available stream := rfl
  have hsub : gsize_sub count (g_buffered_input_stream_get_available stream) =
      count - g_buffered_input_stream_get_available stream :=
    gsize_sub_eq (by omega) hc
  rw [read_bypass_ok_raw B stream buffer count (by rw [hg]; omega) (by rw [hg, hsub]; omega)
    data (B.g_input_stream_read stream.base_stream
      (count - g_buffered_input_stream_get_available stream)).2 (by rw [hg, hsub, ← hr])]
  have hadd : gsize_add (g_buffered_input_stream_get_available stream) data.length =
      g_buffered_input_stream_get_available stream + data.length :=
    gsize_add_eq (by simp only [G_MAXSIZE, G_MAXSSIZE] at *; omega)
  have hres : (if data.length > 0 then
        gsize_add (g_buffered_input_stream_get_available stream) data.length
      else g_buffered_input_stream_get_available stream) =
      g_buffered_input_stream_get_available stream + data.length := by
    split <;> omega
  simp only [hg, hres, memcpy, window, emptied]

theorem read_bypass_error_eq {σ : Type} (B : BackingSource σ) (stream : GBufferedInputStream σ)
    (buffer : List guint8) (count : Nat)
    (ht : well_typed stream.priv) (hc : count ≤ G_MAXSIZE)
    (h1 : g_buffered_input_stream_get_available stream < count)
    (h2 : stream.priv.len < count - g_buffered_input_stream_get_available stream)
    (e : GError)
    (hr : (B.g_input_stream_read stream.base_stream
      (count - g_buffered_input_stream_get_available stream)).1 = .error e) :
    g_buffered_input_stream_read B stream buffer count =
      (if g_buffered_input_stream_get_available stream = 0 then .error e
        else .ok (g_buffered_input_stream_get_available stream),
        mem_write buffer 0 (window stream.priv),
        { stream with
          priv := { stream.priv with pos := 0, end_ := 0 },
          base_stream := (B.g_input_stream_read stream.base_stream
            (count - g_buffered_input_stream_get_available stream)).2 }) := by
  obtain ⟨t1, t2, t3, t4⟩ := ht
  have hg : gsize_sub stream.priv.end_ stream.priv.pos =
      g_buffered_input_stream_get_available stream := rfl
  have hsub : gsize_sub count (g_buffered_input_stream_get_available stream) =
      count - g_buffered_input_stream_get_available stream :=
    gsize_sub_eq (by omega) hc
  rw [read_bypass_error_raw B stream buffer count (by rw [hg]; omega) (by rw [hg, hsub]; omega)
    e (B.g_input_stream_read stream.base_stream
      (count - g_buffered_input_stream_get_available stream)).2 (by rw [hg, hsub, ← hr])]
  simp only [hg, memcpy, window, emptied]

/-- C3: read fast path. In a well-typed state satisfying the cursor invariant,
`read (count)` with `count ≤ available` returns `count`, stores exactly the
`count` bytes `storage[pos, pos + count)` at the start of the destination, moves
`pos` to `pos + count`, leaves `end`, `len`, the storage and the base stream as
they were, and makes no call to the backing source (run over the traced source,
the call log is unchanged).  `read (0)` returns 0, changes nothing and makes no
call in every well-typed state, whatever the cursors are. -/
theorem read_fast_path {σ : Type} (B : BackingSource σ) (stream : GBufferedInputStream σ)
    (log : List SourceCall) (buffer : List guint8) (count : Nat)
    (ht : well_typed stream.priv) :
    (cursor_inv stream.priv → count ≤ g_buffered_input_stream_get_available stream →
      g_buffered_input_stream_read B stream buffer count =
        (.ok count,
          mem_write buffer 0 (mem_read stream.priv.buffer stream.priv.pos count),
          { stream with priv := { stream.priv with pos := stream.priv.pos + count } })
      ∧ (mem_read stream.priv.buffer stream.priv.pos count).length = count
      ∧ (g_buffered_input_stream_read (traced B) (with_log stream log) buffer
          count).2.2.base_stream.2 = log)
    ∧ g_buffered_input_stream_read B stream buffer 0 = (.ok 0, buffer, stream)
    ∧ (g_buffered_input_stream_read (traced B) (with_log stream log) buffer
        0).2.2.base_stream.2 = log := by
  refine ⟨fun hinv hcount => ⟨read_fast_eq B stream buffer count ht hinv hcount, ?_, ?_⟩,
    read_zero_eq B stream buffer ht, ?_⟩
  · have ha := available_eq stream ht hinv
    obtain ⟨h1, h2, h3, h4⟩ := ht
    obtain ⟨h5, h6⟩ := hinv
    exact mem_read_length_of_le (by omega)
  · rw [read_fast_eq (traced B) (with_log stream log) buffer count ht hinv hcount]
    rfl
  · rw [read_zero_eq (traced B) (with_log stream log) buffer ht]
    rfl

/-- C4: read refill path. In every well-typed state with `a = available < count`
and `count - a ≤ len`, if the one source read issued by the fill cycle (a read
of `len` bytes, the whole emptied buffer) answers the bytes `data`,
`n = data.length`, then `read (count)` returns `a + min (count - a) n`; the
destination has received the buffered window at offset 0 and then the first
`min (count - a) n` bytes of `data` at offset `a`; afterwards the buffer holds
`data` at its start, `pos = min (count - a) n` and `end = n`; and the source has
been called exactly once, for `len` bytes (run over the traced source, the call
log grows by that one read).  When the state satisfies the cursor invariant the
window has exactly `a` bytes, so the destination starts with the `a` old bytes
followed by the first `min (count - a) n` filled bytes. -/
theorem read_refill_path {σ : Type} (B : BackingSource σ) (stream : GBufferedInputStream σ)
    (log : List SourceCall) (buffer : List guint8) (count : Nat)
    (ht : well_typed stream.priv) (hc : count ≤ G_MAXSIZE)
    (h1 : g_buffered_input_stream_get_available stream < count)
    (h2 : count - g_buffered_input_stream_get_available stream ≤ stream.priv.len)
    (data : List guint8) (hn : data.length ≤ G_MAXSSIZE)
    (hr : (B.g_input_stream_read stream.base_stream stream.priv.len).1 = .ok data) :
    g_buffered_input_stream_read B stream buffer count =
      (.ok (g_buffered_input_stream_get_available stream +
          min (count - g_buffered_input_stream_get_available stream) data.length),
        mem_write (mem_write buffer 0 (window stream.priv))
          (g_buffered_input_stream_get_available stream)
          (data.take (min (count - g_buffered_input_stream_get_available stream) data.length)),
        { stream with
          priv := { buffer := mem_write stream.priv.buffer 0 data, len := stream.priv.len,
                    pos := min (count - g_buffered_input_stream_get_available stream)
                      data.length,
                    end_ := data.length },
          base_stream := (B.g_input_stream_read stream.base_stream stream.priv.len).2 })
    ∧ (g_buffered_input_stream_read (traced B) (with_log stream log) buffer
        count).2.2.base_stream.2 = log ++ [SourceCall.read stream.priv.len]
    ∧ (cursor_inv stream.priv →
      (mem_write (mem_write buffer 0 (window stream.priv))
          (g_buffered_input_stream_get_available stream)
          (data.take (min (count - g_buffered_input_stream_get_available stream)
            data.length))).take
        (g_buffered_input_stream_get_available stream +
          min (count - g_buffered_input_stream_get_available stream) data.length) =
        window stream.priv ++
          data.take (min (count - g_buffered_input_stream_get_available stream) data.length)
      ∧ (window stream.priv).length = g_buffered_input_stream_get_available stream) := by
  have hw := window_length stream ht
  refine ⟨read_refill_eq B stream buffer count ht hc h1 h2 data hn hr, ?_,
    fun hinv => ⟨?_, hw hinv⟩⟩
  · rw [read_refill_eq (traced B) (with_log stream log) buffer count ht hc h1 h2 data hn
      (by rw [show (with_log stream log).priv.len = stream.priv.len from rfl, traced_read, hr])]
    rfl
  · have hlen : (data.take (min (count - g_buffered_input_stream_get_available stream)
        data.length)).length =
        min (count - g_buffered_input_stream_get_available stream) data.length := by
      rw [List.length_take]; omega
    have h := take_two_writes buffer (window stream.priv)
      (data.take (min (count - g_buffered_input_stream_get_available stream) data.length))
    rw [hlen, hw hinv] at h
    exact h

/-- C5: read bypass path. In a well-typed state satisfying the cursor invariant,
with `a = available < count` and `count - a > len`, `read (count)` copies the
`a` buffered bytes and issues a single source read of exactly `count - a` bytes
whose bytes go to the destination at offset `a` (run over the traced source, the
call log grows by that one read).  If the source answers `n` bytes the result
is `a + n`; if it fails the result is the failure when `a = 0` and `a`
otherwise.  In every case `pos = end = 0` afterwards and the storage of the
buffer is untouched. -/
theorem read_bypass_path {σ : Type} (B : BackingSource σ) (stream : GBufferedInputStream σ)
    (log : List SourceCall) (buffer : List guint8) (count : Nat)
    (ht : well_typed stream.priv) (hinv : cursor_inv stream.priv) (hc : count ≤ G_MAXSIZE)
    (h1 : g_buffered_input_stream_get_available stream < count)
    (h2 : stream.priv.len < count - g_buffered_input_stream_get_available stream) :
    (∀ data : List guint8,
      (B.g_input_stream_read stream.base_stream
        (count - g_buffered_input_stream_get_available stream)).1 = .ok data →
      data.length ≤ G_MAXSSIZE →
      g_buffered_input_stream_read B stream buffer count =
        (.ok (g_buffered_input_stream_get_available stream + data.length),
          mem_write (mem_write buffer 0 (window stream.priv))
            (g_buffered_input_stream_get_available stream) data,
          { stream with
            priv := { stream.priv with pos := 0, end_ := 0 },
            base_stream := (B.g_input_stream_read stream.base_stream
              (count - g_buffered_input_stream_get_available stream)).2 })
      ∧ (g_buffered_input_stream_read (traced B) (with_log stream log) buffer
          count).2.2.base_stream.2 =
          log ++ [SourceCall.read (count - g_buffered_input_stream_get_available stream)])
    ∧ (∀ e : GError,
      (B.g_input_stream_read stream.base_stream
        (count - g_buffered_input_stream_get_available stream)).1 = .error e →
      g_buffered_input_stream_read B stream buffer count =
        (if g_buffered_input_stream_get_available stream = 0 then .error e
          else .ok (g_buffered_input_stream_get_available stream),
          mem_write buffer 0 (window stream.priv),
          { stream with
            priv := { stream.priv with pos := 0, end_ := 0 },
            base_stream := (B.g_input_stream_read stream.base_stream
              (count - g_buffered_input_stream_get_available stream)).2 })
      ∧ (g_buffered_input_stream_read (traced B) (with_log stream log) buffer
          count).2.2.base_stream.2 =
          log ++ [SourceCall.read (count - g_buffered_input_stream_get_available stream)])
    ∧ (window stream.priv).length = g_buffered_input_stream_get_available stream := by
  refine ⟨fun data hr hn =>
      ⟨read_bypass_ok_eq B stream buffer count ht hinv hc h1 h2 data hn hr, ?_⟩,
    fun e hr => ⟨read_bypass_error_eq B stream buffer count ht hc h1 h2 e hr, ?_⟩,
    window_length stream ht hinv⟩
  · rw [read_bypass_ok_eq (traced B) (with_log stream log) buffer count ht hinv hc h1 h2 data hn
      (by rw [show g_buffered_input_stream_get_available (with_log stream log) =
            g_buffered_input_stream_get_available stream from rfl, traced_read, hr])]
    rfl
  · rw [read_bypass_error_eq (traced B) (with_log stream log) buffer count ht hc h1 h2 e
      (by rw [show g_buffered_input_stream_get_available (with_log stream log) =
            g_buffered_input_stream_get_available stream from rfl, traced_read, hr])]
    rfl

theorem skip_fast_raw {σ : Type} (B : BackingSource σ) (stream : GBufferedInputStream σ)
    (count : Nat) (h : count ≤ gsize_sub stream.priv.end_ stream.priv.pos) :
    g_buffered_input_stream_skip B stream count =
      (.ok count,
        { stream with priv := { stream.priv with pos := gsize_add stream.priv.pos count } }) := by
  simp [g_buffered_input_stream_skip, h]

theorem skip_bypass_ok_raw {σ : Type} (B : BackingSource σ) (stream : GBufferedInputStream σ)
    (count : Nat)
    (h1 : ¬ count ≤ gsize_sub stream.priv.end_ stream.priv.pos)
    (h2 : gsize_sub count (gsize_sub stream.priv.end_ stream.priv.pos) > stream.priv.len)
    (nread : Nat) (base : σ)
    (hr : B.g_input_stream_skip stream.base_stream
      (gsize_sub count (gsize_sub stream.priv.end_ stream.priv.pos)) = (.ok nread, base)) :
    g_buffered_input_stream_skip B stream count =
      (.ok (if nread > 0 then
              gsize_add (gsize_sub stream.priv.end_ stream.priv.pos) nread
            else gsize_sub stream.priv.end_ stream.priv.pos),
        { emptied stream with base_stream := base }) := by
  simp [g_buffered_input_stream_skip, h1, h2, hr, emptied]

theorem skip_bypass_error_raw {σ : Type} (B : BackingSource σ) (stream : GBufferedInputStream σ)
    (count : Nat)
    (h1 : ¬ count ≤ gsize_sub stream.priv.end_ stream.priv.pos)
    (h2 : gsize_sub count (gsize_sub stream.priv.end_ stream.priv.pos) > stream.priv.len)
    (e : GError) (base : σ)
    (hr : B.g_input_stream_skip stream.base_stream
      (gsize_sub count (gsize_sub stream.priv.end_ stream.priv.pos)) = (.error e, base)) :
    g_buffered_input_stream_skip B stream count =
      (if gsize_sub stream.priv.end_ stream.priv.pos = 0 then .error e
        else .ok (gsize_sub stream.priv.end_ stream.priv.pos),
        { emptied stream with base_stream := base }) := by
  simp [g_buffered_input_stream_skip, h1, h2, hr, emptied]

theorem skip_refill_ok_raw {σ : Type} (B : BackingSource σ) (stream : GBufferedInputStream σ)
    (count : Nat) (hl : stream.priv.len ≤ G_MAXSIZE)
    (h1 : ¬ count ≤ gsize_sub stream.priv.end_ stream.priv.pos)
    (h2 : ¬ gsize_sub count (gsize_sub stream.priv.end_ stream.priv.pos) > stream.priv.len)
    (data : List guint8) (base : σ)
    (hr : B.g_input_stream_read stream.base_stream stream.priv.len = (.ok data, base))
    (hn : data.length ≤ G_MAXSIZE) :
    g_buffered_input_stream_skip B stream count =
      (.ok (gsize_add (gsize_sub stream.priv.end_ stream.priv.pos)
          (min (gsize_sub count (gsize_sub stream.priv.end_ stream.priv.pos)) data.length)),
        { stream with
          priv := { buffer := mem_write stream.priv.buffer 0 data, len := stream.priv.len,
                    pos := min (gsize_sub count (gsize_sub stream.priv.end_ stream.priv.pos))
                      data.length,
                    end_ := data.length },
          base_stream := base }) := by
  have hf := real_fill_emptied_ok B (emptied stream) rfl rfl hl data base hr hn
  have h3 : gsize_sub data.length 0 = data.length := gsize_sub_eq (Nat.zero_le _) hn
  have h4 : ∀ n, n ≤ data.length → gsize_add 0 n = n := by
    intro n hn2; rw [gsize_add_eq (by omega)]; omega
  simp only [emptied] at hf
  simp [g_buffered_input_stream_skip, h1, h2, hf, h3, h4]

theorem skip_refill_error_raw {σ : Type} (B : BackingSource σ) (stream : GBufferedInputStream σ)
    (count : Nat) (hl : stream.priv.len ≤ G_MAXSIZE)
    (h1 : ¬ count ≤ gsize_sub stream.priv.end_ stream.priv.pos)
    (h2 : ¬ gsize_sub count (gsize_sub stream.priv.end_ stream.priv.pos) > stream.priv.len)
    (e : GError) (base : σ)
    (hr : B.g_input_stream_read stream.base_stream stream.priv.len = (.error e, base)) :
    g_buffered_input_stream_skip B stream count =
      (if gsize_sub stream.priv.end_ stream.priv.pos = 0 then .error e
        else .ok (gsize_sub stream.priv.end_ stream.priv.pos),
        { emptied stream with base_stream := base }) := by
  have hf := real_fill_emptied_error B (emptied stream) rfl rfl hl e base hr
  simp only [emptied] at hf
  simp [g_buffered_input_stream_skip, h1, h2, hf, emptied]

theorem read_error_imp {σ : Type} (B : BackingSource σ) (stream : GBufferedInputStream σ)
    (buffer : List guint8) (count : Nat) (e : GError)
    (h : (g_buffered_input_stream_read B stream buffer count).1 = .error e) :
    gsize_sub stream.priv.end_ stream.priv.pos = 0 ∧
      ¬ count ≤ gsize_sub stream.priv.end_ stream.priv.pos := by
  unfold g_buffered_input_stream_read at h
  simp only [] at h
  split at h
  · simp at h
  · rename_i hc
    refine ⟨?_, hc⟩
    split at h
    · split at h
      · dsimp only at h
        split at h
        · assumption
        · simp at h
      · simp at h
    · split at h
      · dsimp only at h
        split at h
        · assumption
        · simp at h
      · simp at h

theorem mem_write_zero_take (buffer w : List guint8) :
    (mem_write buffer 0 w).take w.length = w := by
  rw [mem_write_zero, List.take_left' rfl]

theorem mem_write_zero_drop (buffer w : List guint8) :
    (mem_write buffer 0 w).drop w.length = buffer.drop w.length := by
  rw [mem_write_zero, List.drop_left' rfl]

/-- C6: partial-progress suppression in read. In every well-typed state with
`a = available < count`: if the source call made by
`read` fails with `e` (the direct read of `count - a` bytes when
`count - a > len`, the fill's read of `len` bytes otherwise), then `read`
reports `e` exactly when `a = 0` and returns `a` with no error otherwise; the
destination has received the buffered window and nothing else, and the buffer is
left empty.  When the state satisfies the cursor invariant the window has
exactly `a` bytes: the destination holds the `a` buffered bytes at its start and
is unchanged beyond them.  Whenever `read` returns an error, on any path,
`available` was 0, so no buffered byte was consumed. -/
theorem read_partial_progress_suppression {σ : Type} (B : BackingSource σ)
    (stream : GBufferedInputStream σ) (buffer : List guint8) (count : Nat)
    (ht : well_typed stream.priv) (hc : count ≤ G_MAXSIZE) :
    (g_buffered_input_stream_get_available stream < count →
      stream.priv.len < count - g_buffered_input_stream_get_available stream →
      ∀ e : GError,
        (B.g_input_stream_read stream.base_stream
          (count - g_buffered_input_stream_get_available stream)).1 = .error e →
        g_buffered_input_stream_read B stream buffer count =
          (if g_buffered_input_stream_get_available stream = 0 then .error e
            else .ok (g_buffered_input_stream_get_available stream),
            mem_write buffer 0 (window stream.priv),
            { stream with
              priv := { stream.priv with pos := 0, end_ := 0 },
              base_stream := (B.g_input_stream_read stream.base_stream
                (count - g_buffered_input_stream_get_available stream)).2 }))
    ∧ (g_buffered_input_stream_get_available stream < count →
      count - g_buffered_input_stream_get_available stream ≤ stream.priv.len →
      ∀ e : GError,
        (B.g_input_stream_read stream.base_stream stream.priv.len).1 = .error e →
        g_buffered_input_stream_read B stream buffer count =
          (if g_buffered_input_stream_get_available stream = 0 then .error e
            else .ok (g_buffered_input_stream_get_available stream),
            mem_write buffer 0 (window stream.priv),
            { stream with
              priv := { stream.priv with pos := 0, end_ := 0 },
              base_stream := (B.g_input_stream_read stream.base_stream stream.priv.len).2 }))
    ∧ (cursor_inv stream.priv →
      (window stream.priv).length = g_buffered_input_stream_get_available stream
      ∧ (mem_write buffer 0 (window stream.priv)).take
          (g_buffered_input_stream_get_available stream) = window stream.priv
      ∧ (mem_write buffer 0 (window stream.priv)).drop
          (g_buffered_input_stream_get_available stream) =
          buffer.drop (g_buffered_input_stream_get_available stream))
    ∧ (∀ e : GError, (g_buffered_input_stream_read B stream buffer count).1 = .error e →
        g_buffered_input_stream_get_available stream = 0) := by
  have hw := window_length stream ht
  obtain ⟨t1, t2, t3, t4⟩ := ht
  have hg : gsize_sub stream.priv.end_ stream.priv.pos =
      g_buffered_input_stream_get_available stream := rfl
  refine ⟨?_, ?_, fun hinv => ⟨hw hinv, ?_, ?_⟩, ?_⟩
  · intro h1 h2 e hr
    have hsub : gsize_sub count (g_buffered_input_stream_get_available stream) =
        count - g_buffered_input_stream_get_available stream :=
      gsize_sub_eq (by omega) hc
    rw [read_bypass_error_raw B stream buffer count (by rw [hg]; omega)
      (by rw [hg, hsub]; omega) e
      (B.g_input_stream_read stream.base_stream
        (count - g_buffered_input_stream_get_available stream)).2
      (by rw [hg, hsub, ← hr])]
    simp only [hg, memcpy, window, emptied]
  · intro h1 h2 e hr
    have hsub : gsize_sub count (g_buffered_input_stream_get_available stream) =
        count - g_buffered_input_stream_get_available stream :=
      gsize_sub_eq (by omega) hc
    rw [read_refill_error_raw B stream buffer count t1 (by rw [hg]; omega)
      (by rw [hg, hsub]; omega) e
      (B.g_input_stream_read stream.base_stream stream.priv.len).2
      (by rw [← hr])]
    simp only [hg, memcpy, window, emptied]
  · rw [← hw hinv]; exact mem_write_zero_take _ _
  · rw [← hw hinv]; exact mem_write_zero_drop _ _
  · intro e h
    exact (read_error_imp B stream buffer count e h).1

/-- C7: partial-progress suppression in skip. In every well-typed state, with
`a = available < count` and any capacity: if the source
call made by `skip` fails with `e` (the direct skip of `count - a` bytes when
`count - a > len`, the fill's read of `len` bytes otherwise), then `skip`
returns `a` with no error when `a > 0` and the failure `e` when `a = 0`, and the
buffer is left empty (`pos = end = 0`). -/
theorem skip_partial_progress_suppression {σ : Type} (B : BackingSource σ)
    (stream : GBufferedInputStream σ) (count : Nat)
    (ht : well_typed stream.priv) (hc : count ≤ G_MAXSIZE)
    (h1 : g_buffered_input_stream_get_available stream < count) :
    (stream.priv.len < count - g_buffered_input_stream_get_available stream →
      ∀ e : GError,
        (B.g_input_stream_skip stream.base_stream
          (count - g_buffered_input_stream_get_available stream)).1 = .error e →
        g_buffered_input_stream_skip B stream count =
          (if g_buffered_input_stream_get_available stream = 0 then .error e
            else .ok (g_buffered_input_stream_get_available stream),
            { stream with
              priv := { stream.priv with pos := 0, end_ := 0 },
              base_stream := (B.g_input_stream_skip stream.base_stream
                (count - g_buffered_input_stream_get_available stream)).2 }))
    ∧ (count - g_buffered_input_stream_get_available stream ≤ stream.priv.len →
      ∀ e : GError,
        (B.g_input_stream_read stream.base_stream stream.priv.len).1 = .error e →
        g_buffered_input_stream_skip B stream count =
          (if g_buffered_input_stream_get_available stream = 0 then .error e
            else .ok (g_buffered_input_stream_get_available stream),
            { stream with
              priv := { stream.priv with pos := 0, end_ := 0 },
              base_stream := (B.g_input_stream_read stream.base_stream stream.priv.len).2 })) := by
  obtain ⟨t1, t2, t3, t4⟩ := ht
  have hg : gsize_sub stream.priv.end_ stream.priv.pos =
      g_buffered_input_stream_get_available stream := rfl
  have hsub : gsize_sub count (g_buffered_input_stream_get_available stream) =
      count - g_buffered_input_stream_get_available stream :=
    gsize_sub_eq (by omega) hc
  refine ⟨?_, ?_⟩
  · intro h2 e hr
    rw [skip_bypass_error_raw B stream count (by rw [hg]; omega)
      (by rw [hg, hsub]; omega) e
      (B.g_input_stream_skip stream.base_stream
        (count - g_buffered_input_stream_get_available stream)).2
      (by rw [hg, hsub, ← hr])]
    simp only [hg, emptied]
  · intro h2 e hr
    rw [skip_refill_error_raw B stream count t1 (by rw [hg]; omega)
      (by rw [hg, hsub]; omega) e
      (B.g_input_stream_read stream.base_stream stream.priv.len).2
      (by rw [← hr])]
    simp only [hg, emptied]

theorem window_advance (priv : GBufferedInputStreamPrivate) (c : Nat)
    (ht : well_typed priv) (hinv : cursor_inv priv) (hc : c ≤ priv.end_ - priv.pos) :
    window { priv with pos := priv.pos + c } = (window priv).drop c := by
  obtain ⟨t1, t2, t3, t4⟩ := ht
  obtain ⟨i1, i2⟩ := hinv
  simp only [window, mem_read]
  rw [gsize_sub_eq (by omega) t3, gsize_sub_eq i1 t3]
  rw [List.drop_take, List.drop_drop]
  congr 1
  omega

theorem window_take (priv : GBufferedInputStreamPrivate) (c : Nat)
    (ht : well_typed priv) (hinv : cursor_inv priv) (hc : c ≤ priv.end_ - priv.pos) :
    mem_read priv.buffer priv.pos c = (window priv).take c := by
  obtain ⟨t1, t2, t3, t4⟩ := ht
  obtain ⟨i1, i2⟩ := hinv
  simp only [window, mem_read]
  rw [gsize_sub_eq i1 t3, List.take_take, Nat.min_eq_left hc]

theorem window_emptied (priv : GBufferedInputStreamPrivate) :
    window { priv with pos := 0, end_ := 0 } = [] := by
  simp [window, mem_read, gsize_sub]

theorem window_after_fill (buffer data : List guint8) (len m : Nat)
    (hn : data.length ≤ G_MAXSIZE) (hm : m ≤ data.length) :
    window { buffer := mem_write buffer 0 data, len := len, pos := m, end_ := data.length } =
      data.drop m := by
  simp only [window, mem_read]
  rw [gsize_sub_eq hm hn, mem_write_zero, List.drop_append_of_le_length hm,
    List.take_append_of_le_length (by simp)]
  rw [List.take_of_length_le (by simp)]

theorem split_at_front {l p r : List guint8} {k : Nat} (h : l = p ++ r) (hk : p.length = k) :
    p = l.take k ∧ r = l.drop k ∧ k ≤ l.length := by
  subst h; subst hk
  simp

theorem mem_write_zero_take_of_length (buffer w : List guint8) (k : Nat) (hk : w.length = k) :
    (mem_write buffer 0 w).take k = w := by
  subst hk
  exact mem_write_zero_take _ _

theorem read_stream_split {σ : Type} (B : BackingSource σ) (remaining : σ → List guint8)
    (hsrc : read_in_order B remaining) (stream : GBufferedInputStream σ)
    (buffer : List guint8) (count : Nat)
    (ht : well_typed stream.priv) (hinv : cursor_inv stream.priv) (hc : count ≤ G_MAXSIZE)
    (k : Nat) (buffer' : List guint8) (stream' : GBufferedInputStream σ)
    (hres : g_buffered_input_stream_read B stream buffer count = (.ok k, buffer', stream')) :
    logical_stream remaining stream = buffer'.take k ++ logical_stream remaining stream' ∧
      (buffer'.take k).length = k ∧ k ≤ count := by
  have hw := window_length stream ht hinv
  have ha := available_eq stream ht hinv
  have ht0 := ht
  have hinv0 := hinv
  obtain ⟨t1, t2, t3, t4⟩ := ht
  obtain ⟨i1, i2⟩ := hinv
  have hg : gsize_sub stream.priv.end_ stream.priv.pos =
      g_buffered_input_stream_get_available stream := rfl
  by_cases hfast : count ≤ g_buffered_input_stream_get_available stream
  · -- fast path
    rw [read_fast_raw B stream buffer count (by rw [hg]; exact hfast)] at hres
    simp only [Prod.mk.injEq, Except.ok.injEq] at hres
    obtain ⟨hk, hb, hs⟩ := hres
    subst hk hb hs
    have hp : gsize_add stream.priv.pos count = stream.priv.pos + count :=
      gsize_add_eq (by omega)
    have hlen : (mem_read stream.priv.buffer stream.priv.pos count).length = count :=
      mem_read_length_of_le (by omega)
    have htake : (memcpy buffer 0 stream.priv.buffer stream.priv.pos count).take count =
        (window stream.priv).take count := by
      rw [← window_take stream.priv count ht0 hinv0 (by omega)]
      exact mem_write_zero_take_of_length _ _ _ hlen
    refine ⟨?_, ?_, Nat.le_refl _⟩
    · simp only [logical_stream, hp, htake]
      rw [window_advance stream.priv count ht0 hinv0 (by omega), ← List.append_assoc,
        List.take_append_drop]
    · rw [htake, List.length_take, hw]; omega
  · have hsub : gsize_sub count (g_buffered_input_stream_get_available stream) =
        count - g_buffered_input_stream_get_available stream :=
      gsize_sub_eq (by omega) hc
    by_cases hbig : stream.priv.len < count - g_buffered_input_stream_get_available stream
    · -- bypass path
      rcases hB : B.g_input_stream_read stream.base_stream
        (count - g_buffered_input_stream_get_available stream) with ⟨r, base⟩
      have hB2 : (B.g_input_stream_read stream.base_stream
        (count - g_buffered_input_stream_get_available stream)).2 = base := by rw [hB]
      cases r with
      | error e =>
        rw [read_bypass_error_raw B stream buffer count (by rw [hg]; exact hfast)
          (by rw [hg, hsub]; omega) e base (by rw [hg, hsub, hB])] at hres
        have hrem := (hsrc stream.base_stream
          (count - g_buffered_input_stream_get_available stream)).2 e (by rw [hB])
        rw [hB2] at hrem
        simp only [Prod.mk.injEq, hg] at hres
        obtain ⟨hk, hb, hs⟩ := hres
        split at hk
        · simp at hk
        · simp only [Except.ok.injEq] at hk
          subst hk hb hs
          have hdest : (memcpy buffer 0 stream.priv.buffer stream.priv.pos
              (g_buffered_input_stream_get_available stream)).take
              (g_buffered_input_stream_get_available stream) = window stream.priv :=
            mem_write_zero_take_of_length buffer (window stream.priv) _ hw
          refine ⟨?_, ?_, by omega⟩
          · rw [hdest]
            simp only [logical_stream, emptied, window_emptied, hrem, List.nil_append]
          · rw [hdest, hw]
      | ok data =>
        rw [read_bypass_ok_raw B stream buffer count (by rw [hg]; exact hfast)
          (by rw [hg, hsub]; omega) data base (by rw [hg, hsub, hB])] at hres
        have hrem := (hsrc stream.base_stream
          (count - g_buffered_input_stream_get_available stream)).1 data (by rw [hB])
        rw [hB2] at hrem
        obtain ⟨hn, hrem⟩ := hrem
        have hres2 : (if data.length > 0 then
              gsize_add (g_buffered_input_stream_get_available stream) data.length
            else g_buffered_input_stream_get_available stream) =
            g_buffered_input_stream_get_available stream + data.length := by
          split
          · exact gsize_add_eq (by omega)
          · omega
        simp only [Prod.mk.injEq, hg, hres2, Except.ok.injEq] at hres
        obtain ⟨hk, hb, hs⟩ := hres
        subst hk hb hs
        have h2w := take_two_writes buffer (window stream.priv) data
        rw [hw] at h2w
        refine ⟨?_, ?_, by omega⟩
        · simp only [logical_stream, emptied, window_emptied, hrem, List.nil_append, memcpy]
          rw [← List.append_assoc]
          congr 1
          exact h2w.symm
        · simp only [memcpy]
          have : mem_read stream.priv.buffer stream.priv.pos
            (g_buffered_input_stream_get_available stream) = window stream.priv := rfl
          rw [this, h2w, List.length_append, hw]
    · -- refill path
      rcases hB : B.g_input_stream_read stream.base_stream stream.priv.len with ⟨r, base⟩
      have hB2 : (B.g_input_stream_read stream.base_stream stream.priv.len).2 = base := by
        rw [hB]
      cases r with
      | error e =>
        rw [read_refill_error_raw B stream buffer count t1 (by rw [hg]; exact hfast)
          (by rw [hg, hsub]; omega) e base hB] at hres
        have hrem := (hsrc stream.base_stream stream.priv.len).2 e (by rw [hB])
        rw [hB2] at hrem
        simp only [Prod.mk.injEq, hg] at hres
        obtain ⟨hk, hb, hs⟩ := hres
        split at hk
        · simp at hk
        · simp only [Except.ok.injEq] at hk
          subst hk hb hs
          have hdest : (memcpy buffer 0 stream.priv.buffer stream.priv.pos
              (g_buffered_input_stream_get_available stream)).take
              (g_buffered_input_stream_get_available stream) = window stream.priv :=
            mem_write_zero_take_of_length buffer (window stream.priv) _ hw
          refine ⟨?_, ?_, by omega⟩
          · rw [hdest]
            simp only [logical_stream, emptied, window_emptied, hrem, List.nil_append]
          · rw [hdest, hw]
      | ok data =>
        have hrem := (hsrc stream.base_stream stream.priv.len).1 data (by rw [hB])
        rw [hB2] at hrem
        obtain ⟨hn, hrem⟩ := hrem
        have hn2 : data.length ≤ G_MAXSIZE := by omega
        rw [read_refill_ok_raw B stream buffer count t1 (by rw [hg]; exact hfast)
          (by rw [hg, hsub]; omega) data base hB hn2] at hres
        have hadd : gsize_add (g_buffered_input_stream_get_available stream)
            (min (count - g_buffered_input_stream_get_available stream) data.length) =
            g_buffered_input_stream_get_available stream +
              min (count - g_buffered_input_stream_get_available stream) data.length :=
          gsize_add_eq (by omega)
        have hrd : mem_read (mem_write stream.priv.buffer 0 data) 0
            (min (count - g_buffered_input_stream_get_available stream) data.length) =
            data.take (min (count - g_buffered_input_stream_get_available stream) data.length) :=
          mem_read_mem_write_same (Nat.zero_le _) _ (Nat.min_le_right _ _)
        simp only [Prod.mk.injEq, hg, hsub, hadd, Except.ok.injEq, memcpy, hrd] at hres
        obtain ⟨hk, hb, hs⟩ := hres
        subst hk hb hs
        have hlen : (data.take (min (count - g_buffered_input_stream_get_available stream)
            data.length)).length =
            min (count - g_buffered_input_stream_get_available stream) data.length := by
          rw [List.length_take]; omega
        have h2w := take_two_writes buffer (window stream.priv)
          (data.take (min (count - g_buffered_input_stream_get_available stream) data.length))
        rw [hlen, hw] at h2w
        have hwin : mem_read stream.priv.buffer stream.priv.pos
            (g_buffered_input_stream_get_available stream) = window stream.priv := rfl
        refine ⟨?_, ?_, by omega⟩
        · simp only [logical_stream, hwin, h2w, hrem]
          rw [window_after_fill _ _ _ _ hn2 (Nat.min_le_right _ _)]
          simp only [List.append_assoc]
          congr 1
          rw [← List.append_assoc, List.take_append_drop]
        · rw [hwin, h2w, List.length_append, hlen, hw]

theorem skip_stream_split {σ : Type} (B : BackingSource σ) (remaining : σ → List guint8)
    (hread : read_in_order B remaining)
    (hskip : skip_in_order B remaining) (stream : GBufferedInputStream σ) (count : Nat)
    (ht : well_typed stream.priv) (hinv : cursor_inv stream.priv) (hc : count ≤ G_MAXSIZE)
    (k : Nat) (stream' : GBufferedInputStream σ)
    (hres : g_buffered_input_stream_skip B stream count = (.ok k, stream')) :
    logical_stream remaining stream' = (logical_stream remaining stream).drop k ∧
      k ≤ (logical_stream remaining stream).length ∧ k ≤ count := by
  have hw := window_length stream ht hinv
  have ha := available_eq stream ht hinv
  have ht0 := ht
  have hinv0 := hinv
  obtain ⟨t1, t2, t3, t4⟩ := ht
  obtain ⟨i1, i2⟩ := hinv
  have hg : gsize_sub stream.priv.end_ stream.priv.pos =
      g_buffered_input_stream_get_available stream := rfl
  have hdropw : ∀ (l : List guint8) (n : Nat),
      (window stream.priv ++ l).drop (g_buffered_input_stream_get_available stream + n) =
        l.drop n := by
    intro l n
    rw [← hw, List.drop_append]
  by_cases hfast : count ≤ g_buffered_input_stream_get_available stream
  · -- fast path
    rw [skip_fast_raw B stream count (by rw [hg]; exact hfast)] at hres
    simp only [Prod.mk.injEq, Except.ok.injEq] at hres
    obtain ⟨hk, hs⟩ := hres
    subst hk hs
    have hp : gsize_add stream.priv.pos count = stream.priv.pos + count :=
      gsize_add_eq (by omega)
    refine ⟨?_, ?_, Nat.le_refl _⟩
    · simp only [logical_stream, hp]
      rw [window_advance stream.priv count ht0 hinv0 (by omega),
        List.drop_append_of_le_length (by omega)]
    · simp only [logical_stream, List.length_append]; omega
  · have hsub : gsize_sub count (g_buffered_input_stream_get_available stream) =
        count - g_buffered_input_stream_get_available stream :=
      gsize_sub_eq (by omega) hc
    by_cases hbig : stream.priv.len < count - g_buffered_input_stream_get_available stream
    · -- bypass path
      rcases hB : B.g_input_stream_skip stream.base_stream
        (count - g_buffered_input_stream_get_available stream) with ⟨r, base⟩
      have hB2 : (B.g_input_stream_skip stream.base_stream
        (count - g_buffered_input_stream_get_available stream)).2 = base := by rw [hB]
      cases r with
      | error e =>
        rw [skip_bypass_error_raw B stream count (by rw [hg]; exact hfast)
          (by rw [hg, hsub]; omega) e base (by rw [hg, hsub, hB])] at hres
        have hrem := (hskip stream.base_stream
          (count - g_buffered_input_stream_get_available stream)).2 e (by rw [hB])
        rw [hB2] at hrem
        simp only [Prod.mk.injEq, hg] at hres
        obtain ⟨hk, hs⟩ := hres
        split at hk
        · simp at hk
        · simp only [Except.ok.injEq] at hk
          subst hk hs
          refine ⟨?_, ?_, by omega⟩
          · simp only [logical_stream, emptied, window_emptied, hrem, List.nil_append]
            have := hdropw (remaining stream.base_stream) 0
            simpa using this.symm
          · simp only [logical_stream, List.length_append]; omega
      | ok nread =>
        rw [skip_bypass_ok_raw B stream count (by rw [hg]; exact hfast)
          (by rw [hg, hsub]; omega) nread base (by rw [hg, hsub, hB])] at hres
        have hrem := (hskip stream.base_stream
          (count - g_buffered_input_stream_get_available stream)).1 nread (by rw [hB])
        rw [hB2] at hrem
        obtain ⟨hn, hn', hrem⟩ := hrem
        have hres2 : (if nread > 0 then
              gsize_add (g_buffered_input_stream_get_available stream) nread
            else g_buffered_input_stream_get_available stream) =
            g_buffered_input_stream_get_available stream + nread := by
          split
          · exact gsize_add_eq (by omega)
          · omega
        simp only [Prod.mk.injEq, hg, hres2, Except.ok.injEq] at hres
        obtain ⟨hk, hs⟩ := hres
        subst hk hs
        refine ⟨?_, ?_, by omega⟩
        · simp only [logical_stream, emptied, window_emptied, hrem, List.nil_append]
          exact (hdropw _ _).symm
        · simp only [logical_stream, List.length_append]; omega
    · -- refill path
      rcases hB : B.g_input_stream_read stream.base_stream stream.priv.len with ⟨r, base⟩
      have hB2 : (B.g_input_stream_read stream.base_stream stream.priv.len).2 = base := by
        rw [hB]
      cases r with
      | error e =>
        rw [skip_refill_error_raw B stream count t1 (by rw [hg]; exact hfast)
          (by rw [hg, hsub]; omega) e base hB] at hres
        have hrem := (hread stream.base_stream stream.priv.len).2 e (by rw [hB])
        rw [hB2] at hrem
        simp only [Prod.mk.injEq, hg] at hres
        obtain ⟨hk, hs⟩ := hres
        split at hk
        · simp at hk
        · simp only [Except.ok.injEq] at hk
          subst hk hs
          refine ⟨?_, ?_, by omega⟩
          · simp only [logical_stream, emptied, window_emptied, hrem, List.nil_append]
            have := hdropw (remaining stream.base_stream) 0
            simpa using this.symm
          · simp only [logical_stream, List.length_append]; omega
      | ok data =>
        have hrem := (hread stream.base_stream stream.priv.len).1 data (by rw [hB])
        rw [hB2] at hrem
        obtain ⟨hn, hrem⟩ := hrem
        have hn2 : data.length ≤ G_MAXSIZE := by omega
        rw [skip_refill_ok_raw B stream count t1 (by rw [hg]; exact hfast)
          (by rw [hg, hsub]; omega) data base hB hn2] at hres
        have hadd : gsize_add (g_buffered_input_stream_get_available stream)
            (min (count - g_buffered_input_stream_get_available stream) data.length) =
            g_buffered_input_stream_get_available stream +
              min (count - g_buffered_input_stream_get_available stream) data.length :=
          gsize_add_eq (by omega)
        simp only [Prod.mk.injEq, hg, hsub, hadd, Except.ok.injEq] at hres
        obtain ⟨hk, hs⟩ := hres
        subst hk hs
        refine ⟨?_, ?_, by omega⟩
        · simp only [logical_stream, hrem]
          rw [window_after_fill _ _ _ _ hn2 (Nat.min_le_right _ _), hdropw,
            List.drop_append_of_le_length (Nat.min_le_right _ _)]
        · simp only [logical_stream, hrem, List.length_append]; omega

/-- C1: no gap, no overlap for read. The logical stream of a state is its
buffered window followed by the bytes the source has not yet produced.  For a
source whose reads hand out its remaining data in order, a well-typed state
satisfying the cursor invariant and any `count`: if `read (count)` succeeds
with `k`, the first `k` bytes of the destination are exactly the first `k`
bytes of the logical stream, and the logical stream afterwards is the old one
without those `k` bytes.  The statement covers the fast path, the refill path
and the bypass path. -/
theorem read_no_gap_no_overlap {σ : Type} (B : BackingSource σ) (remaining : σ → List guint8)
    (hsrc : read_in_order B remaining) (stream : GBufferedInputStream σ)
    (buffer : List guint8) (count : Nat)
    (ht : well_typed stream.priv) (hinv : cursor_inv stream.priv) (hc : count ≤ G_MAXSIZE)
    (k : Nat) (buffer' : List guint8) (stream' : GBufferedInputStream σ)
    (hres : g_buffered_input_stream_read B stream buffer count = (.ok k, buffer', stream')) :
    buffer'.take k = (logical_stream remaining stream).take k ∧
      k ≤ (logical_stream remaining stream).length ∧
      logical_stream remaining stream' = (logical_stream remaining stream).drop k := by
  obtain ⟨h1, h2, _⟩ :=
    read_stream_split B remaining hsrc stream buffer count ht hinv hc k buffer' stream' hres
  obtain ⟨h3, h4, h5⟩ := split_at_front h1 h2
  exact ⟨h3, h5, h4⟩

theorem skip_fast_eq {σ : Type} (B : BackingSource σ) (stream : GBufferedInputStream σ)
    (count : Nat) (ht : well_typed stream.priv) (hinv : cursor_inv stream.priv)
    (hcount : count ≤ g_buffered_input_stream_get_available stream) :
    g_buffered_input_stream_skip B stream count =
      (.ok count,
        { stream with priv := { stream.priv with pos := stream.priv.pos + count } }) := by
  have ha := available_eq stream ht hinv
  obtain ⟨t1, t2, t3, t4⟩ := ht
  obtain ⟨i1, i2⟩ := hinv
  rw [skip_fast_raw B stream count hcount]
  have hp : gsize_add stream.priv.pos count = stream.priv.pos + count :=
    gsize_add_eq (by omega)
  simp only [hp]

/-- C8: skip discards exactly what it reports. For a source whose reads and skips
consume its remaining data in order, a well-typed state satisfying the cursor
invariant and any `count`: if `skip (count)` succeeds with `k`, the logical
stream afterwards is the old logical stream without its first `k` bytes, and
`k ≤ count`.  When `count ≤ available`, `skip` returns `count`, only moves `pos`
forward by `count` and makes no call to the source (run over the traced source,
the call log is unchanged). -/
theorem skip_discards_what_it_reports {σ : Type} (B : BackingSource σ)
    (remaining : σ → List guint8) (hread : read_in_order B remaining)
    (hskip : skip_in_order B remaining)
    (stream : GBufferedInputStream σ) (log : List SourceCall) (count : Nat)
    (ht : well_typed stream.priv) (hinv : cursor_inv stream.priv) (hc : count ≤ G_MAXSIZE) :
    (∀ (k : Nat) (stream' : GBufferedInputStream σ),
      g_buffered_input_stream_skip B stream count = (.ok k, stream') →
      logical_stream remaining stream' = (logical_stream remaining stream).drop k ∧
        k ≤ (logical_stream remaining stream).length ∧ k ≤ count)
    ∧ (count ≤ g_buffered_input_stream_get_available stream →
      g_buffered_input_stream_skip B stream count =
        (.ok count,
          { stream with priv := { stream.priv with pos := stream.priv.pos + count } })
      ∧ (g_buffered_input_stream_skip (traced B) (with_log stream log)
          count).2.base_stream.2 = log) := by
  refine ⟨fun k stream' hres =>
    skip_stream_split B remaining hread hskip stream count ht hinv hc k stream' hres,
    fun hfast => ⟨skip_fast_eq B stream count ht hinv hfast, ?_⟩⟩
  rw [skip_fast_eq (traced B) (with_log stream log) count ht hinv hfast]
  rfl

theorem compact_buffer_ok {σ : Type} (stream : GBufferedInputStream σ) (h : state_ok stream) :
    state_ok (compact_buffer stream) := by
  obtain ⟨⟨t1, t2, t3, t4⟩, i1, i2⟩ := h
  have hs : gsize_sub stream.priv.end_ stream.priv.pos = stream.priv.end_ - stream.priv.pos :=
    gsize_sub_eq i1 t3
  simp only [state_ok, well_typed, cursor_inv, compact_buffer, hs, memcpy]
  rw [mem_write_length (by rw [mem_read_length]; omega)]
  omega

theorem real_fill_ok {σ : Type} (B : BackingSource σ) (hB : read_bounded B)
    (stream : GBufferedInputStream σ) (count : Int) (h : state_ok stream) :
    state_ok (g_buffered_input_stream_real_fill B stream count).2 := by
  have hc := compact_buffer_ok stream h
  obtain ⟨⟨t1, t2, t3, t4⟩, i1, i2⟩ := h
  have hs : gsize_sub stream.priv.end_ stream.priv.pos = stream.priv.end_ - stream.priv.pos :=
    gsize_sub_eq i1 t3
  have hs2 : gsize_sub stream.priv.len (stream.priv.end_ - stream.priv.pos) =
      stream.priv.len - (stream.priv.end_ - stream.priv.pos) := gsize_sub_eq (by omega) t1
  have hs3 : gsize_sub stream.priv.len stream.priv.end_ = stream.priv.len - stream.priv.end_ :=
    gsize_sub_eq i2 t1
  unfold g_buffered_input_stream_real_fill
  simp only [hs, hs2, hs3]
  generalize (if count = -1 then stream.priv.len else to_gsize count) = c
  by_cases hcmp : stream.priv.len - stream.priv.end_ <
      min c (stream.priv.len - (stream.priv.end_ - stream.priv.pos))
  · -- compaction
    simp only [hcmp, if_true]
    obtain ⟨⟨u1, u2, u3, u4⟩, j1, j2⟩ := hc
    have hce : (compact_buffer stream).priv.end_ = stream.priv.end_ - stream.priv.pos := by
      simp [compact_buffer, hs]
    have hcp : (compact_buffer stream).priv.pos = 0 := rfl
    have hcl : (compact_buffer stream).priv.len = stream.priv.len := rfl
    rcases hr : B.g_input_stream_read (compact_buffer stream).base_stream
      (min c (stream.priv.len - (stream.priv.end_ - stream.priv.pos))) with ⟨r, base⟩
    cases r with
    | error e => exact ⟨⟨u1, u2, u3, u4⟩, j1, j2⟩
    | ok data =>
      have hb := hB (compact_buffer stream).base_stream
        (min c (stream.priv.len - (stream.priv.end_ - stream.priv.pos))) data (by rw [hr])
      have hadd : gsize_add (compact_buffer stream).priv.end_ data.length =
          (compact_buffer stream).priv.end_ + data.length := gsize_add_eq (by omega)
      simp only [state_ok, well_typed, cursor_inv, hadd]
      rw [mem_write_length (by omega)]
      refine ⟨⟨u1, u2, ?_, u4⟩, ?_, ?_⟩ <;> split <;> omega
  · simp only [hcmp, if_false]
    rcases hr : B.g_input_stream_read stream.base_stream
      (min c (stream.priv.len - (stream.priv.end_ - stream.priv.pos))) with ⟨r, base⟩
    cases r with
    | error e => exact ⟨⟨t1, t2, t3, t4⟩, i1, i2⟩
    | ok data =>
      have hb := hB stream.base_stream
        (min c (stream.priv.len - (stream.priv.end_ - stream.priv.pos))) data (by rw [hr])
      have hadd : gsize_add stream.priv.end_ data.length = stream.priv.end_ + data.length :=
        gsize_add_eq (by omega)
      simp only [state_ok, well_typed, cursor_inv, hadd]
      rw [mem_write_length (by omega)]
      refine ⟨⟨t1, t2, ?_, t4⟩, ?_, ?_⟩ <;> split <;> omega

theorem emptied_ok {σ : Type} (stream : GBufferedInputStream σ) (h : state_ok stream) :
    state_ok (emptied stream) := by
  obtain ⟨⟨t1, t2, t3, t4⟩, i1, i2⟩ := h
  simp only [state_ok, well_typed, cursor_inv, emptied]
  omega

theorem advance_ok {σ : Type} (stream : GBufferedInputStream σ) (h : state_ok stream) (m : Nat)
    (hm : m ≤ gsize_sub stream.priv.end_ stream.priv.pos) :
    state_ok
      { stream with priv := { stream.priv with pos := gsize_add stream.priv.pos m } } := by
  obtain ⟨⟨t1, t2, t3, t4⟩, i1, i2⟩ := h
  rw [gsize_sub_eq i1 t3] at hm
  have hp : gsize_add stream.priv.pos m = stream.priv.pos + m := gsize_add_eq (by omega)
  simp only [state_ok, well_typed, cursor_inv, hp]
  omega

theorem read_ok {σ : Type} (B : BackingSource σ) (hB : read_bounded B)
    (stream : GBufferedInputStream σ) (buffer : List guint8) (count : Nat)
    (h : state_ok stream) :
    state_ok (g_buffered_input_stream_read B stream buffer count).2.2 := by
  have he := emptied_ok stream h
  unfold g_buffered_input_stream_read
  simp only []
  by_cases hfast : count ≤ gsize_sub stream.priv.end_ stream.priv.pos
  · simp only [hfast, if_true]
    exact advance_ok stream h count hfast
  · simp only [hfast, if_false]
    by_cases hbig : gsize_sub count (gsize_sub stream.priv.end_ stream.priv.pos) > stream.priv.len
    · simp only [hbig, if_true]
      rcases hr : B.g_input_stream_read stream.base_stream
        (gsize_sub count (gsize_sub stream.priv.end_ stream.priv.pos)) with ⟨r, base⟩
      cases r <;> exact he
    · simp only [hbig, if_false]
      have hf := real_fill_ok B hB (emptied stream) (to_gssize stream.priv.len) he
      simp only [emptied] at hf
      rcases hr : g_buffered_input_stream_real_fill B
        { stream with priv := { stream.priv with pos := 0, end_ := 0 } }
        (to_gssize stream.priv.len) with ⟨r, s1⟩
      rw [hr] at hf
      cases r with
      | error e => exact hf
      | ok n => exact advance_ok s1 hf _ (Nat.min_le_right _ _)

theorem skip_ok {σ : Type} (B : BackingSource σ) (hB : read_bounded B)
    (stream : GBufferedInputStream σ) (count : Nat) (h : state_ok stream) :
    state_ok (g_buffered_input_stream_skip B stream count).2 := by
  have he := emptied_ok stream h
  unfold g_buffered_input_stream_skip
  simp only []
  by_cases hfast : count ≤ gsize_sub stream.priv.end_ stream.priv.pos
  · simp only [hfast, if_true]
    exact advance_ok stream h count hfast
  · simp only [hfast, if_false]
    by_cases hbig : gsize_sub count (gsize_sub stream.priv.end_ stream.priv.pos) > stream.priv.len
    · simp only [hbig, if_true]
      rcases hr : B.g_input_stream_skip stream.base_stream
        (gsize_sub count (gsize_sub stream.priv.end_ stream.priv.pos)) with ⟨r, base⟩
      cases r <;> exact he
    · simp only [hbig, if_false]
      have hf := real_fill_ok B hB (emptied stream) (to_gssize stream.priv.len) he
      simp only [emptied] at hf
      rcases hr : g_buffered_input_stream_real_fill B
        { stream with priv := { stream.priv with pos := 0, end_ := 0 } }
        (to_gssize stream.priv.len) with ⟨r, s1⟩
      rw [hr] at hf
      cases r with
      | error e => exact hf
      | ok n => exact advance_ok s1 hf _ (Nat.min_le_right _ _)

theorem set_pending_ok_eq {σ : Type} (stream s1 : GBufferedInputStream σ)
    (h : g_input_stream_set_pending stream = .ok s1) :
    s1 = { stream with pending := true } ∧ stream.closed = false ∧ stream.pending = false := by
  unfold g_input_stream_set_pending at h
  split at h
  · simp at h
  · split at h
    · simp at h
    · simp only [Except.ok.injEq] at h
      simp_all

theorem real_fill_emptied_avail {σ : Type} (B : BackingSource σ) (hB : read_bounded B)
    (stream : GBufferedInputStream σ)
    (hp : stream.priv.pos = 0) (he : stream.priv.end_ = 0) (hl : stream.priv.len ≤ G_MAXSIZE)
    (n : Nat) (s1 : GBufferedInputStream σ)
    (hr : g_buffered_input_stream_real_fill B stream (to_gssize stream.priv.len) = (.ok n, s1)) :
    s1.priv.pos = 0 ∧ s1.priv.end_ = n ∧ n ≤ stream.priv.len := by
  rcases hs : B.g_input_stream_read stream.base_stream stream.priv.len with ⟨r, base⟩
  cases r with
  | error e =>
    rw [real_fill_emptied_error B stream hp he hl e base hs] at hr
    simp at hr
  | ok data =>
    have hb := hB stream.base_stream stream.priv.len data (by rw [hs])
    rw [real_fill_emptied_ok B stream hp he hl data base hs (by omega)] at hr
    simp only [Prod.mk.injEq, Except.ok.injEq] at hr
    obtain ⟨h1, h2⟩ := hr
    subst h1 h2
    exact ⟨hp, rfl, hb⟩

theorem fill_ok {σ : Type} (B : BackingSource σ) (hB : read_bounded B)
    (stream : GBufferedInputStream σ) (count : Int) (h : state_ok stream) :
    state_ok (g_buffered_input_stream_fill B stream count).2 := by
  unfold g_buffered_input_stream_fill
  by_cases hc : count < -1
  · simp only [hc, if_true]
    exact h
  · simp only [hc, if_false]
    rcases hp : g_input_stream_set_pending stream with e | s1
    · exact h
    · obtain ⟨h1, _, _⟩ := set_pending_ok_eq stream s1 hp
      subst h1
      exact real_fill_ok B hB { stream with pending := true } count h

theorem read_byte_ok {σ : Type} (B : BackingSource σ) (hB : read_bounded B)
    (stream : GBufferedInputStream σ) (h : state_ok stream) :
    state_ok (g_buffered_input_stream_read_byte B stream).2.2 := by
  unfold g_buffered_input_stream_read_byte
  by_cases hcl : g_input_stream_is_closed stream = true
  · simp only [hcl, if_true]
    exact h
  · simp only [hcl, Bool.false_eq_true, if_false]
    rcases hp : g_input_stream_set_pending stream with e | s1
    · exact h
    · obtain ⟨h1, _, _⟩ := set_pending_ok_eq stream s1 hp
      subst h1
      simp only []
      by_cases hav : gsize_sub stream.priv.end_ stream.priv.pos = 0
      · simp only [hav, ne_eq, not_true_eq_false, if_false]
        have he := emptied_ok { stream with pending := true } h
        have hf := real_fill_ok B hB (emptied { stream with pending := true })
          (to_gssize stream.priv.len) he
        simp only [emptied] at hf
        rcases hr : g_buffered_input_stream_real_fill B
          { stream with priv := { stream.priv with pos := 0, end_ := 0 }, pending := true }
          (to_gssize stream.priv.len) with ⟨r, s1⟩
        rw [hr] at hf
        cases r with
        | error e => exact hf
        | ok n =>
          simp only []
          by_cases hn : n ≤ 0
          · simp only [hn, if_true]
            exact hf
          · simp only [hn, if_false]
            obtain ⟨a1, a2, a3⟩ := real_fill_emptied_avail B hB
              { stream with priv := { stream.priv with pos := 0, end_ := 0 }, pending := true }
              rfl rfl h.1.1 n s1 hr
            refine advance_ok (g_input_stream_clear_pending s1) hf 1 ?_
            show 1 ≤ gsize_sub s1.priv.end_ s1.priv.pos
            rw [a1, a2, gsize_sub_eq (Nat.zero_le _) (by have := h.1.1; simp only [] at a3; omega)]
            omega
      · simp only [hav, ne_eq, not_false_eq_true, if_true]
        exact advance_ok stream h 1 (by omega)

theorem set_buffer_size_ok {σ : Type} (stream : GBufferedInputStream σ) (size : Nat)
    (hs : size ≤ G_MAXSIZE) (h : state_ok stream) :
    state_ok (g_buffered_input_stream_set_buffer_size stream size) := by
  obtain ⟨⟨t1, t2, t3, t4⟩, i1, i2⟩ := h
  have hsub : gsize_sub stream.priv.end_ stream.priv.pos = stream.priv.end_ - stream.priv.pos :=
    gsize_sub_eq i1 t3
  unfold g_buffered_input_stream_set_buffer_size
  simp only [hsub]
  split
  · exact ⟨⟨t1, t2, t3, t4⟩, i1, i2⟩
  · split
    · simp only [state_ok, well_typed, cursor_inv, memcpy]
      rw [mem_write_length (by simp [g_malloc, mem_read_length])]
      simp only [g_malloc, List.length_replicate, Nat.max_def]
      refine ⟨⟨?_, ?_, ?_, ?_⟩, ?_, ?_⟩ <;> first | trivial | omega | (split <;> omega)
    · simp only [state_ok, well_typed, cursor_inv, g_malloc, List.length_replicate]
      refine ⟨⟨?_, ?_, ?_, ?_⟩, ?_, ?_⟩ <;> first | trivial | omega

theorem peek_stream_eq {σ : Type} (stream : GBufferedInputStream σ) (buffer : List guint8)
    (offset count : Nat) :
    (g_buffered_input_stream_peek stream buffer offset count).2.2 = stream := by
  unfold g_buffered_input_stream_peek
  simp only []
  split <;> rfl

/-- C2: buffer cursor invariant. If the source never returns more bytes than a
read requested, then from every well-typed state with `pos ≤ end ≤ len` each
operation (fill, the class's real_fill, read, skip, read_byte, peek,
compact_buffer, set_buffer_size), with any argument, leads to a state that is
again well typed and satisfies `pos ≤ end ≤ len`. -/
theorem cursor_invariant_preserved {σ : Type} (B : BackingSource σ) (hB : read_bounded B)
    (stream : GBufferedInputStream σ)
    (ht : well_typed stream.priv) (hinv : cursor_inv stream.priv)
    (buffer : List guint8) (offset count size : Nat) (fill_count : Int)
    (hsize : size ≤ G_MAXSIZE) :
    state_ok (g_buffered_input_stream_fill B stream fill_count).2 ∧
    state_ok (g_buffered_input_stream_real_fill B stream fill_count).2 ∧
    state_ok (g_buffered_input_stream_read B stream buffer count).2.2 ∧
    state_ok (g_buffered_input_stream_skip B stream count).2 ∧
    state_ok (g_buffered_input_stream_read_byte B stream).2.2 ∧
    state_ok (g_buffered_input_stream_peek stream buffer offset count).2.2 ∧
    state_ok (compact_buffer stream) ∧
    state_ok (g_buffered_input_stream_set_buffer_size stream size) := by
  have h : state_ok stream := ⟨ht, hinv⟩
  refine ⟨fill_ok B hB stream fill_count h, real_fill_ok B hB stream fill_count h,
    read_ok B hB stream buffer count h, skip_ok B hB stream count h,
    read_byte_ok B hB stream h, ?_, compact_buffer_ok stream h,
    set_buffer_size_ok stream size hsize h⟩
  rw [peek_stream_eq]
  exact h

theorem peek_length_formula {σ : Type} (stream : GBufferedInputStream σ) (buffer : List guint8)
    (offset count : Nat) (hsum : offset + count ≤ G_MAXSIZE) :
    (g_buffered_input_stream_peek stream buffer offset count).1 =
      min count (g_buffered_input_stream_get_available stream - offset) := by
  have hav : g_buffered_input_stream_get_available stream ≤ G_MAXSIZE := gsize_sub_le _ _
  unfold g_buffered_input_stream_peek
  simp only []
  by_cases h : offset > g_buffered_input_stream_get_available stream
  · simp only [h, if_true]
    omega
  · simp only [h, if_false, gsize_add_eq hsum]
    rw [gsize_sub_eq (by omega) (by omega)]
    omega

/-- Peek away from overflow.  For every state, offset and count, `peek` returns
the stream unchanged (`pos`, `end`, `len` and the storage), and a second
identical peek behaves as the first, with the same length.  In a well-typed
state satisfying the cursor invariant, when `offset + count` does not overflow,
the bytes it stores in the caller's buffer are exactly the `n` bytes
`storage[pos + offset, pos + offset + n)` for its return value `n`, taken from
the buffered window at `offset`. -/
theorem peek_read_only {σ : Type} (stream : GBufferedInputStream σ)
    (buffer buffer2 : List guint8) (offset count : Nat) :
    (g_buffered_input_stream_peek stream buffer offset count).2.2 = stream
    ∧ (g_buffered_input_stream_peek stream buffer offset count).2.1 =
        mem_write buffer 0
          (mem_read stream.priv.buffer (stream.priv.pos + offset)
            (g_buffered_input_stream_peek stream buffer offset count).1)
    ∧ g_buffered_input_stream_peek
          (g_buffered_input_stream_peek stream buffer offset count).2.2 buffer2 offset count =
        g_buffered_input_stream_peek stream buffer2 offset count
    ∧ (g_buffered_input_stream_peek stream buffer2 offset count).1 =
        (g_buffered_input_stream_peek stream buffer offset count).1
    ∧ (well_typed stream.priv → cursor_inv stream.priv → offset + count ≤ G_MAXSIZE →
        (mem_read stream.priv.buffer (stream.priv.pos + offset)
          (g_buffered_input_stream_peek stream buffer offset count).1).length =
          (g_buffered_input_stream_peek stream buffer offset count).1 ∧
        mem_read stream.priv.buffer (stream.priv.pos + offset)
          (g_buffered_input_stream_peek stream buffer offset count).1 =
          ((window stream.priv).drop offset).take
            (g_buffered_input_stream_peek stream buffer offset count).1) := by
  refine ⟨peek_stream_eq _ _ _ _, ?_, by rw [peek_stream_eq], ?_, ?_⟩
  · unfold g_buffered_input_stream_peek
    simp only []
    split
    · simp [mem_read, mem_write]
    · rfl
  · unfold g_buffered_input_stream_peek
    simp only []
    split <;> rfl
  · intro ht hinv hsum
    have hf := peek_length_formula stream buffer offset count hsum
    have ha := available_eq stream ht hinv
    obtain ⟨t1, t2, t3, t4⟩ := ht
    obtain ⟨i1, i2⟩ := hinv
    constructor
    · rw [mem_read_length]; omega
    · simp only [window, mem_read]
      rw [show gsize_sub stream.priv.end_ stream.priv.pos =
        g_buffered_input_stream_get_available stream from rfl, List.drop_take, List.drop_drop,
        List.take_take]
      congr 1
      omega

theorem scripted_bounded : read_bounded scripted := by
  intro st count data h
  simp only [scripted] at h
  split at h
  · simp only [Except.ok.injEq] at h
    subst h; simp
  · simp at h
  · simp only [Except.ok.injEq] at h
    subst h; simp

theorem drop_min_length (l : List guint8) (c : Nat) : l.drop (min c l.length) = l.drop c := by
  by_cases h : c ≤ l.length
  · rw [Nat.min_eq_left h]
  · rw [Nat.min_eq_right (by omega), List.drop_length, List.drop_eq_nil_of_le (by omega)]

theorem scripted_read_in_order : read_in_order scripted (fun st => st.data) := by
  intro st count
  refine ⟨?_, ?_⟩
  · intro data h
    simp only [scripted] at h ⊢
    split at h <;> rename_i hs
    · simp only [Except.ok.injEq] at h
      subst h; simp [hs]
    · simp at h
    · simp only [Except.ok.injEq] at h
      subst h; simp [hs]
  · intro e h
    simp only [scripted] at h ⊢
    split at h <;> rename_i hs
    · simp at h
    · simp [hs]
    · simp at h

theorem scripted_skip_in_order : skip_in_order scripted (fun st => st.data) := by
  intro st count
  refine ⟨?_, ?_⟩
  · intro n h
    simp only [scripted] at h ⊢
    split at h <;> rename_i hs
    · simp only [Except.ok.injEq] at h
      subst h
      simp only [hs]
      refine ⟨Nat.min_le_left _ _, Nat.min_le_right _ _, (drop_min_length _ _).symm⟩
    · simp at h
    · simp only [Except.ok.injEq] at h
      subst h
      simp only [hs]
      refine ⟨?_, Nat.min_le_right _ _, (drop_min_length _ _).symm⟩
      omega
  · intro e h
    simp only [scripted] at h ⊢
    split at h <;> rename_i hs
    · simp at h
    · simp [hs]
    · simp at h

/-- C9: peek length formula, at an input where `offset + count` overflows. With
three bytes available, `peek (offset = 1, count = G_MAXSIZE)` returns
`G_MAXSIZE`, while `min (count, max (0, available - offset))` is 2. -/
theorem peek_length_overflow :
    well_typed three_buffered.priv ∧ cursor_inv three_buffered.priv ∧
      g_buffered_input_stream_get_available three_buffered = 3 ∧
      (g_buffered_input_stream_peek three_buffered [0, 0] 1 G_MAXSIZE).1 = G_MAXSIZE ∧
      min G_MAXSIZE (max 0 (g_buffered_input_stream_get_available three_buffered - 1)) = 2 := by
  decide

/-- C10: peek copies what it reports, at an input where `offset + count`
overflows.  `three_buffered` has a storage of 4 bytes, `pos = 1` and three
bytes available.  `peek (offset = 1, count = G_MAXSIZE)` leaves the stream as
it is, but the length it returns, which is the length it hands to `memcpy`, is
`G_MAXSIZE`: the range `storage[pos + offset, pos + offset + n)` runs past the
end of the storage, where only two bytes of the window lie behind the offset,
and past the end of the caller's block. -/
theorem peek_copy_overflow :
    well_typed three_buffered.priv ∧ cursor_inv three_buffered.priv ∧
    (g_buffered_input_stream_peek three_buffered [0, 0] 1 G_MAXSIZE).2.2 = three_buffered ∧
    (g_buffered_input_stream_peek three_buffered [0, 0] 1 G_MAXSIZE).1 = G_MAXSIZE ∧
    (g_buffered_input_stream_peek three_buffered [0, 0] 1 G_MAXSIZE).2.1 =
      memcpy [0, 0] 0 three_buffered.priv.buffer (three_buffered.priv.pos + 1) G_MAXSIZE ∧
    three_buffered.priv.len <
      three_buffered.priv.pos + 1 +
        (g_buffered_input_stream_peek three_buffered [0, 0] 1 G_MAXSIZE).1 ∧
    ((window three_buffered.priv).drop 1).length = 2 ∧
    ([0, 0] : List guint8).length <
      (g_buffered_input_stream_peek three_buffered [0, 0] 1 G_MAXSIZE).1 := by
  decide

/-- Witness for C1: the second read of Scenario A. -/
theorem read_no_gap_no_overlap_witness :
    read_in_order scripted (fun st => st.data) ∧
    well_typed scenario_A_after_read.priv ∧ cursor_inv scenario_A_after_read.priv ∧
    5 ≤ G_MAXSIZE ∧
    g_buffered_input_stream_read scripted scenario_A_after_read (List.replicate 5 0) 5 =
      (.ok 3, [4, 5, 6, 0, 0], scenario_A_end) ∧
    (([4, 5, 6, 0, 0] : List guint8).take 3 =
        (logical_stream (fun st => st.data) scenario_A_after_read).take 3 ∧
      3 ≤ (logical_stream (fun st => st.data) scenario_A_after_read).length ∧
      logical_stream (fun st => st.data) scenario_A_end =
        (logical_stream (fun st => st.data) scenario_A_after_read).drop 3) :=
  ⟨scripted_read_in_order, by decide, by decide, by decide, rfl,
    read_no_gap_no_overlap scripted (fun st => st.data) scripted_read_in_order
      scenario_A_after_read
      (List.replicate 5 0) 5 (by decide) (by decide) (by decide) 3 [4, 5, 6, 0, 0]
      scenario_A_end rfl⟩

/-- Witness for C2: every operation applied to Scenario A after its first read. -/
theorem cursor_invariant_preserved_witness :
    read_bounded scripted ∧
    well_typed scenario_A_after_read.priv ∧ cursor_inv scenario_A_after_read.priv ∧
    8 ≤ G_MAXSIZE ∧
    (state_ok (g_buffered_input_stream_fill scripted scenario_A_after_read (-1)).2 ∧
      state_ok (g_buffered_input_stream_real_fill scripted scenario_A_after_read (-1)).2 ∧
      state_ok (g_buffered_input_stream_read scripted scenario_A_after_read
        (List.replicate 5 0) 5).2.2 ∧
      state_ok (g_buffered_input_stream_skip scripted scenario_A_after_read 5).2 ∧
      state_ok (g_buffered_input_stream_read_byte scripted scenario_A_after_read).2.2 ∧
      state_ok (g_buffered_input_stream_peek scenario_A_after_read
        (List.replicate 5 0) 0 5).2.2 ∧
      state_ok (compact_buffer scenario_A_after_read) ∧
      state_ok (g_buffered_input_stream_set_buffer_size scenario_A_after_read 8)) :=
  ⟨scripted_bounded, by decide, by decide, by decide,
    cursor_invariant_preserved scripted scripted_bounded scenario_A_after_read (by decide)
      (by decide) (List.replicate 5 0) 0 5 8 (-1) (by decide)⟩

/-- Witness for C3: two of three buffered bytes are read, and a read of zero. -/
theorem read_fast_path_witness :
    well_typed three_buffered.priv ∧ cursor_inv three_buffered.priv ∧
    2 ≤ g_buffered_input_stream_get_available three_buffered ∧
    (g_buffered_input_stream_read scripted three_buffered [0, 0] 2 =
        (.ok 2, [2, 3],
          { three_buffered with priv := { three_buffered.priv with pos := 3 } }) ∧
      (mem_read three_buffered.priv.buffer three_buffered.priv.pos 2).length = 2 ∧
      (g_buffered_input_stream_read (traced scripted) (with_log three_buffered []) [0, 0]
        2).2.2.base_stream.2 = []) ∧
    g_buffered_input_stream_read scripted three_buffered [0, 0] 0 =
      (.ok 0, [0, 0], three_buffered) ∧
    (g_buffered_input_stream_read (traced scripted) (with_log three_buffered []) [0, 0]
      0).2.2.base_stream.2 = [] :=
  ⟨by decide, by decide, by decide,
    (read_fast_path scripted three_buffered [] [0, 0] 2 (by decide)).1 (by decide) (by decide),
    (read_fast_path scripted three_buffered [] [0, 0] 2 (by decide)).2⟩

/-- Witness for C4 (Scenario A): capacity 4, the source yields `[1, 2, 3, 4]` and
then `[5, 6]`; `read (3)` gives `[1, 2, 3]` and leaves one byte available, then
`read (5)` gives `[4, 5, 6]`, length 3, with no error and one source read. -/
theorem read_refill_path_witness :
    g_buffered_input_stream_read scripted scenario_A (List.replicate 3 0) 3 =
      (.ok 3, [1, 2, 3], scenario_A_after_read) ∧
    g_buffered_input_stream_get_available scenario_A_after_read = 1 ∧
    well_typed scenario_A_after_read.priv ∧
    5 ≤ G_MAXSIZE ∧
    g_buffered_input_stream_get_available scenario_A_after_read < 5 ∧
    5 - g_buffered_input_stream_get_available scenario_A_after_read ≤
      scenario_A_after_read.priv.len ∧
    ([5, 6] : List guint8).length ≤ G_MAXSSIZE ∧
    (scripted.g_input_stream_read scenario_A_after_read.base_stream
      scenario_A_after_read.priv.len).1 = .ok [5, 6] ∧
    g_buffered_input_stream_read scripted scenario_A_after_read (List.replicate 5 0) 5 =
      (.ok 3, [4, 5, 6, 0, 0], scenario_A_end) ∧
    (g_buffered_input_stream_read (traced scripted) (with_log scenario_A_after_read [])
      (List.replicate 5 0) 5).2.2.base_stream.2 = [SourceCall.read 4] :=
  ⟨rfl, by decide, by decide, by decide, by decide, by decide, by decide, rfl,
    (read_refill_path scripted scenario_A_after_read [] (List.replicate 5 0) 5 (by decide)
      (by decide) (by decide) (by decide) [5, 6] (by decide) rfl).1,
    (read_refill_path scripted scenario_A_after_read [] (List.replicate 5 0) 5 (by decide)
      (by decide) (by decide) (by decide) [5, 6] (by decide) rfl).2.1⟩

/-- Witness for C5 (Scenario B): capacity 4, nothing buffered, `read (100)` where
the source answers 40 bytes yields 40 after one source read of 100 bytes, and
nothing is buffered. -/
theorem read_bypass_path_witness :
    well_typed scenario_B.priv ∧ cursor_inv scenario_B.priv ∧ 100 ≤ G_MAXSIZE ∧
    g_buffered_input_stream_get_available scenario_B < 100 ∧
    scenario_B.priv.len < 100 - g_buffered_input_stream_get_available scenario_B ∧
    (scripted.g_input_stream_read scenario_B.base_stream
      (100 - g_buffered_input_stream_get_available scenario_B)).1 = .ok (List.replicate 40 7) ∧
    (List.replicate 40 (7 : guint8)).length ≤ G_MAXSSIZE ∧
    g_buffered_input_stream_read scripted scenario_B (List.replicate 100 0) 100 =
      (.ok 40, List.replicate 40 7 ++ List.replicate 60 0,
        { scenario_B with base_stream := { data := List.replicate 20 7, script := [] } }) ∧
    (g_buffered_input_stream_read (traced scripted) (with_log scenario_B [])
      (List.replicate 100 0) 100).2.2.base_stream.2 = [SourceCall.read 100] :=
  ⟨by decide, by decide, by decide, by decide, by decide, rfl, by decide,
    (read_bypass_path scripted scenario_B [] (List.replicate 100 0) 100 (by decide) (by decide)
      (by decide) (by decide) (by decide)).1 (List.replicate 40 7) rfl (by decide)⟩

/-- Witness for C6: `read (10)` with 3 buffered bytes and a failing refill
returns 3 with no error. -/
theorem read_partial_progress_suppression_witness :
    well_typed scenario_C.priv ∧ cursor_inv scenario_C.priv ∧ 10 ≤ G_MAXSIZE ∧
    g_buffered_input_stream_get_available scenario_C < 10 ∧
    10 - g_buffered_input_stream_get_available scenario_C ≤ scenario_C.priv.len ∧
    (scripted.g_input_stream_read scenario_C.base_stream scenario_C.priv.len).1 =
      .error (GError.G_IO_ERROR_SOURCE 0) ∧
    g_buffered_input_stream_read scripted scenario_C (List.replicate 10 0) 10 =
      (.ok 3, [1, 2, 3, 0, 0, 0, 0, 0, 0, 0],
        { scenario_C with
          priv := { scenario_C.priv with pos := 0, end_ := 0 },
          base_stream := { data := [9, 10], script := [] } }) :=
  ⟨by decide, by decide, by decide, by decide, by decide, rfl,
    (read_partial_progress_suppression scripted scenario_C (List.replicate 10 0) 10 (by decide)
      (by decide)).2.1 (by decide) (by decide) (GError.G_IO_ERROR_SOURCE 0) rfl⟩

/-- Witness for C7 (Scenario C): `skip (10)` with 3 buffered bytes and a failing
refill returns 3 with no error and leaves the buffer empty. -/
theorem skip_partial_progress_suppression_witness :
    well_typed scenario_C.priv ∧ 10 ≤ G_MAXSIZE ∧
    g_buffered_input_stream_get_available scenario_C < 10 ∧
    10 - g_buffered_input_stream_get_available scenario_C ≤ scenario_C.priv.len ∧
    (scripted.g_input_stream_read scenario_C.base_stream scenario_C.priv.len).1 =
      .error (GError.G_IO_ERROR_SOURCE 0) ∧
    g_buffered_input_stream_skip scripted scenario_C 10 =
      (.ok 3,
        { scenario_C with
          priv := { scenario_C.priv with pos := 0, end_ := 0 },
          base_stream := { data := [9, 10], script := [] } }) :=
  ⟨by decide, by decide, by decide, by decide, rfl,
    (skip_partial_progress_suppression scripted scenario_C 10 (by decide) (by decide)
      (by decide)).2 (by decide) (GError.G_IO_ERROR_SOURCE 0) rfl⟩

/-- Witness for C8: `skip (5)` in Scenario A after its first read. -/
theorem skip_discards_what_it_reports_witness :
    read_in_order scripted (fun st => st.data) ∧
    skip_in_order scripted (fun st => st.data) ∧
    well_typed scenario_A_after_read.priv ∧ cursor_inv scenario_A_after_read.priv ∧
    5 ≤ G_MAXSIZE ∧
    g_buffered_input_stream_skip scripted scenario_A_after_read 5 = (.ok 3, scenario_A_end) ∧
    (logical_stream (fun st => st.data) scenario_A_end =
        (logical_stream (fun st => st.data) scenario_A_after_read).drop 3 ∧
      3 ≤ (logical_stream (fun st => st.data) scenario_A_after_read).length ∧ 3 ≤ 5) :=
  ⟨scripted_read_in_order, scripted_skip_in_order, by decide, by decide, by decide, rfl,
    (skip_discards_what_it_reports scripted (fun st => st.data) scripted_read_in_order
      scripted_skip_in_order scenario_A_after_read [] 5 (by decide) (by decide) (by decide)).1 3 scenario_A_end rfl⟩

/-- A peek of two bytes at offset 1 of three buffered bytes. -/
theorem peek_read_only_witness :
    well_typed three_buffered.priv ∧ cursor_inv three_buffered.priv ∧ 1 + 2 ≤ G_MAXSIZE ∧
    g_buffered_input_stream_peek three_buffered [0, 0] 1 2 = (2, [3, 4], three_buffered) ∧
    ((mem_read three_buffered.priv.buffer (three_buffered.priv.pos + 1)
        (g_buffered_input_stream_peek three_buffered [0, 0] 1 2).1).length =
        (g_buffered_input_stream_peek three_buffered [0, 0] 1 2).1 ∧
      mem_read three_buffered.priv.buffer (three_buffered.priv.pos + 1)
        (g_buffered_input_stream_peek three_buffered [0, 0] 1 2).1 =
        ((window three_buffered.priv).drop 1).take
          (g_buffered_input_stream_peek three_buffered [0, 0] 1 2).1) :=
  ⟨by decide, by decide, by decide, rfl,
    (peek_read_only three_buffered [0, 0] [0, 0] 1 2).2.2.2.2 (by decide) (by decide)
      (by decide)⟩

/-! ## Resizing the buffer -/

theorem mem_read_zero_mem_write_zero (buffer w : List guint8) (k : Nat) (hk : w.length = k) :
    mem_read (mem_write buffer 0 w) 0 k = w := by
  rw [mem_read, List.drop_zero]
  exact mem_write_zero_take_of_length buffer w k hk

theorem set_buffer_size_window {σ : Type} (stream : GBufferedInputStream σ) (size : Nat)
    (ht : well_typed stream.priv) (hinv : cursor_inv stream.priv) :
    g_buffered_input_stream_get_available (g_buffered_input_stream_set_buffer_size stream size) =
      g_buffered_input_stream_get_available stream ∧
    window (g_buffered_input_stream_set_buffer_size stream size).priv = window stream.priv := by
  have hw := window_length stream ht hinv
  have ha := available_eq stream ht hinv
  obtain ⟨t1, t2, t3, t4⟩ := ht
  obtain ⟨i1, i2⟩ := hinv
  have hg : gsize_sub stream.priv.end_ stream.priv.pos =
      g_buffered_input_stream_get_available stream := rfl
  unfold g_buffered_input_stream_set_buffer_size
  simp only []
  by_cases h1 : stream.priv.len = size
  · rw [if_pos h1]
    exact ⟨rfl, rfl⟩
  · rw [if_neg h1]
    by_cases h2 : stream.priv.buffer ≠ []
    · rw [if_pos h2]
      have h0 : gsize_sub (g_buffered_input_stream_get_available stream) 0 =
          g_buffered_input_stream_get_available stream :=
        gsize_sub_eq (Nat.zero_le _) (gsize_sub_le _ _)
      refine ⟨?_, ?_⟩
      · simp only [g_buffered_input_stream_get_available]
        exact h0
      · simp only [window, hg, h0, memcpy]
        exact mem_read_zero_mem_write_zero _ _ _ hw
    · have hb : stream.priv.buffer = [] := by simpa using h2
      have hl : stream.priv.len = 0 := by rw [← t4, hb]; rfl
      have he : stream.priv.end_ = 0 := by omega
      have hp : stream.priv.pos = 0 := by omega
      rw [if_neg h2]
      refine ⟨?_, ?_⟩
      · simp only [g_buffered_input_stream_get_available, he, hp]
      · simp only [window, he, hp, mem_read, hb]
        simp [gsize_sub]

theorem set_buffer_size_len {σ : Type} (stream : GBufferedInputStream σ) (size : Nat)
    (ht : well_typed stream.priv) (hinv : cursor_inv stream.priv) :
    g_buffered_input_stream_get_buffer_size
        (g_buffered_input_stream_set_buffer_size stream size) =
      max size (g_buffered_input_stream_get_available stream) := by
  have ha := available_eq stream ht hinv
  obtain ⟨t1, t2, t3, t4⟩ := ht
  obtain ⟨i1, i2⟩ := hinv
  have hg : gsize_sub stream.priv.end_ stream.priv.pos =
      g_buffered_input_stream_get_available stream := rfl
  unfold g_buffered_input_stream_set_buffer_size g_buffered_input_stream_get_buffer_size
  simp only []
  by_cases h1 : stream.priv.len = size
  · rw [if_pos h1, Nat.max_def]
    split <;> omega
  · rw [if_neg h1]
    by_cases h2 : stream.priv.buffer ≠ []
    · rw [if_pos h2]
      rfl
    · have hb : stream.priv.buffer = [] := by simpa using h2
      have hl : stream.priv.len = 0 := by rw [← t4, hb]; rfl
      rw [if_neg h2, Nat.max_def]
      show size = _
      split <;> omega

/-- C11: resize never discards buffered bytes.  For every well-typed state
satisfying `pos ≤ end ≤ len` (with an allocated buffer or not) and every
requested size `n`, after `set_buffer_size (n)` the value of `get_available` is
the same, and the window `[pos, end)` holds the same bytes in the same order as
before the call. -/
theorem set_buffer_size_keeps_buffered_bytes {σ : Type} (stream : GBufferedInputStream σ)
    (n : Nat) (ht : well_typed stream.priv) (hinv : cursor_inv stream.priv) :
    g_buffered_input_stream_get_available (g_buffered_input_stream_set_buffer_size stream n) =
      g_buffered_input_stream_get_available stream ∧
    window (g_buffered_input_stream_set_buffer_size stream n).priv = window stream.priv :=
  set_buffer_size_window stream n ht hinv

/-- C12: resulting buffer size.  For every well-typed state satisfying
`pos ≤ end ≤ len` (with an allocated buffer or not) and every `n`, after
`set_buffer_size (n)` the buffer size reported by `get_buffer_size` is
`max (n, available)`, with `available` taken before the call; in particular
when `n < available` the new size is `available`. -/
theorem set_buffer_size_result {σ : Type} (stream : GBufferedInputStream σ)
    (n : Nat) (ht : well_typed stream.priv) (hinv : cursor_inv stream.priv) :
    g_buffered_input_stream_get_buffer_size (g_buffered_input_stream_set_buffer_size stream n) =
      max n (g_buffered_input_stream_get_available stream) ∧
    (n < g_buffered_input_stream_get_available stream →
      g_buffered_input_stream_get_buffer_size
          (g_buffered_input_stream_set_buffer_size stream n) =
        g_buffered_input_stream_get_available stream) := by
  have h := set_buffer_size_len stream n ht hinv
  refine ⟨h, fun hlt => ?_⟩
  rw [h, Nat.max_def]
  split <;> omega

/-- Witness for C11: the buffer holding `[2, 3, 4]` is resized to 2 and to 16. -/
theorem set_buffer_size_keeps_buffered_bytes_witness :
    well_typed three_buffered.priv ∧ cursor_inv three_buffered.priv ∧
    three_buffered.priv.buffer ≠ [] ∧
    (g_buffered_input_stream_get_available
        (g_buffered_input_stream_set_buffer_size three_buffered 2) =
        g_buffered_input_stream_get_available three_buffered ∧
      window (g_buffered_input_stream_set_buffer_size three_buffered 2).priv =
        window three_buffered.priv) ∧
    window (g_buffered_input_stream_set_buffer_size three_buffered 2).priv = [2, 3, 4] ∧
    window (g_buffered_input_stream_set_buffer_size three_buffered 16).priv = [2, 3, 4] :=
  ⟨by decide, by decide, by decide,
    set_buffer_size_keeps_buffered_bytes three_buffered 2 (by decide) (by decide),
    by decide, by decide⟩

/-- Witness for C12: with three bytes buffered, a request for 2 yields size 3 and
a request for 16 yields size 16. -/
theorem set_buffer_size_result_witness :
    well_typed three_buffered.priv ∧ cursor_inv three_buffered.priv ∧
    three_buffered.priv.buffer ≠ [] ∧
    (g_buffered_input_stream_get_buffer_size
        (g_buffered_input_stream_set_buffer_size three_buffered 2) =
        max 2 (g_buffered_input_stream_get_available three_buffered) ∧
      (2 < g_buffered_input_stream_get_available three_buffered →
        g_buffered_input_stream_get_buffer_size
            (g_buffered_input_stream_set_buffer_size three_buffered 2) =
          g_buffered_input_stream_get_available three_buffered)) ∧
    g_buffered_input_stream_get_buffer_size
      (g_buffered_input_stream_set_buffer_size three_buffered 2) = 3 ∧
    g_buffered_input_stream_get_buffer_size
      (g_buffered_input_stream_set_buffer_size three_buffered 16) = 16 :=
  ⟨by decide, by decide, by decide,
    set_buffer_size_result three_buffered 2 (by decide) (by decide), by decide, by decide⟩

/-! ## Filling the buffer -/

theorem to_gsize_of_nonneg {count : Int} (h1 : 0 ≤ count) (h2 : count ≤ (G_MAXSSIZE : Int)) :
    to_gsize count = count.toNat := by
  simp only [to_gsize, G_MAXSIZE, G_MAXSSIZE] at *
  omega

theorem real_fill_request {σ : Type} (stream : GBufferedInputStream σ) (count : Int)
    (h : state_ok stream) (h1 : -1 ≤ count) (h2 : count ≤ (G_MAXSSIZE : Int)) :
    min (if count = -1 then stream.priv.len else to_gsize count)
        (gsize_sub stream.priv.len (gsize_sub stream.priv.end_ stream.priv.pos)) =
      fill_request stream.priv count := by
  obtain ⟨⟨t1, t2, t3, t4⟩, i1, i2⟩ := h
  rw [gsize_sub_eq i1 t3, gsize_sub_eq (by omega) t1, fill_request]
  by_cases hc : count = -1
  · simp only [hc, if_true]
  · simp only [hc, if_false]
    rw [to_gsize_of_nonneg (by omega) h2]

theorem window_compact {σ : Type} (stream : GBufferedInputStream σ) (h : state_ok stream) :
    window (compact_buffer stream).priv = window stream.priv ∧
      g_buffered_input_stream_get_available (compact_buffer stream) =
        g_buffered_input_stream_get_available stream := by
  have hw := window_length stream h.1 h.2
  have h0 : gsize_sub (g_buffered_input_stream_get_available stream) 0 =
      g_buffered_input_stream_get_available stream :=
    gsize_sub_eq (Nat.zero_le _) (gsize_sub_le _ _)
  have hg : gsize_sub stream.priv.end_ stream.priv.pos =
      g_buffered_input_stream_get_available stream := rfl
  refine ⟨?_, ?_⟩
  · simp only [compact_buffer, window, hg, h0, memcpy]
    exact mem_read_zero_mem_write_zero _ _ _ hw
  · simp only [compact_buffer, g_buffered_input_stream_get_available]
    exact h0

theorem window_append (priv : GBufferedInputStreamPrivate) (data : List guint8)
    (ht : well_typed priv) (hinv : cursor_inv priv)
    (hn : priv.end_ + data.length ≤ G_MAXSIZE) :
    window { priv with buffer := mem_write priv.buffer priv.end_ data,
                       end_ := priv.end_ + data.length } = window priv ++ data := by
  obtain ⟨t1, t2, t3, t4⟩ := ht
  obtain ⟨i1, i2⟩ := hinv
  simp only [window, mem_read, mem_write]
  rw [gsize_sub_eq (by omega) hn, gsize_sub_eq i1 t3]
  rw [List.append_assoc, List.drop_append_of_le_length (by simp; omega), ← List.append_assoc,
    List.take_left' (by simp; omega), List.drop_take]

theorem fill_prepared_facts {σ : Type} (stream : GBufferedInputStream σ) (count : Int)
    (h : state_ok stream) :
    state_ok (fill_prepared stream count) ∧
    window (fill_prepared stream count).priv = window stream.priv ∧
    g_buffered_input_stream_get_available (fill_prepared stream count) =
      g_buffered_input_stream_get_available stream ∧
    (fill_prepared stream count).priv.len = stream.priv.len ∧
    (fill_prepared stream count).base_stream = stream.base_stream ∧
    (fill_prepared stream count).pending = stream.pending ∧
    (fill_prepared stream count).closed = stream.closed ∧
    (fill_prepared stream count).priv.end_ + fill_request stream.priv count ≤ stream.priv.len := by
  unfold fill_prepared
  by_cases hc : stream.priv.len - stream.priv.end_ < fill_request stream.priv count
  · rw [if_pos hc]
    have hw := window_compact stream h
    refine ⟨compact_buffer_ok stream h, hw.1, hw.2, rfl, rfl, rfl, rfl, ?_⟩
    obtain ⟨⟨t1, t2, t3, t4⟩, i1, i2⟩ := h
    have he : (compact_buffer stream).priv.end_ = stream.priv.end_ - stream.priv.pos := by
      simp only [compact_buffer]
      exact gsize_sub_eq i1 t3
    rw [he]
    have : fill_request stream.priv count ≤
        stream.priv.len - (stream.priv.end_ - stream.priv.pos) := Nat.min_le_right _ _
    omega
  · rw [if_neg hc]
    refine ⟨h, rfl, rfl, rfl, rfl, rfl, rfl, ?_⟩
    obtain ⟨⟨t1, t2, t3, t4⟩, i1, i2⟩ := h
    omega

theorem real_fill_raw {σ : Type} (B : BackingSource σ) (stream : GBufferedInputStream σ)
    (count : Int) (h : state_ok stream) (h1 : -1 ≤ count) (h2 : count ≤ (G_MAXSSIZE : Int)) :
    g_buffered_input_stream_real_fill B stream count =
      match B.g_input_stream_read (fill_prepared stream count).base_stream
          (fill_request stream.priv count) with
      | (.error e, base) => (.error e, { fill_prepared stream count with base_stream := base })
      | (.ok data, base) =>
        (.ok data.length,
          { fill_prepared stream count with
            priv := { (fill_prepared stream count).priv with
              buffer := mem_write (fill_prepared stream count).priv.buffer
                (fill_prepared stream count).priv.end_ data,
              end_ := if data.length > 0 then
                  gsize_add (fill_prepared stream count).priv.end_ data.length
                else (fill_prepared stream count).priv.end_ },
            base_stream := base }) := by
  have hr := real_fill_request stream count h h1 h2
  obtain ⟨⟨t1, t2, t3, t4⟩, i1, i2⟩ := h
  have hs3 : gsize_sub stream.priv.len stream.priv.end_ = stream.priv.len - stream.priv.end_ :=
    gsize_sub_eq i2 t1
  unfold g_buffered_input_stream_real_fill fill_prepared
  simp only [hr, hs3]

theorem real_fill_error_eq {σ : Type} (B : BackingSource σ) (stream : GBufferedInputStream σ)
    (count : Int) (h : state_ok stream) (h1 : -1 ≤ count) (h2 : count ≤ (G_MAXSSIZE : Int))
    (e : GError)
    (hr : (B.g_input_stream_read stream.base_stream (fill_request stream.priv count)).1 =
      .error e) :
    g_buffered_input_stream_real_fill B stream count =
      (.error e,
        { fill_prepared stream count with
          base_stream :=
            (B.g_input_stream_read stream.base_stream (fill_request stream.priv count)).2 }) := by
  have hf := (fill_prepared_facts stream count h).2.2.2.2.1
  rw [real_fill_raw B stream count h h1 h2, hf]
  rcases hB : B.g_input_stream_read stream.base_stream (fill_request stream.priv count)
    with ⟨r, base⟩
  rw [hB] at hr
  simp only [] at hr
  subst hr
  rfl

theorem real_fill_ok_eq {σ : Type} (B : BackingSource σ) (stream : GBufferedInputStream σ)
    (count : Int) (h : state_ok stream) (h1 : -1 ≤ count) (h2 : count ≤ (G_MAXSSIZE : Int))
    (data : List guint8)
    (hr : (B.g_input_stream_read stream.base_stream (fill_request stream.priv count)).1 =
      .ok data)
    (hn : data.length ≤ fill_request stream.priv count) :
    g_buffered_input_stream_real_fill B stream count =
      (.ok data.length,
        { fill_prepared stream count with
          priv := { (fill_prepared stream count).priv with
            buffer := mem_write (fill_prepared stream count).priv.buffer
              (fill_prepared stream count).priv.end_ data,
            end_ := (fill_prepared stream count).priv.end_ + data.length },
          base_stream :=
            (B.g_input_stream_read stream.base_stream (fill_request stream.priv count)).2 }) := by
  obtain ⟨f1, _, _, f4, f5, _, _, f8⟩ := fill_prepared_facts stream count h
  rw [real_fill_raw B stream count h h1 h2, f5]
  rcases hB : B.g_input_stream_read stream.base_stream (fill_request stream.priv count)
    with ⟨r, base⟩
  rw [hB] at hr
  simp only [] at hr
  subst hr
  have hle : stream.priv.len ≤ G_MAXSIZE := h.1.1
  have hend : (if data.length > 0 then
      gsize_add (fill_prepared stream count).priv.end_ data.length
    else (fill_prepared stream count).priv.end_) =
      (fill_prepared stream count).priv.end_ + data.length := by
    split
    · exact gsize_add_eq (by omega)
    · omega
  simp only [hend]

theorem fill_invalid_eq {σ : Type} (B : BackingSource σ) (stream : GBufferedInputStream σ)
    (count : Int) (h : count < -1) :
    g_buffered_input_stream_fill B stream count =
      (.error .G_IO_ERROR_INVALID_ARGUMENT, stream) := by
  unfold g_buffered_input_stream_fill
  rw [if_pos h]

theorem fill_closed_eq {σ : Type} (B : BackingSource σ) (stream : GBufferedInputStream σ)
    (count : Int) (h : -1 ≤ count) (hc : stream.closed = true) :
    g_buffered_input_stream_fill B stream count = (.error .G_IO_ERROR_CLOSED, stream) := by
  unfold g_buffered_input_stream_fill g_input_stream_set_pending
  rw [if_neg (by omega), if_pos hc]

theorem fill_pending_eq {σ : Type} (B : BackingSource σ) (stream : GBufferedInputStream σ)
    (count : Int) (h : -1 ≤ count) (hc : stream.closed = false) (hp : stream.pending = true) :
    g_buffered_input_stream_fill B stream count = (.error .G_IO_ERROR_PENDING, stream) := by
  unfold g_buffered_input_stream_fill g_input_stream_set_pending
  rw [if_neg (by omega), if_neg (by simp [hc]), if_pos hp]

theorem fill_open_eq {σ : Type} (B : BackingSource σ) (stream : GBufferedInputStream σ)
    (count : Int) (h : -1 ≤ count) (hc : stream.closed = false) (hp : stream.pending = false) :
    g_buffered_input_stream_fill B stream count =
      ((g_buffered_input_stream_real_fill B { stream with pending := true } count).1,
        g_input_stream_clear_pending
          (g_buffered_input_stream_real_fill B { stream with pending := true } count).2) := by
  unfold g_buffered_input_stream_fill g_input_stream_set_pending
  rw [if_neg (by omega), if_neg (by simp [hc]), if_neg (by simp [hp])]

theorem real_fill_log {σ : Type} (B : BackingSource σ)
    (stream : GBufferedInputStream (σ × List SourceCall)) (count : Int)
    (h : state_ok stream) (h1 : -1 ≤ count) (h2 : count ≤ (G_MAXSSIZE : Int)) :
    (g_buffered_input_stream_real_fill (traced B) stream count).2.base_stream.2 =
      stream.base_stream.2 ++ [SourceCall.read (fill_request stream.priv count)] := by
  have hf := (fill_prepared_facts stream count h).2.2.2.2.1
  rw [real_fill_raw (traced B) stream count h h1 h2, hf]
  rcases hB : B.g_input_stream_read stream.base_stream.1 (fill_request stream.priv count)
    with ⟨r, base⟩
  have hT : (traced B).g_input_stream_read stream.base_stream (fill_request stream.priv count) =
      (r, (base, stream.base_stream.2 ++ [SourceCall.read (fill_request stream.priv count)])) := by
    show ((B.g_input_stream_read stream.base_stream.1 _).1,
      ((B.g_input_stream_read stream.base_stream.1 _).2, _)) = _
    rw [hB]
  rw [hT]
  cases r <;> rfl

theorem real_fill_ok_facts {σ : Type} (B : BackingSource σ) (stream : GBufferedInputStream σ)
    (count : Int) (h : state_ok stream) (h1 : -1 ≤ count) (h2 : count ≤ (G_MAXSSIZE : Int))
    (data : List guint8)
    (hr : (B.g_input_stream_read stream.base_stream (fill_request stream.priv count)).1 =
      .ok data)
    (hn : data.length ≤ fill_request stream.priv count) :
    (g_buffered_input_stream_real_fill B stream count).1 = .ok data.length ∧
    g_buffered_input_stream_get_available
        (g_buffered_input_stream_real_fill B stream count).2 =
      g_buffered_input_stream_get_available stream + data.length ∧
    window (g_buffered_input_stream_real_fill B stream count).2.priv =
      window stream.priv ++ data ∧
    (g_buffered_input_stream_real_fill B stream count).2.priv.len = stream.priv.len ∧
    (g_buffered_input_stream_real_fill B stream count).2.base_stream =
      (B.g_input_stream_read stream.base_stream (fill_request stream.priv count)).2 ∧
    (g_buffered_input_stream_real_fill B stream count).2.pending = stream.pending ∧
    (g_buffered_input_stream_real_fill B stream count).2.closed = stream.closed := by
  obtain ⟨f1, f2, f3, f4, f5, f6, f7, f8⟩ := fill_prepared_facts stream count h
  rw [real_fill_ok_eq B stream count h h1 h2 data hr hn]
  have hle : stream.priv.len ≤ G_MAXSIZE := h.1.1
  have hwa := window_append (fill_prepared stream count).priv data f1.1 f1.2 (by omega)
  refine ⟨rfl, ?_, ?_, f4, rfl, f6, f7⟩
  · have ha := available_eq (fill_prepared stream count) f1.1 f1.2
    rw [← f3, ha]
    obtain ⟨⟨t1, t2, t3, t4⟩, i1, i2⟩ := f1
    simp only [g_buffered_input_stream_get_available]
    rw [gsize_sub_eq (by omega) (by omega)]
    omega
  · rw [← f2]
    exact hwa

theorem real_fill_error_facts {σ : Type} (B : BackingSource σ) (stream : GBufferedInputStream σ)
    (count : Int) (h : state_ok stream) (h1 : -1 ≤ count) (h2 : count ≤ (G_MAXSSIZE : Int))
    (e : GError)
    (hr : (B.g_input_stream_read stream.base_stream (fill_request stream.priv count)).1 =
      .error e) :
    (g_buffered_input_stream_real_fill B stream count).1 = .error e ∧
    g_buffered_input_stream_get_available
        (g_buffered_input_stream_real_fill B stream count).2 =
      g_buffered_input_stream_get_available stream ∧
    window (g_buffered_input_stream_real_fill B stream count).2.priv = window stream.priv ∧
    (g_buffered_input_stream_real_fill B stream count).2.priv.len = stream.priv.len ∧
    (g_buffered_input_stream_real_fill B stream count).2.base_stream =
      (B.g_input_stream_read stream.base_stream (fill_request stream.priv count)).2 ∧
    (g_buffered_input_stream_real_fill B stream count).2.pending = stream.pending ∧
    (g_buffered_input_stream_real_fill B stream count).2.closed = stream.closed := by
  obtain ⟨f1, f2, f3, f4, f5, f6, f7, f8⟩ := fill_prepared_facts stream count h
  rw [real_fill_error_eq B stream count h h1 h2 e hr]
  exact ⟨rfl, f3, f2, f4, rfl, f6, f7⟩

theorem fill_request_eq {σ : Type} (stream : GBufferedInputStream σ) (count : Int)
    (h : state_ok stream) :
    fill_request stream.priv count =
      min (if count = -1 then stream.priv.len else count.toNat)
        (stream.priv.len - g_buffered_input_stream_get_available stream) := by
  rw [available_eq stream h.1 h.2, fill_request]

theorem fill_request_unspecified {σ : Type} (stream : GBufferedInputStream σ)
    (h : state_ok stream) :
    fill_request stream.priv (-1) =
      stream.priv.len - g_buffered_input_stream_get_available stream := by
  rw [fill_request_eq stream (-1) h]
  simp

/-- C13 (as amended): fill request and effect.  For every open, non-pending,
well-typed state satisfying `pos ≤ end ≤ len` and every `count` with
`-1 ≤ count ≤ G_MAXSSIZE`, `fill (count)` makes exactly one call to the backing
source, a read of `min (c, len - available)` bytes, where `c = len` when
`count = -1` and `c = count` otherwise (so `fill (-1)` asks for exactly
`len - available` bytes).  If the source answers that read with `n` bytes, `n`
at most the number requested, then `fill` returns `n`, `get_available` grows by
exactly `n`, the new window is the old window followed by the `n` bytes in
order, `len` is unchanged and the pending flag is clear again. -/
theorem fill_request_and_effect {σ : Type} (B : BackingSource σ)
    (stream : GBufferedInputStream σ) (log : List SourceCall) (count : Int)
    (ht : well_typed stream.priv) (hinv : cursor_inv stream.priv)
    (hopen : stream.closed = false) (hidle : stream.pending = false)
    (h1 : -1 ≤ count) (h2 : count ≤ (G_MAXSSIZE : Int)) :
    fill_request stream.priv count =
      min (if count = -1 then stream.priv.len else count.toNat)
        (stream.priv.len - g_buffered_input_stream_get_available stream)
    ∧ fill_request stream.priv (-1) =
        stream.priv.len - g_buffered_input_stream_get_available stream
    ∧ (g_buffered_input_stream_fill (traced B) (with_log stream log) count).2.base_stream.2 =
        log ++ [SourceCall.read (fill_request stream.priv count)]
    ∧ (∀ data : List guint8,
        (B.g_input_stream_read stream.base_stream (fill_request stream.priv count)).1 =
          .ok data →
        data.length ≤ fill_request stream.priv count →
        (g_buffered_input_stream_fill B stream count).1 = .ok data.length ∧
        g_buffered_input_stream_get_available (g_buffered_input_stream_fill B stream count).2 =
          g_buffered_input_stream_get_available stream + data.length ∧
        window (g_buffered_input_stream_fill B stream count).2.priv =
          window stream.priv ++ data ∧
        (g_buffered_input_stream_fill B stream count).2.priv.len = stream.priv.len ∧
        (g_buffered_input_stream_fill B stream count).2.base_stream =
          (B.g_input_stream_read stream.base_stream (fill_request stream.priv count)).2 ∧
        (g_buffered_input_stream_fill B stream count).2.pending = false ∧
        (g_buffered_input_stream_fill B stream count).2.closed = false) := by
  have h : state_ok stream := ⟨ht, hinv⟩
  refine ⟨fill_request_eq stream count h, fill_request_unspecified stream h, ?_, ?_⟩
  · rw [fill_open_eq (traced B) (with_log stream log) count h1 hopen hidle]
    exact real_fill_log B { with_log stream log with pending := true } count h h1 h2
  · intro data hr hn
    rw [fill_open_eq B stream count h1 hopen hidle]
    obtain ⟨g1, g2, g3, g4, g5, g6, g7⟩ :=
      real_fill_ok_facts B { stream with pending := true } count h h1 h2 data hr hn
    exact ⟨g1, g2, g3, g4, g5, rfl, by rw [← hopen]; exact g7⟩

/-- Counterexample to C13 as stated: the closed stream `scenario_A_closed` is not
pending and satisfies `pos ≤ end ≤ len`, and `min (len, len - available) = 3`,
yet `fill (-1)` fails with `Closed` and asks the backing source for nothing. -/
theorem fill_closed_asks_nothing :
    scenario_A_closed.pending = false ∧ cursor_inv scenario_A_closed.priv ∧
    fill_request scenario_A_closed.priv (-1) = 3 ∧
    (g_buffered_input_stream_fill (traced scripted) (with_log scenario_A_closed []) (-1)).1 =
      .error .G_IO_ERROR_CLOSED ∧
    (g_buffered_input_stream_fill (traced scripted)
      (with_log scenario_A_closed []) (-1)).2.base_stream.2 = [] :=
  ⟨rfl, by decide, rfl, rfl, rfl⟩

/-- Witness for C13: one byte is buffered in a buffer of 4, `fill (-1)` asks the
source for 3 bytes, the source hands out `[5, 6]`, and the window `[4]` becomes
`[4, 5, 6]`. -/
theorem fill_request_and_effect_witness :
    well_typed scenario_A_after_read.priv ∧ cursor_inv scenario_A_after_read.priv ∧
    (g_buffered_input_stream_fill (traced scripted)
      (with_log scenario_A_after_read []) (-1)).2.base_stream.2 = [SourceCall.read 3] ∧
    (g_buffered_input_stream_fill scripted scenario_A_after_read (-1)).1 = .ok 2 ∧
    window (g_buffered_input_stream_fill scripted scenario_A_after_read (-1)).2.priv =
      [4, 5, 6] :=
  ⟨by decide, by decide,
    (fill_request_and_effect scripted scenario_A_after_read [] (-1) (by decide) (by decide)
      rfl rfl (by decide) (by decide)).2.2.1,
    ((fill_request_and_effect scripted scenario_A_after_read [] (-1) (by decide) (by decide)
      rfl rfl (by decide) (by decide)).2.2.2 [5, 6] (by rfl) (by decide)).1,
    ((fill_request_and_effect scripted scenario_A_after_read [] (-1) (by decide) (by decide)
      rfl rfl (by decide) (by decide)).2.2.2 [5, 6] (by rfl) (by decide)).2.2.1⟩

/-- C14: `fill (0)` is not a no-op on a stream with an operation outstanding.
On `scenario_A_pending` the call `fill (0)` does not return 0: it fails with
`PendingOperation` (the state is left as it was). -/
theorem fill_zero_on_pending_stream :
    g_buffered_input_stream_fill scripted scenario_A_pending 0 =
      (.error .G_IO_ERROR_PENDING, scenario_A_pending) ∧
    (g_buffered_input_stream_fill scripted scenario_A_pending 0).1 ≠ .ok 0 :=
  ⟨rfl, by intro h; cases h⟩

theorem real_fill_error_source {σ : Type} (B : BackingSource σ)
    (stream : GBufferedInputStream σ) (count : Int) (e : GError)
    (h : (g_buffered_input_stream_real_fill B stream count).1 = .error e) :
    ∃ n, (B.g_input_stream_read stream.base_stream n).1 = .error e := by
  unfold g_buffered_input_stream_real_fill at h
  simp only [] at h
  have hb : ∀ (c : Prop) [Decidable c],
      (if c then compact_buffer stream else stream).base_stream = stream.base_stream := by
    intro c _
    split <;> rfl
  rw [hb] at h
  generalize (min (if count = -1 then stream.priv.len else to_gsize count)
    (gsize_sub stream.priv.len (gsize_sub stream.priv.end_ stream.priv.pos))) = n at h
  refine ⟨n, ?_⟩
  rcases hr : B.g_input_stream_read stream.base_stream n with ⟨r, base⟩
  rw [hr] at h
  cases r with
  | error e1 =>
    simp only [Except.error.injEq] at h
    rw [h]
  | ok data => cases h

/-- Counterexample to C15 as stated: over a backing source that reports
`InvalidArgument` itself, `fill (-1)` on an open, idle stream fails with
`InvalidArgument` although `count < -1` does not hold; the call did reach the
backing source. -/
theorem fill_invalid_argument_from_source :
    ¬ ((-1 : Int) < -1) ∧
    (g_buffered_input_stream_fill rejecting rejecting_stream (-1)).1 =
      .error .G_IO_ERROR_INVALID_ARGUMENT ∧
    (g_buffered_input_stream_fill (traced rejecting)
      (with_log rejecting_stream []) (-1)).2.base_stream.2 = [SourceCall.read 4] :=
  ⟨by decide, rfl, rfl⟩

/-- C15 (as amended): fill argument validation.  For every state (pending or
not) and every signed `count`: if `count < -1` then `fill (count)` fails with
`InvalidArgument`, makes no backing-source call, does not set the pending flag
and leaves `pos`, `end`, `len` and the storage unchanged (the whole state is
returned as it was); and `fill` itself raises `InvalidArgument` only then: if
`-1 ≤ count` and `fill (count)` fails with `InvalidArgument`, the stream was open
and idle and that error is the answer of the backing source to a read. -/
theorem fill_argument_validation {σ : Type} (B : BackingSource σ)
    (stream : GBufferedInputStream σ) (log : List SourceCall) (count : Int) :
    (count < -1 →
      g_buffered_input_stream_fill B stream count =
        (.error .G_IO_ERROR_INVALID_ARGUMENT, stream) ∧
      g_buffered_input_stream_fill (traced B) (with_log stream log) count =
        (.error .G_IO_ERROR_INVALID_ARGUMENT, with_log stream log)) ∧
    (-1 ≤ count →
      (g_buffered_input_stream_fill B stream count).1 = .error .G_IO_ERROR_INVALID_ARGUMENT →
      stream.closed = false ∧ stream.pending = false ∧
      ∃ n, (B.g_input_stream_read stream.base_stream n).1 =
        .error .G_IO_ERROR_INVALID_ARGUMENT) := by
  refine ⟨fun hc => ⟨fill_invalid_eq B stream count hc,
    fill_invalid_eq (traced B) (with_log stream log) count hc⟩, ?_⟩
  intro h1 hfail
  by_cases hcl : stream.closed = true
  · rw [fill_closed_eq B stream count h1 hcl] at hfail
    cases hfail
  · have hopen : stream.closed = false := by simpa using hcl
    by_cases hp : stream.pending = true
    · rw [fill_pending_eq B stream count h1 hopen hp] at hfail
      cases hfail
    · have hidle : stream.pending = false := by simpa using hp
      rw [fill_open_eq B stream count h1 hopen hidle] at hfail
      exact ⟨hopen, hidle,
        real_fill_error_source B { stream with pending := true } count _ hfail⟩

/-- Witness for C15: `fill (-2)` on a stream with an operation outstanding. -/
theorem fill_argument_validation_witness :
    (-2 : Int) < -1 ∧
    g_buffered_input_stream_fill scripted scenario_A_pending (-2) =
      (.error .G_IO_ERROR_INVALID_ARGUMENT, scenario_A_pending) ∧
    g_buffered_input_stream_fill (traced scripted) (with_log scenario_A_pending []) (-2) =
      (.error .G_IO_ERROR_INVALID_ARGUMENT, with_log scenario_A_pending []) ∧
    (-1 : Int) ≤ -1 ∧
    (g_buffered_input_stream_fill rejecting rejecting_stream (-1)).1 =
      .error .G_IO_ERROR_INVALID_ARGUMENT ∧
    (rejecting_stream.closed = false ∧ rejecting_stream.pending = false ∧
      ∃ n, (rejecting.g_input_stream_read rejecting_stream.base_stream n).1 =
        .error .G_IO_ERROR_INVALID_ARGUMENT) :=
  ⟨by decide,
    ((fill_argument_validation scripted scenario_A_pending [] (-2)).1 (by decide)).1,
    ((fill_argument_validation scripted scenario_A_pending [] (-2)).1 (by decide)).2,
    by decide, rfl,
    (fill_argument_validation rejecting rejecting_stream [] (-1)).2 (by decide) (by rfl)⟩

/-- C16: fill failure fabricates nothing.  For every well-typed state satisfying
`pos ≤ end ≤ len` and every `count` with `-1 ≤ count ≤ G_MAXSSIZE`, if the read
that the fill issues to the backing source (a read of `fill_request` bytes) fails
with the error `e`, then the class `fill` fails with `e`, and so does the public
`fill` on an open, idle stream (the only states in which it issues a read);
`get_available` is unchanged, the byte sequence of the window `[pos, end)` is
unchanged, `len` is unchanged, and that read was the only source call. -/
theorem fill_failure_fabricates_nothing {σ : Type} (B : BackingSource σ)
    (stream : GBufferedInputStream σ) (log : List SourceCall) (count : Int) (e : GError)
    (ht : well_typed stream.priv) (hinv : cursor_inv stream.priv)
    (h1 : -1 ≤ count) (h2 : count ≤ (G_MAXSSIZE : Int))
    (hr : (B.g_input_stream_read stream.base_stream (fill_request stream.priv count)).1 =
      .error e) :
    ((g_buffered_input_stream_real_fill B stream count).1 = .error e ∧
      g_buffered_input_stream_get_available
          (g_buffered_input_stream_real_fill B stream count).2 =
        g_buffered_input_stream_get_available stream ∧
      window (g_buffered_input_stream_real_fill B stream count).2.priv = window stream.priv ∧
      (g_buffered_input_stream_real_fill B stream count).2.priv.len = stream.priv.len) ∧
    (stream.closed = false → stream.pending = false →
      (g_buffered_input_stream_fill B stream count).1 = .error e ∧
      g_buffered_input_stream_get_available (g_buffered_input_stream_fill B stream count).2 =
        g_buffered_input_stream_get_available stream ∧
      window (g_buffered_input_stream_fill B stream count).2.priv = window stream.priv ∧
      (g_buffered_input_stream_fill B stream count).2.priv.len = stream.priv.len ∧
      (g_buffered_input_stream_fill (traced B) (with_log stream log) count).2.base_stream.2 =
        log ++ [SourceCall.read (fill_request stream.priv count)]) := by
  have h : state_ok stream := ⟨ht, hinv⟩
  obtain ⟨g1, g2, g3, g4, _, _, _⟩ := real_fill_error_facts B stream count h h1 h2 e hr
  refine ⟨⟨g1, g2, g3, g4⟩, ?_⟩
  intro hopen hidle
  rw [fill_open_eq B stream count h1 hopen hidle,
    fill_open_eq (traced B) (with_log stream log) count h1 hopen hidle]
  obtain ⟨f1, f2, f3, f4, _, _, _⟩ :=
    real_fill_error_facts B { stream with pending := true } count h h1 h2 e hr
  exact ⟨f1, f2, f3, f4,
    real_fill_log B { with_log stream log with pending := true } count h h1 h2⟩

/-- Witness for C16 (Scenario C): capacity 8, three bytes buffered, the source
read fails; `fill (-1)` asks for 5 bytes, fails with the error of the source and
still has `[1, 2, 3]` buffered. -/
theorem fill_failure_fabricates_nothing_witness :
    well_typed scenario_C.priv ∧ cursor_inv scenario_C.priv ∧
    (scripted.g_input_stream_read scenario_C.base_stream 5).1 =
      .error (.G_IO_ERROR_SOURCE 0) ∧
    (g_buffered_input_stream_fill scripted scenario_C (-1)).1 =
      .error (.G_IO_ERROR_SOURCE 0) ∧
    g_buffered_input_stream_get_available
      (g_buffered_input_stream_fill scripted scenario_C (-1)).2 = 3 ∧
    window (g_buffered_input_stream_fill scripted scenario_C (-1)).2.priv = [1, 2, 3] ∧
    (g_buffered_input_stream_fill (traced scripted) (with_log scenario_C [])
      (-1)).2.base_stream.2 = [SourceCall.read 5] :=
  ⟨by decide, by decide, rfl,
    ((fill_failure_fabricates_nothing scripted scenario_C [] (-1) (.G_IO_ERROR_SOURCE 0)
      (by decide) (by decide) (by decide) (by decide) (by rfl)).2 rfl rfl).1,
    ((fill_failure_fabricates_nothing scripted scenario_C [] (-1) (.G_IO_ERROR_SOURCE 0)
      (by decide) (by decide) (by decide) (by decide) (by rfl)).2 rfl rfl).2.1,
    ((fill_failure_fabricates_nothing scripted scenario_C [] (-1) (.G_IO_ERROR_SOURCE 0)
      (by decide) (by decide) (by decide) (by decide) (by rfl)).2 rfl rfl).2.2.1,
    ((fill_failure_fabricates_nothing scripted scenario_C [] (-1) (.G_IO_ERROR_SOURCE 0)
      (by decide) (by decide) (by decide) (by decide) (by rfl)).2 rfl rfl).2.2.2.2⟩

/-- C17: zero from `fill` without end of file.  On `full_buffer` (capacity 4,
four unread bytes, the source still holding `[5, 6]`) the call `fill (-1)`
returns 0 and changes nothing, although `count` is not zero and the source is
not at end of file: a read of one byte from it yields `[5]`. -/
theorem fill_full_buffer_returns_zero :
    g_buffered_input_stream_fill scripted full_buffer (-1) = (.ok 0, full_buffer) ∧
    (scripted.g_input_stream_read full_buffer.base_stream 1).1 = .ok [5] ∧
    (g_buffered_input_stream_fill (traced scripted) (with_log full_buffer [])
      (-1)).2.base_stream.2 = [SourceCall.read 0] :=
  ⟨rfl, rfl, rfl⟩

/-! ## Reading one byte -/

theorem read_byte_closed_eq {σ : Type} (B : BackingSource σ) (stream : GBufferedInputStream σ)
    (hc : stream.closed = true) :
    g_buffered_input_stream_read_byte B stream = (-1, some .G_IO_ERROR_CLOSED, stream) := by
  unfold g_buffered_input_stream_read_byte g_input_stream_is_closed
  rw [if_pos hc]

theorem read_byte_pending_eq {σ : Type} (B : BackingSource σ) (stream : GBufferedInputStream σ)
    (hc : stream.closed = false) (hp : stream.pending = true) :
    g_buffered_input_stream_read_byte B stream = (-1, some .G_IO_ERROR_PENDING, stream) := by
  unfold g_buffered_input_stream_read_byte g_input_stream_is_closed g_input_stream_set_pending
  rw [if_neg (by simp [hc]), if_neg (by simp [hc]), if_pos hp]

theorem read_byte_fast_eq {σ : Type} (B : BackingSource σ) (stream : GBufferedInputStream σ)
    (hc : stream.closed = false) (hp : stream.pending = false)
    (ha : gsize_sub stream.priv.end_ stream.priv.pos ≠ 0) :
    g_buffered_input_stream_read_byte B stream =
      (((stream.priv.buffer.getD stream.priv.pos 0).val : Int), none,
        { stream with priv := { stream.priv with pos := gsize_add stream.priv.pos 1 } }) := by
  unfold g_buffered_input_stream_read_byte g_input_stream_is_closed g_input_stream_set_pending
  rw [if_neg (by simp [hc]), if_neg (by simp [hc]), if_neg (by simp [hp])]
  simp only []
  rw [if_pos ha]
  simp only [g_input_stream_clear_pending, hp]

theorem read_byte_slow_error_eq {σ : Type} (B : BackingSource σ)
    (stream : GBufferedInputStream σ)
    (hc : stream.closed = false) (hp : stream.pending = false)
    (ha : gsize_sub stream.priv.end_ stream.priv.pos = 0) (hl : stream.priv.len ≤ G_MAXSIZE)
    (e : GError) (base : σ)
    (hr : B.g_input_stream_read stream.base_stream stream.priv.len = (.error e, base)) :
    g_buffered_input_stream_read_byte B stream =
      (-1, some e,
        { stream with priv := { stream.priv with pos := 0, end_ := 0 }, base_stream := base }) := by
  have hf := real_fill_emptied_error B
    { stream with priv := { stream.priv with pos := 0, end_ := 0 }, pending := true }
    rfl rfl hl e base hr
  unfold g_buffered_input_stream_read_byte g_input_stream_is_closed g_input_stream_set_pending
  rw [if_neg (by simp [hc]), if_neg (by simp [hc]), if_neg (by simp [hp])]
  simp only []
  rw [if_neg (by simp [ha])]
  simp only [] at hf
  rw [hf]
  simp only [g_input_stream_clear_pending, hp]

theorem read_byte_slow_ok_eq {σ : Type} (B : BackingSource σ)
    (stream : GBufferedInputStream σ)
    (hc : stream.closed = false) (hp : stream.pending = false)
    (ha : gsize_sub stream.priv.end_ stream.priv.pos = 0) (hl : stream.priv.len ≤ G_MAXSIZE)
    (data : List guint8) (base : σ)
    (hr : B.g_input_stream_read stream.base_stream stream.priv.len = (.ok data, base))
    (hn : data.length ≤ G_MAXSIZE) :
    g_buffered_input_stream_read_byte B stream =
      if data.length ≤ 0 then
        (-1, none,
          { stream with
            priv := { stream.priv with buffer := mem_write stream.priv.buffer 0 data,
                                       pos := 0, end_ := data.length },
            base_stream := base })
      else
        ((((mem_write stream.priv.buffer 0 data).getD 0 0).val : Int), none,
          { stream with
            priv := { stream.priv with buffer := mem_write stream.priv.buffer 0 data,
                                       pos := gsize_add 0 1, end_ := data.length },
            base_stream := base }) := by
  have hf := real_fill_emptied_ok B
    { stream with priv := { stream.priv with pos := 0, end_ := 0 }, pending := true }
    rfl rfl hl data base hr hn
  unfold g_buffered_input_stream_read_byte g_input_stream_is_closed g_input_stream_set_pending
  rw [if_neg (by simp [hc]), if_neg (by simp [hc]), if_neg (by simp [hp])]
  simp only []
  rw [if_neg (by simp [ha])]
  simp only [] at hf
  rw [hf]
  simp only [g_input_stream_clear_pending, hp]

theorem real_fill_emptied_log {σ : Type} (B : BackingSource σ)
    (stream : GBufferedInputStream (σ × List SourceCall))
    (hp : stream.priv.pos = 0) (he : stream.priv.end_ = 0) (hl : stream.priv.len ≤ G_MAXSIZE) :
    (g_buffered_input_stream_real_fill (traced B) stream
      (to_gssize stream.priv.len)).2.base_stream.2 =
      stream.base_stream.2 ++ [SourceCall.read stream.priv.len] := by
  have h0 : gsize_sub 0 0 = 0 := by simp [gsize_sub]
  have h1 : gsize_sub stream.priv.len 0 = stream.priv.len := gsize_sub_eq (Nat.zero_le _) hl
  rcases hB : B.g_input_stream_read stream.base_stream.1 stream.priv.len with ⟨r, base⟩
  have hT : (traced B).g_input_stream_read stream.base_stream stream.priv.len =
      (r, (base, stream.base_stream.2 ++ [SourceCall.read stream.priv.len])) := by
    show ((B.g_input_stream_read stream.base_stream.1 _).1,
      ((B.g_input_stream_read stream.base_stream.1 _).2, _)) = _
    rw [hB]
  simp only [g_buffered_input_stream_real_fill, fill_count_len hl, hp, he, h0, h1, Nat.min_self,
    Nat.lt_irrefl, if_false, hT]
  cases r <;> rfl

theorem read_byte_slow_base {σ : Type} (B : BackingSource σ) (stream : GBufferedInputStream σ)
    (hc : stream.closed = false) (hp : stream.pending = false)
    (ha : gsize_sub stream.priv.end_ stream.priv.pos = 0) :
    (g_buffered_input_stream_read_byte B stream).2.2.base_stream =
      (g_buffered_input_stream_real_fill B
        { stream with priv := { stream.priv with pos := 0, end_ := 0 }, pending := true }
        (to_gssize stream.priv.len)).2.base_stream := by
  unfold g_buffered_input_stream_read_byte g_input_stream_is_closed g_input_stream_set_pending
  rw [if_neg (by simp [hc]), if_neg (by simp [hc]), if_neg (by simp [hp])]
  simp only []
  rw [if_neg (by simp [ha])]
  rcases hr : g_buffered_input_stream_real_fill B
    { stream with priv := { stream.priv with pos := 0, end_ := 0 }, pending := true }
    (to_gssize stream.priv.len) with ⟨r, s1⟩
  cases r with
  | error e => rfl
  | ok n =>
    simp only []
    split <;> rfl

theorem getD_mem_write_zero (buffer data : List guint8) (h : 0 < data.length) :
    (mem_write buffer 0 data).getD 0 0 = data.headD 0 := by
  rw [mem_write_zero]
  cases data with
  | nil => simp at h
  | cons a t => rfl

/-- C18: result of `read_byte`.  For every open, non-pending, well-typed state
satisfying `pos ≤ end ≤ len`: if `available > 0`, `read_byte` returns
`storage[pos]` (an index inside the storage), advances `pos` by one, changes
nothing else and makes no source call; if `available = 0` it makes exactly one
source call, a read of `len` bytes into the emptied buffer (`pos = end = 0`), and
when that read produces `n > 0` bytes it returns the first of them and leaves
`pos = 1`, `end = n`; when it produces no byte it returns `-1` with no error set
and `pos = end = 0`; when it fails it returns `-1` with the error of the source
and `pos = end = 0`. -/
theorem read_byte_result {σ : Type} (B : BackingSource σ) (stream : GBufferedInputStream σ)
    (log : List SourceCall)
    (ht : well_typed stream.priv) (hinv : cursor_inv stream.priv)
    (hopen : stream.closed = false) (hidle : stream.pending = false) :
    (0 < g_buffered_input_stream_get_available stream →
      g_buffered_input_stream_read_byte B stream =
        (((stream.priv.buffer.getD stream.priv.pos 0).val : Int), none,
          { stream with priv := { stream.priv with pos := stream.priv.pos + 1 } }) ∧
      stream.priv.pos < stream.priv.buffer.length ∧
      (g_buffered_input_stream_read_byte (traced B)
        (with_log stream log)).2.2.base_stream.2 = log) ∧
    (g_buffered_input_stream_get_available stream = 0 →
      (g_buffered_input_stream_read_byte (traced B)
        (with_log stream log)).2.2.base_stream.2 =
        log ++ [SourceCall.read stream.priv.len] ∧
      (∀ data base,
        B.g_input_stream_read stream.base_stream stream.priv.len = (.ok data, base) →
        data.length ≤ stream.priv.len →
        (0 < data.length →
          g_buffered_input_stream_read_byte B stream =
            (((data.headD 0).val : Int), none,
              { stream with
                priv := { stream.priv with buffer := mem_write stream.priv.buffer 0 data,
                                           pos := 1, end_ := data.length },
                base_stream := base })) ∧
        (data.length = 0 →
          g_buffered_input_stream_read_byte B stream =
            (-1, none,
              { stream with priv := { stream.priv with pos := 0, end_ := 0 },
                            base_stream := base }))) ∧
      (∀ e base,
        B.g_input_stream_read stream.base_stream stream.priv.len = (.error e, base) →
        g_buffered_input_stream_read_byte B stream =
          (-1, some e,
            { stream with priv := { stream.priv with pos := 0, end_ := 0 },
                          base_stream := base }))) := by
  have hav := available_eq stream ht hinv
  obtain ⟨t1, t2, t3, t4⟩ := ht
  obtain ⟨i1, i2⟩ := hinv
  refine ⟨?_, ?_⟩
  · intro h
    have ha : gsize_sub stream.priv.end_ stream.priv.pos ≠ 0 := Nat.pos_iff_ne_zero.mp h
    refine ⟨?_, by omega, ?_⟩
    · rw [read_byte_fast_eq B stream hopen hidle ha, gsize_add_eq (by omega)]
    · rw [read_byte_fast_eq (traced B) (with_log stream log) hopen hidle ha]
      rfl
  · intro h
    have ha : gsize_sub stream.priv.end_ stream.priv.pos = 0 := h
    refine ⟨?_, ?_, ?_⟩
    · rw [read_byte_slow_base (traced B) (with_log stream log) hopen hidle ha]
      exact real_fill_emptied_log B
        { with_log stream log with
          priv := { stream.priv with pos := 0, end_ := 0 }, pending := true } rfl rfl t1
    · intro data base hr hn
      have hs := read_byte_slow_ok_eq B stream hopen hidle ha t1 data base hr (by omega)
      refine ⟨?_, ?_⟩
      · intro hd
        rw [hs, if_neg (by omega), getD_mem_write_zero _ _ hd]
        have h1 : gsize_add 0 1 = 1 := by rw [gsize_add_eq (by simp [G_MAXSIZE])]
        rw [h1]
      · intro hd
        have hnil : data = [] := List.length_eq_zero.mp hd
        subst hnil
        rw [hs, if_pos (by simp), mem_write_nil]
        rfl
    · intro e base hr
      exact read_byte_slow_error_eq B stream hopen hidle ha t1 e base hr

/-- Witness for C18: a byte served from the buffer (`three_buffered`), a byte
served after one refill (Scenario A), end of data (Scenario A at its end) and a
failing source. -/
theorem read_byte_result_witness :
    well_typed three_buffered.priv ∧ cursor_inv three_buffered.priv ∧
    0 < g_buffered_input_stream_get_available three_buffered ∧
    (g_buffered_input_stream_read_byte scripted three_buffered).1 = 2 ∧
    (g_buffered_input_stream_read_byte scripted three_buffered).2.2.priv.pos = 2 ∧
    g_buffered_input_stream_get_available scenario_A = 0 ∧
    (g_buffered_input_stream_read_byte scripted scenario_A).1 = 1 ∧
    (g_buffered_input_stream_read_byte scripted scenario_A).2.2.priv.pos = 1 ∧
    (g_buffered_input_stream_read_byte (traced scripted)
      (with_log scenario_A [])).2.2.base_stream.2 = [SourceCall.read 4] ∧
    g_buffered_input_stream_read_byte scripted scenario_A_end =
      (-1, none, { scenario_A_end with
        priv := { scenario_A_end.priv with pos := 0, end_ := 0 },
        base_stream := { data := [], script := [] } }) ∧
    g_buffered_input_stream_read_byte scripted scenario_failing =
      (-1, some (.G_IO_ERROR_SOURCE 0), { scenario_failing with
        priv := { scenario_failing.priv with pos := 0, end_ := 0 },
        base_stream := { data := [9], script := [] } }) :=
  ⟨by decide, by decide, by decide,
    congrArg Prod.fst ((read_byte_result scripted three_buffered [] (by decide) (by decide)
      rfl rfl).1 (by decide)).1,
    congrArg (fun r => r.2.2.priv.pos) ((read_byte_result scripted three_buffered []
      (by decide) (by decide) rfl rfl).1 (by decide)).1,
    by decide,
    congrArg Prod.fst ((((read_byte_result scripted scenario_A [] (by decide) (by decide)
      rfl rfl).2 (by decide)).2.1 [1, 2, 3, 4] { data := [5, 6], script := [some 2] }
      (by rfl) (by decide)).1 (by decide)),
    congrArg (fun r => r.2.2.priv.pos) ((((read_byte_result scripted scenario_A []
      (by decide) (by decide) rfl rfl).2 (by decide)).2.1 [1, 2, 3, 4]
      { data := [5, 6], script := [some 2] } (by rfl) (by decide)).1 (by decide)),
    ((read_byte_result scripted scenario_A [] (by decide) (by decide) rfl rfl).2
      (by decide)).1,
    (((read_byte_result scripted scenario_A_end [] (by decide) (by decide) rfl rfl).2
      (by decide)).2.1 [] { data := [], script := [] } (by rfl) (by decide)).2 (by decide),
    ((read_byte_result scripted scenario_failing [] (by decide) (by decide) rfl rfl).2
      (by decide)).2.2 (.G_IO_ERROR_SOURCE 0) { data := [9], script := [] } (by rfl)⟩

/-- C19: `read_byte` on a closed stream.  In every state in which the stream is
closed, whatever is buffered and whether or not an operation is pending,
`read_byte` returns `-1` with the `Closed` error and hands the state back as it
was (`pos`, `end`, `len`, storage and the pending flag included); run over the
logging source it adds no call to the log. -/
theorem read_byte_on_closed_stream {σ : Type} (B : BackingSource σ) (stream : GBufferedInputStream σ)
    (log : List SourceCall) (hclosed : stream.closed = true) :
    g_buffered_input_stream_read_byte B stream = (-1, some .G_IO_ERROR_CLOSED, stream) ∧
    g_buffered_input_stream_read_byte (traced B) (with_log stream log) =
      (-1, some .G_IO_ERROR_CLOSED, with_log stream log) :=
  ⟨read_byte_closed_eq B stream hclosed,
    read_byte_closed_eq (traced B) (with_log stream log) hclosed⟩

/-- Witness for C19: the closed stream `scenario_A_closed`, one byte buffered. -/
theorem read_byte_on_closed_stream_witness :
    scenario_A_closed.closed = true ∧
    g_buffered_input_stream_get_available scenario_A_closed = 1 ∧
    g_buffered_input_stream_read_byte scripted scenario_A_closed =
      (-1, some .G_IO_ERROR_CLOSED, scenario_A_closed) ∧
    g_buffered_input_stream_read_byte (traced scripted) (with_log scenario_A_closed []) =
      (-1, some .G_IO_ERROR_CLOSED, with_log scenario_A_closed []) :=
  ⟨rfl, by decide, (read_byte_on_closed_stream scripted scenario_A_closed [] rfl).1,
    (read_byte_on_closed_stream scripted scenario_A_closed [] rfl).2⟩

/-- C20: single-pending-operation discipline for `fill` and `read_byte`.  In
every state of an open stream in which an operation is already pending,
`fill (count)` with `count ≥ -1` and `read_byte` fail with `PendingOperation`
and hand the state back as it was (`pos`, `end`, `len`, storage and the pending
flag included); run over the logging source they add no call to the log. -/
theorem pending_discipline {σ : Type} (B : BackingSource σ) (stream : GBufferedInputStream σ)
    (log : List SourceCall) (count : Int)
    (hopen : stream.closed = false) (hpending : stream.pending = true) (h1 : -1 ≤ count) :
    g_buffered_input_stream_fill B stream count = (.error .G_IO_ERROR_PENDING, stream) ∧
    g_buffered_input_stream_fill (traced B) (with_log stream log) count =
      (.error .G_IO_ERROR_PENDING, with_log stream log) ∧
    g_buffered_input_stream_read_byte B stream = (-1, some .G_IO_ERROR_PENDING, stream) ∧
    g_buffered_input_stream_read_byte (traced B) (with_log stream log) =
      (-1, some .G_IO_ERROR_PENDING, with_log stream log) :=
  ⟨fill_pending_eq B stream count h1 hopen hpending,
    fill_pending_eq (traced B) (with_log stream log) count h1 hopen hpending,
    read_byte_pending_eq B stream hopen hpending,
    read_byte_pending_eq (traced B) (with_log stream log) hopen hpending⟩

/-- Witness for C20: `fill (-1)` and `read_byte` on `scenario_A_pending`. -/
theorem pending_discipline_witness :
    scenario_A_pending.closed = false ∧ scenario_A_pending.pending = true ∧
    (-1 : Int) ≤ -1 ∧
    g_buffered_input_stream_fill scripted scenario_A_pending (-1) =
      (.error .G_IO_ERROR_PENDING, scenario_A_pending) ∧
    g_buffered_input_stream_read_byte scripted scenario_A_pending =
      (-1, some .G_IO_ERROR_PENDING, scenario_A_pending) :=
  ⟨rfl, rfl, by decide,
    (pending_discipline scripted scenario_A_pending [] (-1) rfl rfl (by decide)).1,
    (pending_discipline scripted scenario_A_pending [] (-1) rfl rfl (by decide)).2.2.1⟩

/-! ## Compaction and the single source call -/

theorem mem_write_self (buffer : List guint8) (k : Nat) (hk : k ≤ buffer.length) :
    mem_write buffer 0 (mem_read buffer 0 k) = buffer := by
  rw [mem_write_zero, mem_read, List.drop_zero, List.length_take, Nat.min_eq_left hk,
    List.take_append_drop]

theorem compact_buffer_eq {σ : Type} (stream : GBufferedInputStream σ) (h : state_ok stream) :
    compact_buffer stream =
      { stream with
        priv := { stream.priv with
          buffer := mem_write stream.priv.buffer 0 (window stream.priv),
          pos := 0,
          end_ := stream.priv.end_ - stream.priv.pos } } := by
  obtain ⟨⟨t1, t2, t3, t4⟩, i1, i2⟩ := h
  simp only [compact_buffer, memcpy, window, gsize_sub_eq i1 t3]

theorem compact_buffer_of_pos_zero {σ : Type} (stream : GBufferedInputStream σ)
    (h : state_ok stream) (hp : stream.priv.pos = 0) : compact_buffer stream = stream := by
  rw [compact_buffer_eq stream h]
  obtain ⟨⟨t1, t2, t3, t4⟩, i1, i2⟩ := h
  have hw : mem_write stream.priv.buffer 0 (window stream.priv) = stream.priv.buffer := by
    rw [window, hp, gsize_sub_eq (Nat.zero_le _) t3]
    exact mem_write_self _ _ (by omega)
  rw [hw]
  cases stream with
  | mk priv base pending closed =>
    cases priv with
    | mk buffer len pos end_ =>
      simp only at hp
      subst hp
      rfl

/-- C25: compaction.  For every well-typed state satisfying `pos ≤ end ≤ len`,
`compact_buffer` yields `pos = 0` and `end = available` (the value before the
call), leaves `len` unchanged, keeps the byte sequence of the window
identical (the move reads the old window before it stores it, so overlapping
ranges are covered), and is idempotent: compacting twice gives the same state
as compacting once. -/
theorem compact_buffer_spec {σ : Type} (stream : GBufferedInputStream σ)
    (ht : well_typed stream.priv) (hinv : cursor_inv stream.priv) :
    (compact_buffer stream).priv.pos = 0 ∧
    (compact_buffer stream).priv.end_ = g_buffered_input_stream_get_available stream ∧
    (compact_buffer stream).priv.len = stream.priv.len ∧
    window (compact_buffer stream).priv = window stream.priv ∧
    (compact_buffer stream).priv.buffer.take (g_buffered_input_stream_get_available stream) =
      window stream.priv ∧
    compact_buffer (compact_buffer stream) = compact_buffer stream := by
  have h : state_ok stream := ⟨ht, hinv⟩
  have hw := window_length stream ht hinv
  refine ⟨rfl, rfl, rfl, (window_compact stream h).1, ?_,
    compact_buffer_of_pos_zero (compact_buffer stream) (compact_buffer_ok stream h) rfl⟩
  rw [compact_buffer_eq stream h]
  exact mem_write_zero_take_of_length _ _ _ hw

/-- Witness for C25: `three_buffered` holds `[2, 3, 4]` at offsets 1 to 3 of
`[1, 2, 3, 4]`; the ranges `[1, 4)` and `[0, 3)` overlap. -/
theorem compact_buffer_spec_witness :
    well_typed three_buffered.priv ∧ cursor_inv three_buffered.priv ∧
    (compact_buffer three_buffered).priv =
      { buffer := [2, 3, 4, 4], len := 4, pos := 0, end_ := 3 } ∧
    window (compact_buffer three_buffered).priv = [2, 3, 4] ∧
    compact_buffer (compact_buffer three_buffered) = compact_buffer three_buffered :=
  ⟨by decide, by decide, by decide, by decide,
    (compact_buffer_spec three_buffered (by decide) (by decide)).2.2.2.2.2⟩

theorem take_mem_write_at (buffer data : List guint8) (off : Nat) (h : off ≤ buffer.length) :
    (mem_write buffer off data).take off = buffer.take off := by
  simp only [mem_write, List.append_assoc]
  rw [List.take_append_of_le_length (by simp; omega)]
  rw [List.take_take, Nat.min_self]

theorem real_fill_pos_buffer {σ : Type} (B : BackingSource σ) (stream : GBufferedInputStream σ)
    (count : Int) (h : state_ok stream) (h1 : -1 ≤ count) (h2 : count ≤ (G_MAXSSIZE : Int)) :
    (g_buffered_input_stream_real_fill B stream count).2.priv.pos =
      (fill_prepared stream count).priv.pos ∧
    (g_buffered_input_stream_real_fill B stream count).2.priv.buffer.take
        (fill_prepared stream count).priv.end_ =
      (fill_prepared stream count).priv.buffer.take (fill_prepared stream count).priv.end_ := by
  obtain ⟨⟨⟨t1, t2, t3, t4⟩, i1, i2⟩, _⟩ := fill_prepared_facts stream count h
  rw [real_fill_raw B stream count h h1 h2]
  rcases hB : B.g_input_stream_read (fill_prepared stream count).base_stream
    (fill_request stream.priv count) with ⟨r, base⟩
  cases r with
  | error e => exact ⟨rfl, rfl⟩
  | ok data => exact ⟨rfl, take_mem_write_at _ _ _ (by omega)⟩

theorem real_fill_of_pending {σ : Type} (B : BackingSource σ) (stream : GBufferedInputStream σ)
    (count : Int) (p : Bool) :
    (g_buffered_input_stream_real_fill B { stream with pending := p } count).1 =
      (g_buffered_input_stream_real_fill B stream count).1 ∧
    (g_buffered_input_stream_real_fill B { stream with pending := p } count).2 =
      { (g_buffered_input_stream_real_fill B stream count).2 with pending := p } ∧
    (g_buffered_input_stream_real_fill B stream count).2.pending = stream.pending := by
  unfold g_buffered_input_stream_real_fill
  simp only []
  generalize (min (if count = -1 then stream.priv.len else to_gsize count)
    (gsize_sub stream.priv.len (gsize_sub stream.priv.end_ stream.priv.pos))) = n
  by_cases hc : gsize_sub stream.priv.len stream.priv.end_ < n
  · rw [if_pos hc, if_pos hc]
    simp only [compact_buffer]
    rcases hB : B.g_input_stream_read stream.base_stream n with ⟨r, base⟩
    cases r <;> exact ⟨rfl, rfl, rfl⟩
  · rw [if_neg hc, if_neg hc]
    rcases hB : B.g_input_stream_read stream.base_stream n with ⟨r, base⟩
    cases r <;> exact ⟨rfl, rfl, rfl⟩

/-- C24: compaction happens only when needed.  For every well-typed state
satisfying `pos ≤ end ≤ len` and every `count` with `-1 ≤ count ≤ G_MAXSSIZE`,
the class `fill` moves the buffered window (`pos` changes, and it changes to 0)
if and only if the tail room `len - end` is smaller than the capped request
`min (c, len - available)`.  When it moves the window, the window's bytes are
found at offset 0.  When the tail room suffices, `pos` is unchanged, every
byte below the old `end` (those of `storage[pos, end)` among them) stays at
its offset, and the bytes the source produces are written at the old `end`.
The public `fill` on an open, idle stream leaves the same private record as
the class `fill`. -/
theorem fill_compacts_only_when_needed {σ : Type} (B : BackingSource σ)
    (stream : GBufferedInputStream σ) (count : Int)
    (ht : well_typed stream.priv) (hinv : cursor_inv stream.priv)
    (h1 : -1 ≤ count) (h2 : count ≤ (G_MAXSSIZE : Int)) :
    ((g_buffered_input_stream_real_fill B stream count).2.priv.pos ≠ stream.priv.pos ↔
      stream.priv.len - stream.priv.end_ < fill_request stream.priv count) ∧
    (stream.priv.len - stream.priv.end_ < fill_request stream.priv count →
      (g_buffered_input_stream_real_fill B stream count).2.priv.pos = 0 ∧
      0 < stream.priv.pos ∧
      (g_buffered_input_stream_real_fill B stream count).2.priv.buffer.take
        (g_buffered_input_stream_get_available stream) = window stream.priv) ∧
    (¬ stream.priv.len - stream.priv.end_ < fill_request stream.priv count →
      (g_buffered_input_stream_real_fill B stream count).2.priv.pos = stream.priv.pos ∧
      (g_buffered_input_stream_real_fill B stream count).2.priv.buffer.take stream.priv.end_ =
        stream.priv.buffer.take stream.priv.end_ ∧
      ∀ data : List guint8,
        (B.g_input_stream_read stream.base_stream (fill_request stream.priv count)).1 =
          .ok data →
        data.length ≤ fill_request stream.priv count →
        (g_buffered_input_stream_real_fill B stream count).2.priv.end_ =
          stream.priv.end_ + data.length ∧
        mem_read (g_buffered_input_stream_real_fill B stream count).2.priv.buffer
          stream.priv.end_ data.length = data) ∧
    (stream.closed = false → stream.pending = false →
      (g_buffered_input_stream_fill B stream count).2.priv =
        (g_buffered_input_stream_real_fill B stream count).2.priv) := by
  have h : state_ok stream := ⟨ht, hinv⟩
  obtain ⟨p1, p2⟩ := real_fill_pos_buffer B stream count h h1 h2
  have hreq : fill_request stream.priv count ≤
      stream.priv.len - (stream.priv.end_ - stream.priv.pos) := Nat.min_le_right _ _
  have hw := window_length stream ht hinv
  have hav := available_eq stream ht hinv
  obtain ⟨t1, t2, t3, t4⟩ := ht
  obtain ⟨i1, i2⟩ := hinv
  have hmoved : stream.priv.len - stream.priv.end_ < fill_request stream.priv count →
      (g_buffered_input_stream_real_fill B stream count).2.priv.pos = 0 ∧
      0 < stream.priv.pos ∧
      (g_buffered_input_stream_real_fill B stream count).2.priv.buffer.take
        (g_buffered_input_stream_get_available stream) = window stream.priv := by
    intro hc
    have hprep : fill_prepared stream count = compact_buffer stream := by
      unfold fill_prepared
      rw [if_pos hc]
    rw [hprep] at p1 p2
    refine ⟨p1, by omega, ?_⟩
    have he : (compact_buffer stream).priv.end_ =
        g_buffered_input_stream_get_available stream := rfl
    rw [he] at p2
    rw [p2, compact_buffer_eq stream h]
    exact mem_write_zero_take_of_length _ _ _ hw
  have hkept : ¬ stream.priv.len - stream.priv.end_ < fill_request stream.priv count →
      (g_buffered_input_stream_real_fill B stream count).2.priv.pos = stream.priv.pos ∧
      (g_buffered_input_stream_real_fill B stream count).2.priv.buffer.take stream.priv.end_ =
        stream.priv.buffer.take stream.priv.end_ ∧
      ∀ data : List guint8,
        (B.g_input_stream_read stream.base_stream (fill_request stream.priv count)).1 =
          .ok data →
        data.length ≤ fill_request stream.priv count →
        (g_buffered_input_stream_real_fill B stream count).2.priv.end_ =
          stream.priv.end_ + data.length ∧
        mem_read (g_buffered_input_stream_real_fill B stream count).2.priv.buffer
          stream.priv.end_ data.length = data := by
    intro hc
    have hprep : fill_prepared stream count = stream := by
      unfold fill_prepared
      rw [if_neg hc]
    rw [hprep] at p1 p2
    refine ⟨p1, p2, ?_⟩
    intro data hr hn
    rw [real_fill_ok_eq B stream count h h1 h2 data hr hn, hprep]
    refine ⟨rfl, ?_⟩
    have := @mem_read_mem_write_same stream.priv.buffer data stream.priv.end_ (by omega)
      data.length (Nat.le_refl _)
    rw [this, List.take_length]
  refine ⟨?_, hmoved, hkept, ?_⟩
  · constructor
    · intro hne
      by_contra hc
      exact hne (hkept hc).1
    · intro hc
      obtain ⟨q1, q2, _⟩ := hmoved hc
      omega
  · intro hopen hidle
    rw [fill_open_eq B stream count h1 hopen hidle, (real_fill_of_pending B stream count true).2.1]
    rfl

/-- Witness for C24: with one byte buffered at offset 3 of 4, `fill (-1)` wants
3 bytes, the tail room is 0, and the window moves to offset 0; with three bytes
buffered at offsets 0 to 2 of 8 (Scenario C), the tail room suffices and
nothing moves. -/
theorem fill_compacts_only_when_needed_witness :
    well_typed scenario_A_after_read.priv ∧ cursor_inv scenario_A_after_read.priv ∧
    scenario_A_after_read.priv.len - scenario_A_after_read.priv.end_ <
      fill_request scenario_A_after_read.priv (-1) ∧
    (g_buffered_input_stream_real_fill scripted scenario_A_after_read (-1)).2.priv.pos = 0 ∧
    (g_buffered_input_stream_real_fill scripted scenario_A_after_read (-1)).2.priv.buffer =
      [4, 5, 6, 4] ∧
    ¬ scenario_C.priv.len - scenario_C.priv.end_ < fill_request scenario_C.priv (-1) ∧
    (g_buffered_input_stream_real_fill scripted scenario_C (-1)).2.priv.pos =
      scenario_C.priv.pos :=
  ⟨by decide, by decide, by decide,
    ((fill_compacts_only_when_needed scripted scenario_A_after_read (-1) (by decide)
      (by decide) (by decide) (by decide)).2.1 (by decide)).1,
    by decide, by decide,
    ((fill_compacts_only_when_needed scripted scenario_C (-1) (by decide)
      (by decide) (by decide) (by decide)).2.2.1 (by decide)).1⟩

theorem real_fill_log_any {σ : Type} (B : BackingSource σ)
    (stream : GBufferedInputStream (σ × List SourceCall)) (count : Int) :
    ∃ n, (g_buffered_input_stream_real_fill (traced B) stream count).2.base_stream.2 =
      stream.base_stream.2 ++ [SourceCall.read n] := by
  unfold g_buffered_input_stream_real_fill
  simp only []
  have hb : ∀ (c : Prop) [Decidable c],
      (if c then compact_buffer stream else stream).base_stream = stream.base_stream := by
    intro c _
    split <;> rfl
  rw [hb]
  generalize (min (if count = -1 then stream.priv.len else to_gsize count)
    (gsize_sub stream.priv.len (gsize_sub stream.priv.end_ stream.priv.pos))) = n
  refine ⟨n, ?_⟩
  rcases hB : B.g_input_stream_read stream.base_stream.1 n with ⟨r, base⟩
  have hT : (traced B).g_input_stream_read stream.base_stream n =
      (r, (base, stream.base_stream.2 ++ [SourceCall.read n])) := by
    show ((B.g_input_stream_read stream.base_stream.1 _).1,
      ((B.g_input_stream_read stream.base_stream.1 _).2, _)) = _
    rw [hB]
  rw [hT]
  cases r <;> rfl

theorem read_slow_base {σ : Type} (B : BackingSource σ) (stream : GBufferedInputStream σ)
    (buffer : List guint8) (count : Nat)
    (h1 : ¬ count ≤ gsize_sub stream.priv.end_ stream.priv.pos) :
    (g_buffered_input_stream_read B stream buffer count).2.2.base_stream =
      if gsize_sub count (gsize_sub stream.priv.end_ stream.priv.pos) > stream.priv.len then
        (B.g_input_stream_read stream.base_stream
          (gsize_sub count (gsize_sub stream.priv.end_ stream.priv.pos))).2
      else
        (g_buffered_input_stream_real_fill B (emptied stream)
          (to_gssize stream.priv.len)).2.base_stream := by
  unfold g_buffered_input_stream_read
  simp only []
  rw [if_neg h1]
  by_cases h2 : gsize_sub count (gsize_sub stream.priv.end_ stream.priv.pos) > stream.priv.len
  · rw [if_pos h2, if_pos h2]
    rcases hB : B.g_input_stream_read stream.base_stream
      (gsize_sub count (gsize_sub stream.priv.end_ stream.priv.pos)) with ⟨r, base⟩
    cases r <;> rfl
  · rw [if_neg h2, if_neg h2]
    simp only [emptied]
    rcases hF : g_buffered_input_stream_real_fill B
      { stream with priv := { stream.priv with pos := 0, end_ := 0 } }
      (to_gssize stream.priv.len) with ⟨r, s1⟩
    cases r <;> rfl

theorem skip_slow_base {σ : Type} (B : BackingSource σ) (stream : GBufferedInputStream σ)
    (count : Nat)
    (h1 : ¬ count ≤ gsize_sub stream.priv.end_ stream.priv.pos) :
    (g_buffered_input_stream_skip B stream count).2.base_stream =
      if gsize_sub count (gsize_sub stream.priv.end_ stream.priv.pos) > stream.priv.len then
        (B.g_input_stream_skip stream.base_stream
          (gsize_sub count (gsize_sub stream.priv.end_ stream.priv.pos))).2
      else
        (g_buffered_input_stream_real_fill B (emptied stream)
          (to_gssize stream.priv.len)).2.base_stream := by
  unfold g_buffered_input_stream_skip
  simp only []
  rw [if_neg h1]
  by_cases h2 : gsize_sub count (gsize_sub stream.priv.end_ stream.priv.pos) > stream.priv.len
  · rw [if_pos h2, if_pos h2]
    rcases hB : B.g_input_stream_skip stream.base_stream
      (gsize_sub count (gsize_sub stream.priv.end_ stream.priv.pos)) with ⟨r, base⟩
    cases r <;> rfl
  · rw [if_neg h2, if_neg h2]
    simp only [emptied]
    rcases hF : g_buffered_input_stream_real_fill B
      { stream with priv := { stream.priv with pos := 0, end_ := 0 } }
      (to_gssize stream.priv.len) with ⟨r, s1⟩
    cases r <;> rfl

/-- C23: at most one source-facing call per operation.  For every state, every
destination and every `count`, a blocking `read` or `skip` makes no call into
the backing source when `count ≤ available`, and otherwise makes exactly one:
the calls logged by the operation are a list of length one (a read or skip of
the source on the bypass path, the one read of the fill on the refill path),
whatever the source answers. -/
theorem one_source_call_per_operation {σ : Type} (B : BackingSource σ)
    (stream : GBufferedInputStream σ) (log : List SourceCall) (buffer : List guint8)
    (count : Nat) :
    (count ≤ g_buffered_input_stream_get_available stream →
      (g_buffered_input_stream_read (traced B) (with_log stream log)
        buffer count).2.2.base_stream.2 = log ∧
      (g_buffered_input_stream_skip (traced B) (with_log stream log)
        count).2.base_stream.2 = log) ∧
    (¬ count ≤ g_buffered_input_stream_get_available stream →
      (∃ n, (g_buffered_input_stream_read (traced B) (with_log stream log)
        buffer count).2.2.base_stream.2 = log ++ [SourceCall.read n]) ∧
      (∃ call, (g_buffered_input_stream_skip (traced B) (with_log stream log)
        count).2.base_stream.2 = log ++ [call])) ∧
    (g_buffered_input_stream_read (traced B) (with_log stream log)
      buffer count).2.2.base_stream.2.length ≤ log.length + 1 ∧
    (g_buffered_input_stream_skip (traced B) (with_log stream log)
      count).2.base_stream.2.length ≤ log.length + 1 := by
  have hfast : count ≤ g_buffered_input_stream_get_available stream →
      (g_buffered_input_stream_read (traced B) (with_log stream log)
        buffer count).2.2.base_stream.2 = log ∧
      (g_buffered_input_stream_skip (traced B) (with_log stream log)
        count).2.base_stream.2 = log := by
    intro h
    rw [read_fast_raw (traced B) (with_log stream log) buffer count h,
      skip_fast_raw (traced B) (with_log stream log) count h]
    exact ⟨rfl, rfl⟩
  have hslow : ¬ count ≤ g_buffered_input_stream_get_available stream →
      (∃ n, (g_buffered_input_stream_read (traced B) (with_log stream log)
        buffer count).2.2.base_stream.2 = log ++ [SourceCall.read n]) ∧
      (∃ call, (g_buffered_input_stream_skip (traced B) (with_log stream log)
        count).2.base_stream.2 = log ++ [call]) := by
    intro h
    rw [read_slow_base (traced B) (with_log stream log) buffer count h,
      skip_slow_base (traced B) (with_log stream log) count h]
    by_cases h2 : gsize_sub count (gsize_sub (with_log stream log).priv.end_
        (with_log stream log).priv.pos) > (with_log stream log).priv.len
    · rw [if_pos h2, if_pos h2]
      exact ⟨⟨_, rfl⟩, ⟨_, rfl⟩⟩
    · rw [if_neg h2, if_neg h2]
      obtain ⟨n, hn⟩ := real_fill_log_any B (emptied (with_log stream log))
        (to_gssize (with_log stream log).priv.len)
      exact ⟨⟨n, hn⟩, ⟨SourceCall.read n, hn⟩⟩
  refine ⟨hfast, hslow, ?_, ?_⟩
  · by_cases h : count ≤ g_buffered_input_stream_get_available stream
    · rw [(hfast h).1]
      omega
    · obtain ⟨n, hn⟩ := (hslow h).1
      rw [hn]
      simp
  · by_cases h : count ≤ g_buffered_input_stream_get_available stream
    · rw [(hfast h).2]
      omega
    · obtain ⟨c, hc⟩ := (hslow h).2
      rw [hc]
      simp

/-- Witness for C23: Scenario A after `read (3)`: `read (1)` is served from the
buffer without a call; `read (5)` makes the one read of the fill although the
fill produces only 2 of the 4 bytes still wanted. -/
theorem one_source_call_per_operation_witness :
    1 ≤ g_buffered_input_stream_get_available scenario_A_after_read ∧
    (g_buffered_input_stream_read (traced scripted) (with_log scenario_A_after_read [])
      [0] 1).2.2.base_stream.2 = [] ∧
    ¬ 5 ≤ g_buffered_input_stream_get_available scenario_A_after_read ∧
    (g_buffered_input_stream_read (traced scripted) (with_log scenario_A_after_read [])
      [0, 0, 0, 0, 0] 5).2.2.base_stream.2 = [SourceCall.read 4] ∧
    (g_buffered_input_stream_read scripted scenario_A_after_read [0, 0, 0, 0, 0] 5).1 = .ok 3 ∧
    (∃ call, (g_buffered_input_stream_skip (traced scripted)
      (with_log scenario_A_after_read []) 5).2.base_stream.2 = [] ++ [call]) :=
  ⟨by decide,
    ((one_source_call_per_operation scripted scenario_A_after_read [] [0] 1).1 (by decide)).1,
    by decide, by decide, rfl,
    ((one_source_call_per_operation scripted scenario_A_after_read [] [0] 5).2.1
      (by decide)).2⟩

theorem skip_read_same {σ : Type} (B : BackingSource σ) (stream : GBufferedInputStream σ)
    (buffer : List guint8) (count : Nat)
    (h : count ≤ gsize_sub stream.priv.end_ stream.priv.pos ∨
      ¬ gsize_sub count (gsize_sub stream.priv.end_ stream.priv.pos) > stream.priv.len) :
    (g_buffered_input_stream_skip B stream count).1 =
      (g_buffered_input_stream_read B stream buffer count).1 ∧
    (g_buffered_input_stream_skip B stream count).2 =
      (g_buffered_input_stream_read B stream buffer count).2.2 := by
  by_cases h1 : count ≤ gsize_sub stream.priv.end_ stream.priv.pos
  · rw [skip_fast_raw B stream count h1, read_fast_raw B stream buffer count h1]
    exact ⟨rfl, rfl⟩
  · have h2 : ¬ gsize_sub count (gsize_sub stream.priv.end_ stream.priv.pos) >
        stream.priv.len := by
      rcases h with h | h
      · exact absurd h h1
      · exact h
    unfold g_buffered_input_stream_skip g_buffered_input_stream_read
    simp only []
    rw [if_neg h1, if_neg h1, if_neg h2, if_neg h2]
    rcases hF : g_buffered_input_stream_real_fill B
      { stream with priv := { stream.priv with pos := 0, end_ := 0 } }
      (to_gssize stream.priv.len) with ⟨r, s1⟩
    cases r <;> exact ⟨rfl, rfl⟩

/-- C28: skip mirrors read on the buffered and refill paths.  For every state,
every destination and every `count` (a `gsize`) with `count ≤ available` or
`count - available ≤ len`, over the same backing source (so with the same
answer to the read of the fill), `skip (count)` returns the same value as
`read (count)`, the count or the failure, and leaves the same stream state,
`pos` and `end` included; the destination is written by `read` only. -/
theorem skip_mirrors_read {σ : Type} (B : BackingSource σ) (stream : GBufferedInputStream σ)
    (buffer : List guint8) (count : Nat) (hcount : count ≤ G_MAXSIZE)
    (h : count ≤ g_buffered_input_stream_get_available stream ∨
      count - g_buffered_input_stream_get_available stream ≤ stream.priv.len) :
    (g_buffered_input_stream_skip B stream count).1 =
      (g_buffered_input_stream_read B stream buffer count).1 ∧
    (g_buffered_input_stream_skip B stream count).2.priv.pos =
      (g_buffered_input_stream_read B stream buffer count).2.2.priv.pos ∧
    (g_buffered_input_stream_skip B stream count).2.priv.end_ =
      (g_buffered_input_stream_read B stream buffer count).2.2.priv.end_ ∧
    (g_buffered_input_stream_skip B stream count).2 =
      (g_buffered_input_stream_read B stream buffer count).2.2 := by
  have hs : count ≤ gsize_sub stream.priv.end_ stream.priv.pos ∨
      ¬ gsize_sub count (gsize_sub stream.priv.end_ stream.priv.pos) > stream.priv.len := by
    rcases h with h | h
    · exact Or.inl h
    · by_cases h1 : count ≤ gsize_sub stream.priv.end_ stream.priv.pos
      · exact Or.inl h1
      · refine Or.inr ?_
        have hle := gsize_sub_le stream.priv.end_ stream.priv.pos
        rw [gsize_sub_eq (by omega) hcount]
        simp only [g_buffered_input_stream_get_available] at h
        omega
  obtain ⟨r1, r2⟩ := skip_read_same B stream buffer count hs
  exact ⟨r1, by rw [r2], by rw [r2], r2⟩

/-- Witness for C28: Scenario A after `read (3)`; `skip (5)` and `read (5)` both
refill once and return 3, with `pos = end = 2` afterwards. -/
theorem skip_mirrors_read_witness :
    (5 : Nat) ≤ G_MAXSIZE ∧
    5 - g_buffered_input_stream_get_available scenario_A_after_read ≤
      scenario_A_after_read.priv.len ∧
    (g_buffered_input_stream_skip scripted scenario_A_after_read 5).1 = .ok 3 ∧
    (g_buffered_input_stream_skip scripted scenario_A_after_read 5).1 =
      (g_buffered_input_stream_read scripted scenario_A_after_read [0, 0, 0, 0, 0] 5).1 ∧
    (g_buffered_input_stream_skip scripted scenario_A_after_read 5).2 =
      (g_buffered_input_stream_read scripted scenario_A_after_read [0, 0, 0, 0, 0] 5).2.2 :=
  ⟨by decide, by decide, rfl,
    (skip_mirrors_read scripted scenario_A_after_read [0, 0, 0, 0, 0] 5 (by decide)
      (Or.inr (by decide))).1,
    (skip_mirrors_read scripted scenario_A_after_read [0, 0, 0, 0, 0] 5 (by decide)
      (Or.inr (by decide))).2.2.2⟩

theorem read_byte_pending_after {σ : Type} (B : BackingSource σ)
    (stream : GBufferedInputStream σ)
    (hc : stream.closed = false) (hp : stream.pending = false) :
    (g_buffered_input_stream_read_byte B stream).2.2.pending = false ∧
    (gsize_sub stream.priv.end_ stream.priv.pos = 0 →
      (g_buffered_input_stream_read_byte B stream).2.2.priv.buffer =
        (g_buffered_input_stream_real_fill B
          { stream with priv := { stream.priv with pos := 0, end_ := 0 }, pending := true }
          (to_gssize stream.priv.len)).2.priv.buffer ∧
      (g_buffered_input_stream_read_byte B stream).2.2.priv.end_ =
        (g_buffered_input_stream_real_fill B
          { stream with priv := { stream.priv with pos := 0, end_ := 0 }, pending := true }
          (to_gssize stream.priv.len)).2.priv.end_) := by
  unfold g_buffered_input_stream_read_byte g_input_stream_is_closed g_input_stream_set_pending
  rw [if_neg (by simp [hc]), if_neg (by simp [hc]), if_neg (by simp [hp])]
  simp only []
  by_cases ha : gsize_sub stream.priv.end_ stream.priv.pos = 0
  · rw [if_neg (by simp [ha])]
    rcases hr : g_buffered_input_stream_real_fill B
      { stream with priv := { stream.priv with pos := 0, end_ := 0 }, pending := true }
      (to_gssize stream.priv.len) with ⟨r, s1⟩
    cases r with
    | error e => exact ⟨rfl, fun _ => ⟨rfl, rfl⟩⟩
    | ok n =>
      simp only []
      split
      · exact ⟨rfl, fun _ => ⟨rfl, rfl⟩⟩
      · exact ⟨rfl, fun _ => ⟨rfl, rfl⟩⟩
  · rw [if_pos ha]
    exact ⟨rfl, fun h => absurd h ha⟩

/-- C22: the capacity does not stay positive under `set_buffer_size (0)`.
Scenario A has capacity 4 and nothing buffered; after `set_buffer_size (0)` the
capacity reported by `get_buffer_size` is 0, and `read_byte` then reports the
end of the data (`-1`, no error) although the source still holds six bytes. -/
theorem set_buffer_size_zero_capacity :
    1 ≤ scenario_A.priv.len ∧ well_typed scenario_A.priv ∧ cursor_inv scenario_A.priv ∧
    scenario_A.priv.buffer ≠ [] ∧
    (g_buffered_input_stream_set_buffer_size scenario_A 0).priv.len = 0 ∧
    g_buffered_input_stream_get_buffer_size
      (g_buffered_input_stream_set_buffer_size scenario_A 0) = 0 ∧
    scenario_A.base_stream.data = [1, 2, 3, 4, 5, 6] ∧
    (g_buffered_input_stream_read_byte scripted
      (g_buffered_input_stream_set_buffer_size scenario_A 0)).1 = -1 ∧
    (g_buffered_input_stream_read_byte scripted
      (g_buffered_input_stream_set_buffer_size scenario_A 0)).2.1 = none :=
  ⟨by decide, by decide, by decide, by decide, by decide, by decide, by decide, by decide,
    by decide⟩

/-! ## Asynchronous fill and read -/

theorem to_gsize_natCast {n : Nat} (h : n ≤ G_MAXSIZE) : to_gsize (n : Int) = n := by
  simp only [to_gsize, G_MAXSIZE] at *
  omega

theorem to_gssize_of_le {n : Nat} (h : n ≤ G_MAXSSIZE) : to_gssize n = (n : Int) := by
  simp only [to_gssize]
  rw [if_pos h]

theorem real_fill_async_eq {σ : Type} (stream : GBufferedInputStream σ) (count : Int)
    (h : state_ok stream) (h1 : -1 ≤ count) (h2 : count ≤ (G_MAXSSIZE : Int)) :
    g_buffered_input_stream_real_fill_async stream count =
      (fill_prepared stream count,
        { source_tag := .g_buffered_input_stream_real_fill_async, error := none, op_res := 0 },
        { offset := (fill_prepared stream count).priv.end_,
          count := fill_request stream.priv count }) := by
  have hr := real_fill_request stream count h h1 h2
  obtain ⟨⟨t1, t2, t3, t4⟩, i1, i2⟩ := h
  have hs3 : gsize_sub stream.priv.len stream.priv.end_ = stream.priv.len - stream.priv.end_ :=
    gsize_sub_eq i2 t1
  unfold g_buffered_input_stream_real_fill_async fill_prepared
  simp only [hr, hs3]

theorem fill_async_callback_ok {σ : Type} (stream : GBufferedInputStream σ)
    (simple : GSimpleAsyncResult Int) (data : List guint8)
    (h : stream.priv.end_ + data.length ≤ stream.priv.len) (hl : stream.priv.len ≤ G_MAXSIZE) :
    fill_async_callback stream simple (.ok data) =
      some ({ simple with op_res := (data.length : Int) },
        { stream with priv := { stream.priv with end_ := stream.priv.end_ + data.length } }) := by
  have hne : ((data.length : Int) = -1) = False := by
    simp only [eq_iff_iff, iff_false]
    omega
  have hg : to_gsize (data.length : Int) = data.length := to_gsize_natCast (by omega)
  have ha : gsize_add stream.priv.end_ data.length = stream.priv.end_ + data.length :=
    gsize_add_eq (by omega)
  simp only [fill_async_callback, g_input_stream_read_finish, hne, if_false, hg, ha, h, if_true]

theorem fill_async_callback_error {σ : Type} (stream : GBufferedInputStream σ)
    (simple : GSimpleAsyncResult Int) (e : GError) :
    fill_async_callback stream simple (.error e) =
      some ({ simple with op_res := -1, error := some e }, stream) := by
  simp only [fill_async_callback, g_input_stream_read_finish, if_true]

theorem real_fill_async_run_ok {σ : Type} (B : BackingSource σ) (stream : GBufferedInputStream σ)
    (count : Int) (h : state_ok stream) (h1 : -1 ≤ count) (h2 : count ≤ (G_MAXSSIZE : Int))
    (data : List guint8)
    (hr : (B.g_input_stream_read stream.base_stream (fill_request stream.priv count)).1 =
      .ok data)
    (hn : data.length ≤ fill_request stream.priv count) :
    real_fill_async_run B stream count =
      some ({ source_tag := .g_buffered_input_stream_real_fill_async, error := none,
              op_res := (data.length : Int) },
        (g_buffered_input_stream_real_fill B stream count).2) := by
  obtain ⟨f1, _, _, f4, f5, _, _, f8⟩ := fill_prepared_facts stream count h
  have hle : stream.priv.len ≤ G_MAXSIZE := h.1.1
  rw [real_fill_ok_eq B stream count h h1 h2 data hr hn]
  unfold real_fill_async_run base_read_into_buffer
  rw [real_fill_async_eq stream count h h1 h2]
  simp only [f5, hr]
  rw [fill_async_callback_ok _ _ data (by simp only []; omega) (by simp only []; omega)]

theorem real_fill_async_run_error {σ : Type} (B : BackingSource σ)
    (stream : GBufferedInputStream σ)
    (count : Int) (h : state_ok stream) (h1 : -1 ≤ count) (h2 : count ≤ (G_MAXSSIZE : Int))
    (e : GError)
    (hr : (B.g_input_stream_read stream.base_stream (fill_request stream.priv count)).1 =
      .error e) :
    real_fill_async_run B stream count =
      some ({ source_tag := .g_buffered_input_stream_real_fill_async, error := some e,
              op_res := -1 },
        (g_buffered_input_stream_real_fill B stream count).2) := by
  obtain ⟨f1, _, _, f4, f5, _, _, f8⟩ := fill_prepared_facts stream count h
  rw [real_fill_error_eq B stream count h h1 h2 e hr]
  unfold real_fill_async_run base_read_into_buffer
  rw [real_fill_async_eq stream count h h1 h2]
  simp only [f5, hr]
  rw [fill_async_callback_error]

/-- C27: the asynchronous fill refines the blocking fill.  For every well-typed
state satisfying `pos ≤ end ≤ len`, every `count` with `-1 ≤ count ≤ G_MAXSSIZE`
and every backing source that returns at most the number of bytes asked of it:
`real_fill_async` asks the base stream for the number of bytes that `real_fill`
reads from it, `min (c, len - available)`, to be stored at the `end` reached
after the same compaction; and `real_fill_async` followed by the read of the
base stream, `fill_async_callback` and `real_fill_finish` runs to its end (the
assertion holds), yields the return value and error of `real_fill`, and leaves
the stream, with `pos`, `end` and the storage, as `real_fill` leaves it. -/
theorem fill_async_refines_fill {σ : Type} (B : BackingSource σ) (hB : read_bounded B)
    (stream : GBufferedInputStream σ) (log : List SourceCall) (count : Int)
    (ht : well_typed stream.priv) (hinv : cursor_inv stream.priv)
    (h1 : -1 ≤ count) (h2 : count ≤ (G_MAXSSIZE : Int)) :
    (g_buffered_input_stream_real_fill_async stream count).2.2.count =
      fill_request stream.priv count ∧
    (g_buffered_input_stream_real_fill (traced B) (with_log stream log)
      count).2.base_stream.2 =
      log ++ [SourceCall.read (g_buffered_input_stream_real_fill_async stream count).2.2.count] ∧
    (g_buffered_input_stream_real_fill_async stream count).2.2.offset =
      (g_buffered_input_stream_real_fill_async stream count).1.priv.end_ ∧
    (g_buffered_input_stream_real_fill_async stream count).1.priv.pos =
      (g_buffered_input_stream_real_fill B stream count).2.priv.pos ∧
    window (g_buffered_input_stream_real_fill_async stream count).1.priv = window stream.priv ∧
    ∃ simple : GSimpleAsyncResult Int,
      real_fill_async_run B stream count =
        some (simple, (g_buffered_input_stream_real_fill B stream count).2) ∧
      (g_buffered_input_stream_real_fill_finish simple, simple.error) =
        gssize_of_result (g_buffered_input_stream_real_fill B stream count).1 := by
  have h : state_ok stream := ⟨ht, hinv⟩
  have hi := real_fill_async_eq stream count h h1 h2
  obtain ⟨f1, f2, _, f4, f5, _, _, f8⟩ := fill_prepared_facts stream count h
  refine ⟨by rw [hi], ?_, by rw [hi], ?_, by rw [hi]; exact f2, ?_⟩
  · rw [hi]
    exact real_fill_log B (with_log stream log) count h h1 h2
  · rw [hi]
    exact (real_fill_pos_buffer B stream count h h1 h2).1.symm
  · rcases hr : (B.g_input_stream_read stream.base_stream (fill_request stream.priv count)).1
      with e | data
    · refine ⟨_, real_fill_async_run_error B stream count h h1 h2 e hr, ?_⟩
      rw [real_fill_error_eq B stream count h h1 h2 e hr]
      rfl
    · have hn := hB stream.base_stream (fill_request stream.priv count) data hr
      refine ⟨_, real_fill_async_run_ok B stream count h h1 h2 data hr hn, ?_⟩
      rw [real_fill_ok_eq B stream count h h1 h2 data hr hn]
      rfl

/-- Witness for C27: one byte buffered at offset 3 of 4; the asynchronous fill
compacts, asks for 3 bytes at offset 1, receives `[5, 6]` and ends in the state
in which the blocking fill ends, with the result 2. -/
theorem fill_async_refines_fill_witness :
    well_typed scenario_A_after_read.priv ∧ cursor_inv scenario_A_after_read.priv ∧
    (g_buffered_input_stream_real_fill_async scenario_A_after_read (-1)).2.2 =
      { offset := 1, count := 3 } ∧
    (g_buffered_input_stream_real_fill scripted scenario_A_after_read (-1)).1 = .ok 2 ∧
    (g_buffered_input_stream_real_fill scripted scenario_A_after_read (-1)).2.priv =
      { buffer := [4, 5, 6, 4], len := 4, pos := 0, end_ := 3 } ∧
    ∃ simple : GSimpleAsyncResult Int,
      real_fill_async_run scripted scenario_A_after_read (-1) =
        some (simple,
          (g_buffered_input_stream_real_fill scripted scenario_A_after_read (-1)).2) ∧
      (g_buffered_input_stream_real_fill_finish simple, simple.error) =
        gssize_of_result
          (g_buffered_input_stream_real_fill scripted scenario_A_after_read (-1)).1 :=
  ⟨by decide, by decide, by decide, rfl, by decide,
    (fill_async_refines_fill scripted scripted_bounded scenario_A_after_read [] (-1)
      (by decide) (by decide) (by decide) (by decide)).2.2.2.2.2⟩

/-- C30: the assertion in the completion of an asynchronous fill holds.  For
every well-typed state satisfying `pos ≤ end ≤ len` at the time
`real_fill_async` is issued, every `count` with `-1 ≤ count ≤ G_MAXSSIZE`, and
every answer of `res` bytes with `res` at most the number of bytes asked for:
in every stream state whose `end` and `len` are those left by
`real_fill_async` (`pos` plays no part), `end + res ≤ len` holds (as a sum of numbers, as a `gsize`
sum, and as a comparison of signed 64-bit values when `len ≤ G_MAXSSIZE`), and
`fill_async_callback` runs to its end. -/
theorem fill_async_assertion_holds {σ : Type} (stream : GBufferedInputStream σ) (count : Int)
    (ht : well_typed stream.priv) (hinv : cursor_inv stream.priv)
    (h1 : -1 ≤ count) (h2 : count ≤ (G_MAXSSIZE : Int))
    (later : GBufferedInputStream σ) (simple : GSimpleAsyncResult Int) (data : List guint8)
    (hend : later.priv.end_ =
      (g_buffered_input_stream_real_fill_async stream count).1.priv.end_)
    (hlen : later.priv.len = (g_buffered_input_stream_real_fill_async stream count).1.priv.len)
    (hres : data.length ≤ (g_buffered_input_stream_real_fill_async stream count).2.2.count) :
    later.priv.end_ + data.length ≤ later.priv.len ∧
    gsize_add later.priv.end_ (to_gsize (data.length : Int)) ≤ later.priv.len ∧
    (later.priv.len ≤ G_MAXSSIZE →
      to_gssize (gsize_add later.priv.end_ (to_gsize (data.length : Int))) ≤
        to_gssize later.priv.len) ∧
    fill_async_callback later simple (.ok data) =
      some ({ simple with op_res := (data.length : Int) },
        { later with priv := { later.priv with end_ := later.priv.end_ + data.length } }) := by
  have h : state_ok stream := ⟨ht, hinv⟩
  obtain ⟨f1, _, _, f4, _, _, _, f8⟩ := fill_prepared_facts stream count h
  rw [real_fill_async_eq stream count h h1 h2] at hend hlen hres
  simp only [] at hend hlen hres
  have hle : stream.priv.len ≤ G_MAXSIZE := ht.1
  have hsum : later.priv.end_ + data.length ≤ later.priv.len := by omega
  have hg : to_gsize (data.length : Int) = data.length := to_gsize_natCast (by omega)
  have ha : gsize_add later.priv.end_ data.length = later.priv.end_ + data.length :=
    gsize_add_eq (by omega)
  refine ⟨hsum, by rw [hg, ha]; exact hsum, ?_,
    fill_async_callback_ok later simple data hsum (by omega)⟩
  intro hs
  rw [hg, ha, to_gssize_of_le hs, to_gssize_of_le (by omega)]
  omega

/-- Witness for C30: the asynchronous fill of Scenario A after `read (3)` asks
for 3 bytes after compaction (`end = 1`, `len = 4`); an answer of 3 bytes gives
`1 + 3 ≤ 4`. -/
theorem fill_async_assertion_holds_witness :
    well_typed scenario_A_after_read.priv ∧ cursor_inv scenario_A_after_read.priv ∧
    (g_buffered_input_stream_real_fill_async scenario_A_after_read (-1)).1.priv.end_ + 3 ≤
      (g_buffered_input_stream_real_fill_async scenario_A_after_read (-1)).1.priv.len ∧
    (fill_async_callback (g_buffered_input_stream_real_fill_async scenario_A_after_read (-1)).1
      (g_buffered_input_stream_real_fill_async scenario_A_after_read (-1)).2.1
      (.ok [5, 6, 7])).isSome = true :=
  ⟨by decide, by decide,
    (fill_async_assertion_holds scenario_A_after_read (-1) (by decide) (by decide) (by decide)
      (by decide) (g_buffered_input_stream_real_fill_async scenario_A_after_read (-1)).1
      (g_buffered_input_stream_real_fill_async scenario_A_after_read (-1)).2.1 [5, 6, 7]
      rfl rfl (by decide)).1,
    by decide⟩

theorem read_async_run_fast {σ : Type} (B : BackingSource σ) (stream : GBufferedInputStream σ)
    (buffer : List guint8) (count : Nat)
    (h : count ≤ gsize_sub stream.priv.end_ stream.priv.pos) :
    read_async_run B stream buffer count =
      some ({ source_tag := .g_buffered_input_stream_read_async, error := none,
              op_res := { buffer := memcpy buffer 0 stream.priv.buffer stream.priv.pos count,
                          bytes_read := to_gssize count, count := 0 } },
        { stream with priv := { stream.priv with pos := gsize_add stream.priv.pos count } }) := by
  simp only [read_async_run, g_buffered_input_stream_read_async, h, if_true]

theorem read_async_run_bypass_ok {σ : Type} (B : BackingSource σ)
    (stream : GBufferedInputStream σ) (buffer : List guint8) (count : Nat)
    (h1 : ¬ count ≤ gsize_sub stream.priv.end_ stream.priv.pos)
    (h2 : gsize_sub count (gsize_sub stream.priv.end_ stream.priv.pos) > stream.priv.len)
    (bytes : List guint8) (base : σ)
    (hr : B.g_input_stream_read stream.base_stream
      (gsize_sub count (gsize_sub stream.priv.end_ stream.priv.pos)) = (.ok bytes, base)) :
    read_async_run B stream buffer count =
      some (large_read_callback
          { source_tag := .g_buffered_input_stream_read_async, error := none,
            op_res :=
              { buffer :=
                  mem_write (memcpy buffer 0 stream.priv.buffer stream.priv.pos
                      (gsize_sub stream.priv.end_ stream.priv.pos))
                    (to_gssize (gsize_sub stream.priv.end_ stream.priv.pos)).toNat bytes,
                bytes_read := to_gssize (gsize_sub stream.priv.end_ stream.priv.pos),
                count := to_gssize
                  (gsize_sub count (gsize_sub stream.priv.end_ stream.priv.pos)) } }
          (.ok bytes),
        { emptied stream with base_stream := base }) := by
  simp only [read_async_run, g_buffered_input_stream_read_async, h1, h2, if_true, if_false,
    emptied, hr]

theorem read_async_run_bypass_error {σ : Type} (B : BackingSource σ)
    (stream : GBufferedInputStream σ) (buffer : List guint8) (count : Nat)
    (h1 : ¬ count ≤ gsize_sub stream.priv.end_ stream.priv.pos)
    (h2 : gsize_sub count (gsize_sub stream.priv.end_ stream.priv.pos) > stream.priv.len)
    (e : GError) (base : σ)
    (hr : B.g_input_stream_read stream.base_stream
      (gsize_sub count (gsize_sub stream.priv.end_ stream.priv.pos)) = (.error e, base)) :
    read_async_run B stream buffer count =
      some (large_read_callback
          { source_tag := .g_buffered_input_stream_read_async, error := none,
            op_res :=
              { buffer := memcpy buffer 0 stream.priv.buffer stream.priv.pos
                  (gsize_sub stream.priv.end_ stream.priv.pos),
                bytes_read := to_gssize (gsize_sub stream.priv.end_ stream.priv.pos),
                count := to_gssize
                  (gsize_sub count (gsize_sub stream.priv.end_ stream.priv.pos)) } }
          (.error e),
        { emptied stream with base_stream := base }) := by
  simp only [read_async_run, g_buffered_input_stream_read_async, h1, h2, if_true, if_false,
    emptied, hr]

theorem read_async_run_refill {σ : Type} (B : BackingSource σ) (stream : GBufferedInputStream σ)
    (buffer : List guint8) (count : Nat)
    (h1 : ¬ count ≤ gsize_sub stream.priv.end_ stream.priv.pos)
    (h2 : ¬ gsize_sub count (gsize_sub stream.priv.end_ stream.priv.pos) > stream.priv.len)
    (result : GSimpleAsyncResult Int) (stream1 : GBufferedInputStream σ)
    (hrun : real_fill_async_run B (emptied stream) (to_gssize stream.priv.len) =
      some (result, stream1)) :
    read_async_run B stream buffer count =
      some (read_fill_buffer_callback stream1
        { source_tag := .g_buffered_input_stream_read_async, error := none,
          op_res :=
            { buffer := memcpy buffer 0 stream.priv.buffer stream.priv.pos
                (gsize_sub stream.priv.end_ stream.priv.pos),
              bytes_read := to_gssize (gsize_sub stream.priv.end_ stream.priv.pos),
              count := to_gssize
                (gsize_sub count (gsize_sub stream.priv.end_ stream.priv.pos)) } }
        result) := by
  simp only [emptied] at hrun
  simp only [read_async_run, g_buffered_input_stream_read_async, h1, h2, if_false, hrun]

theorem real_fill_async_emptied {σ : Type} (stream : GBufferedInputStream σ)
    (hp : stream.priv.pos = 0) (he : stream.priv.end_ = 0) (hl : stream.priv.len ≤ G_MAXSIZE) :
    g_buffered_input_stream_real_fill_async stream (to_gssize stream.priv.len) =
      (stream,
        { source_tag := .g_buffered_input_stream_real_fill_async, error := none, op_res := 0 },
        { offset := 0, count := stream.priv.len }) := by
  have h0 : gsize_sub 0 0 = 0 := by simp [gsize_sub]
  have h1 : gsize_sub stream.priv.len 0 = stream.priv.len := gsize_sub_eq (Nat.zero_le _) hl
  simp only [g_buffered_input_stream_real_fill_async, fill_count_len hl, hp, he, h0, h1,
    Nat.min_self, Nat.lt_irrefl, if_false]

theorem real_fill_async_run_emptied_ok {σ : Type} (B : BackingSource σ)
    (stream : GBufferedInputStream σ)
    (hp : stream.priv.pos = 0) (he : stream.priv.end_ = 0) (hl : stream.priv.len ≤ G_MAXSIZE)
    (data : List guint8) (base : σ)
    (hr : B.g_input_stream_read stream.base_stream stream.priv.len = (.ok data, base))
    (hn : data.length ≤ stream.priv.len) :
    real_fill_async_run B stream (to_gssize stream.priv.len) =
      some ({ source_tag := .g_buffered_input_stream_real_fill_async, error := none,
              op_res := (data.length : Int) },
        { stream with
          priv := { stream.priv with buffer := mem_write stream.priv.buffer 0 data,
                                     end_ := data.length },
          base_stream := base }) := by
  unfold real_fill_async_run base_read_into_buffer
  rw [real_fill_async_emptied stream hp he hl]
  simp only [hr]
  rw [fill_async_callback_ok _ _ data (by simp only [he]; omega) (by simp only []; omega)]
  simp only [he, Nat.zero_add]

theorem real_fill_async_run_emptied_error {σ : Type} (B : BackingSource σ)
    (stream : GBufferedInputStream σ)
    (hp : stream.priv.pos = 0) (he : stream.priv.end_ = 0) (hl : stream.priv.len ≤ G_MAXSIZE)
    (e : GError) (base : σ)
    (hr : B.g_input_stream_read stream.base_stream stream.priv.len = (.error e, base)) :
    real_fill_async_run B stream (to_gssize stream.priv.len) =
      some ({ source_tag := .g_buffered_input_stream_real_fill_async, error := some e,
              op_res := -1 },
        { stream with base_stream := base }) := by
  unfold real_fill_async_run base_read_into_buffer
  rw [real_fill_async_emptied stream hp he hl]
  simp only [hr]
  rw [fill_async_callback_error]

theorem large_read_callback_ok (tag : SourceTag) (err : Option GError) (b : List guint8)
    (a c : Int) (bytes : List guint8) :
    large_read_callback
        { source_tag := tag, error := err,
          op_res := { buffer := b, bytes_read := a, count := c } } (.ok bytes) =
      { source_tag := tag, error := err,
        op_res := { buffer := b,
                    bytes_read := if 0 < bytes.length then a + (bytes.length : Int) else a,
                    count := c } } := by
  have hneg : ¬ ((bytes.length : Int) < 0) := by omega
  by_cases hp : 0 < bytes.length
  · have hp2 : (bytes.length : Int) > 0 := by omega
    simp only [large_read_callback, g_input_stream_read_finish, hneg, false_and, if_false, hp2,
      if_true, hp]
  · have hp2 : ¬ (bytes.length : Int) > 0 := by omega
    simp only [large_read_callback, g_input_stream_read_finish, hneg, false_and, if_false, hp2,
      hp]

theorem large_read_callback_error (tag : SourceTag) (b : List guint8)
    (a c : Int) (e : GError) :
    large_read_callback
        { source_tag := tag, error := none,
          op_res := { buffer := b, bytes_read := a, count := c } } (.error e) =
      { source_tag := tag, error := if a = 0 then some e else none,
        op_res := { buffer := b, bytes_read := a, count := c } } := by
  by_cases ha : a = 0
  · simp [large_read_callback, g_input_stream_read_finish, ha]
  · simp [large_read_callback, g_input_stream_read_finish, ha]

theorem read_fill_buffer_callback_error {σ : Type} (stream : GBufferedInputStream σ)
    (tag : SourceTag) (b : List guint8) (a c : Int) (e : GError) :
    read_fill_buffer_callback stream
        { source_tag := tag, error := none,
          op_res := { buffer := b, bytes_read := a, count := c } }
        { source_tag := .g_buffered_input_stream_real_fill_async, error := some e,
          op_res := -1 } =
      ({ source_tag := tag, error := if a = 0 then some e else none,
         op_res := { buffer := b, bytes_read := a, count := c } }, stream) := by
  by_cases ha : a = 0
  · simp [read_fill_buffer_callback, g_buffered_input_stream_fill_finish, ha]
  · simp [read_fill_buffer_callback, g_buffered_input_stream_fill_finish, ha]

theorem read_fill_buffer_callback_zero {σ : Type} (stream : GBufferedInputStream σ)
    (tag : SourceTag) (b : List guint8) (a c : Int) :
    read_fill_buffer_callback stream
        { source_tag := tag, error := none,
          op_res := { buffer := b, bytes_read := a, count := c } }
        { source_tag := .g_buffered_input_stream_real_fill_async, error := none,
          op_res := 0 } =
      ({ source_tag := tag, error := none,
         op_res := { buffer := b, bytes_read := a, count := c } }, stream) := by
  simp [read_fill_buffer_callback, g_buffered_input_stream_fill_finish,
    g_buffered_input_stream_real_fill_finish]

theorem read_fill_buffer_callback_ok {σ : Type} (stream : GBufferedInputStream σ)
    (tag : SourceTag) (b : List guint8) (a c : Int) (n : Nat) (hn : 0 < n) :
    read_fill_buffer_callback stream
        { source_tag := tag, error := none,
          op_res := { buffer := b, bytes_read := a, count := c } }
        { source_tag := .g_buffered_input_stream_real_fill_async, error := none,
          op_res := (n : Int) } =
      ({ source_tag := tag, error := none,
         op_res :=
           { buffer := memcpy b a.toNat stream.priv.buffer stream.priv.pos
               (to_gsize (to_gssize (min (to_gsize c)
                 (gsize_sub stream.priv.end_ stream.priv.pos)))),
             bytes_read := a + to_gssize (min (to_gsize c)
               (gsize_sub stream.priv.end_ stream.priv.pos)),
             count := to_gssize (min (to_gsize c)
               (gsize_sub stream.priv.end_ stream.priv.pos)) } },
        { stream with
          priv := { stream.priv with
            pos := gsize_add stream.priv.pos
              (to_gsize (to_gssize (min (to_gsize c)
                (gsize_sub stream.priv.end_ stream.priv.pos)))) } }) := by
  have h1 : ¬ ((n : Int) < 0 ∧ a = 0) := by omega
  have h2 : (n : Int) > 0 := by omega
  have hff : g_buffered_input_stream_fill_finish
      { source_tag := .g_buffered_input_stream_real_fill_async, error := none,
        op_res := (n : Int) } = ((n : Int), none) := rfl
  unfold read_fill_buffer_callback
  simp only [hff]
  rw [if_neg h1, if_pos h2]

/-- C26: the asynchronous read refines the blocking read.  For every well-typed
state satisfying `pos ≤ end ≤ len`, every destination, every `count` up to
`G_MAXSSIZE` and every backing source that returns at most the number of bytes
asked of it (whatever it answers: bytes, no bytes, or a failure), `read_async`
followed by what it has set going and by its completion callback
(`large_read_callback` on the bypass shape, `fill_async_callback` and then
`read_fill_buffer_callback` on the refill shape, none on the immediate shape)
runs to its end, leaves the stream, `pos` and `end` included, as the blocking
`read` leaves it, leaves the same bytes in the destination, and hands the
caller the byte count or the failure that the blocking `read` returns. -/
theorem read_async_refines_read {σ : Type} (B : BackingSource σ) (hB : read_bounded B)
    (stream : GBufferedInputStream σ) (buffer : List guint8) (count : Nat)
    (ht : well_typed stream.priv) (hinv : cursor_inv stream.priv)
    (hcount : count ≤ G_MAXSSIZE) :
    ∃ simple : GSimpleAsyncResult ReadAsyncData,
      read_async_run B stream buffer count =
        some (simple, (g_buffered_input_stream_read B stream buffer count).2.2) ∧
      simple.op_res.buffer = (g_buffered_input_stream_read B stream buffer count).2.1 ∧
      read_async_result simple =
        gssize_of_result (g_buffered_input_stream_read B stream buffer count).1 := by
  obtain ⟨t1, t2, t3, t4⟩ := ht
  obtain ⟨i1, i2⟩ := hinv
  have hmax : G_MAXSSIZE ≤ G_MAXSIZE := by decide
  have hav : gsize_sub stream.priv.end_ stream.priv.pos = stream.priv.end_ - stream.priv.pos :=
    gsize_sub_eq i1 t3
  by_cases h1 : count ≤ gsize_sub stream.priv.end_ stream.priv.pos
  · rw [read_async_run_fast B stream buffer count h1, read_fast_raw B stream buffer count h1]
    refine ⟨_, rfl, rfl, ?_⟩
    simp only [read_async_result, g_buffered_input_stream_read_finish, gssize_of_result,
      to_gssize_of_le hcount]
  · have ha : gsize_sub stream.priv.end_ stream.priv.pos < count := by omega
    have hga : to_gssize (gsize_sub stream.priv.end_ stream.priv.pos) =
        ((gsize_sub stream.priv.end_ stream.priv.pos : Nat) : Int) :=
      to_gssize_of_le (by omega)
    have hc : gsize_sub count (gsize_sub stream.priv.end_ stream.priv.pos) =
        count - gsize_sub stream.priv.end_ stream.priv.pos :=
      gsize_sub_eq (by omega) (by omega)
    by_cases h2 : gsize_sub count (gsize_sub stream.priv.end_ stream.priv.pos) > stream.priv.len
    · rcases hr : B.g_input_stream_read stream.base_stream
        (gsize_sub count (gsize_sub stream.priv.end_ stream.priv.pos)) with ⟨r, base⟩
      cases r with
      | error e =>
        rw [read_async_run_bypass_error B stream buffer count h1 h2 e base hr,
          read_bypass_error_raw B stream buffer count h1 h2 e base hr,
          large_read_callback_error]
        refine ⟨_, rfl, rfl, ?_⟩
        rw [hga]
        by_cases hz : gsize_sub stream.priv.end_ stream.priv.pos = 0
        · simp [read_async_result, gssize_of_result, hz]
        · have hz2 : ¬ ((gsize_sub stream.priv.end_ stream.priv.pos : Nat) : Int) = 0 := by
            omega
          simp [read_async_result, gssize_of_result, hz, hz2,
            g_buffered_input_stream_read_finish]
      | ok bytes =>
        have hn := hB stream.base_stream _ bytes (by rw [hr])
        rw [read_async_run_bypass_ok B stream buffer count h1 h2 bytes base hr,
          read_bypass_ok_raw B stream buffer count h1 h2 bytes base hr,
          large_read_callback_ok]
        refine ⟨_, rfl, ?_, ?_⟩
        · rw [hga, Int.toNat_ofNat]
        · rw [hga]
          by_cases hp : 0 < bytes.length
          · have hp2 : bytes.length > 0 := hp
            rw [if_pos hp, if_pos hp2, gsize_add_eq (by omega)]
            simp [read_async_result, gssize_of_result, g_buffered_input_stream_read_finish]
          · have hp2 : ¬ bytes.length > 0 := hp
            rw [if_neg hp, if_neg hp2]
            simp [read_async_result, gssize_of_result, g_buffered_input_stream_read_finish]
    · rcases hr : B.g_input_stream_read stream.base_stream stream.priv.len with ⟨r, base⟩
      cases r with
      | error e =>
        have hrun := real_fill_async_run_emptied_error B (emptied stream) rfl rfl t1 e base hr
        rw [read_async_run_refill B stream buffer count h1 h2 _ _ hrun,
          read_refill_error_raw B stream buffer count t1 h1 h2 e base hr,
          read_fill_buffer_callback_error]
        refine ⟨_, rfl, rfl, ?_⟩
        rw [hga]
        by_cases hz : gsize_sub stream.priv.end_ stream.priv.pos = 0
        · simp [read_async_result, gssize_of_result, hz]
        · have hz2 : ¬ ((gsize_sub stream.priv.end_ stream.priv.pos : Nat) : Int) = 0 := by
            omega
          simp [read_async_result, gssize_of_result, hz, hz2,
            g_buffered_input_stream_read_finish]
      | ok data =>
        have hn := hB stream.base_stream _ data (by rw [hr])
        have hrun := real_fill_async_run_emptied_ok B (emptied stream) rfl rfl t1 data base hr hn
        rw [read_async_run_refill B stream buffer count h1 h2 _ _ hrun,
          read_refill_ok_raw B stream buffer count t1 h1 h2 data base hr (by omega)]
        have hgc : to_gsize (to_gssize
            (gsize_sub count (gsize_sub stream.priv.end_ stream.priv.pos))) =
            gsize_sub count (gsize_sub stream.priv.end_ stream.priv.pos) :=
          to_gsize_to_gssize (gsize_sub_le _ _)
        by_cases hp : 0 < data.length
        · rw [read_fill_buffer_callback_ok _ _ _ _ _ _ hp]
          simp only [emptied, hgc, gsize_sub_eq (Nat.zero_le _) (show data.length ≤ G_MAXSIZE by omega),
            Nat.sub_zero]
          have hm : min (gsize_sub count (gsize_sub stream.priv.end_ stream.priv.pos))
              data.length ≤ G_MAXSSIZE := by
            have := Nat.min_le_left
              (gsize_sub count (gsize_sub stream.priv.end_ stream.priv.pos)) data.length
            omega
          rw [to_gssize_of_le hm, to_gsize_natCast (by omega), hga, Int.toNat_ofNat,
            gsize_add_eq (show 0 + min (gsize_sub count
              (gsize_sub stream.priv.end_ stream.priv.pos)) data.length ≤ G_MAXSIZE by omega),
            Nat.zero_add]
          refine ⟨_, rfl, rfl, ?_⟩
          have hm2 := Nat.min_le_left
            (gsize_sub count (gsize_sub stream.priv.end_ stream.priv.pos)) data.length
          rw [gsize_add_eq (by omega)]
          simp [read_async_result, gssize_of_result, g_buffered_input_stream_read_finish]
        · have hz : data.length = 0 := by omega
          have hnil : data = [] := List.length_eq_zero.mp hz
          subst hnil
          simp only [List.length_nil, Nat.cast_zero]
          rw [read_fill_buffer_callback_zero]
          simp only [emptied, Nat.min_zero, memcpy, mem_read, List.take_zero, mem_write_nil,
            hga]
          have hadd : gsize_add (gsize_sub stream.priv.end_ stream.priv.pos) 0 =
              gsize_sub stream.priv.end_ stream.priv.pos := by
            rw [gsize_add_eq (by omega)]
            rfl
          rw [hadd]
          refine ⟨_, rfl, rfl, ?_⟩
          simp [read_async_result, gssize_of_result, g_buffered_input_stream_read_finish]

/-- Witness for C26: Scenario A after `read (3)`; the asynchronous `read (5)`
takes the refill shape and ends as the blocking read does: 3 bytes, the
destination `[4, 5, 6, 0, 0]`, the state `scenario_A_end`. -/
theorem read_async_refines_read_witness :
    well_typed scenario_A_after_read.priv ∧ cursor_inv scenario_A_after_read.priv ∧
    (5 : Nat) ≤ G_MAXSSIZE ∧
    g_buffered_input_stream_read scripted scenario_A_after_read [0, 0, 0, 0, 0] 5 =
      (.ok 3, [4, 5, 6, 0, 0], scenario_A_end) ∧
    (g_buffered_input_stream_read_async scenario_A_after_read [0, 0, 0, 0, 0] 5).2.2 =
      .fill_async 4 ∧
    ∃ simple : GSimpleAsyncResult ReadAsyncData,
      read_async_run scripted scenario_A_after_read [0, 0, 0, 0, 0] 5 =
        some (simple,
          (g_buffered_input_stream_read scripted scenario_A_after_read
            [0, 0, 0, 0, 0] 5).2.2) ∧
      simple.op_res.buffer =
        (g_buffered_input_stream_read scripted scenario_A_after_read [0, 0, 0, 0, 0] 5).2.1 ∧
      read_async_result simple =
        gssize_of_result
          (g_buffered_input_stream_read scripted scenario_A_after_read [0, 0, 0, 0, 0] 5).1 :=
  ⟨by decide, by decide, by decide, rfl, by decide,
    read_async_refines_read scripted scripted_bounded scenario_A_after_read [0, 0, 0, 0, 0] 5
      (by decide) (by decide) (by decide)⟩

theorem read_async_pending_eq {σ : Type} (stream : GBufferedInputStream σ)
    (buffer : List guint8) (count : Nat)
    (hc : stream.closed = false) (hp : stream.pending = true) :
    g_input_stream_read_async stream buffer count = (.error .G_IO_ERROR_PENDING, stream) := by
  unfold g_input_stream_read_async g_input_stream_set_pending
  rw [if_neg (by simp [hc]), if_pos hp]

theorem read_async_started {σ : Type} (stream : GBufferedInputStream σ)
    (buffer : List guint8) (count : Nat)
    (hc : stream.closed = false) (hp : stream.pending = false) :
    g_input_stream_read_async stream buffer count =
      (.ok ((g_buffered_input_stream_read_async { stream with pending := true }
          buffer count).2.1,
        (g_buffered_input_stream_read_async { stream with pending := true } buffer count).2.2),
        (g_buffered_input_stream_read_async { stream with pending := true } buffer count).1) := by
  unfold g_input_stream_read_async g_input_stream_set_pending
  rw [if_neg (by simp [hc]), if_neg (by simp [hp])]

theorem read_async_flags {σ : Type} (stream : GBufferedInputStream σ)
    (buffer : List guint8) (count : Nat) :
    (g_buffered_input_stream_read_async stream buffer count).1.pending = stream.pending ∧
    (g_buffered_input_stream_read_async stream buffer count).1.closed = stream.closed := by
  unfold g_buffered_input_stream_read_async
  simp only []
  split
  · exact ⟨rfl, rfl⟩
  · split <;> exact ⟨rfl, rfl⟩

/-- C21 (Scenario D): a `read_async` issued while a previous `read_async` on the
same stream is still outstanding fails with `PendingOperation`.  For every
open, idle stream the first `read_async` is started and leaves the stream
marked pending; a second `read_async` on the stream so left, and on any open
stream marked pending, has the failure `PendingOperation` as its outcome:
nothing is set going (no read of the base stream, no fill) and the stream, with
`pos` and `end`, is handed back as it was. -/
theorem read_async_while_pending {σ : Type} (stream : GBufferedInputStream σ)
    (buffer1 buffer2 : List guint8) (count1 count2 : Nat)
    (hopen : stream.closed = false) (hidle : stream.pending = false) :
    (∃ started, (g_input_stream_read_async stream buffer1 count1).1 = .ok started) ∧
    (g_input_stream_read_async stream buffer1 count1).2.pending = true ∧
    g_input_stream_read_async (g_input_stream_read_async stream buffer1 count1).2
        buffer2 count2 =
      (.error .G_IO_ERROR_PENDING, (g_input_stream_read_async stream buffer1 count1).2) ∧
    (∀ outstanding : GBufferedInputStream σ,
      outstanding.closed = false → outstanding.pending = true →
      g_input_stream_read_async outstanding buffer2 count2 =
        (.error .G_IO_ERROR_PENDING, outstanding)) := by
  have hs := read_async_started stream buffer1 count1 hopen hidle
  obtain ⟨f1, f2⟩ := read_async_flags { stream with pending := true } buffer1 count1
  have hpend : (g_input_stream_read_async stream buffer1 count1).2.pending = true := by
    rw [hs]
    exact f1
  have hcl : (g_input_stream_read_async stream buffer1 count1).2.closed = false := by
    rw [hs]
    exact f2.trans hopen
  exact ⟨⟨_, by rw [hs]⟩, hpend,
    read_async_pending_eq _ buffer2 count2 hcl hpend,
    fun s h1 h2 => read_async_pending_eq s buffer2 count2 h1 h2⟩

/-- Witness for C21: Scenario A; the first `read_async (3)` sets a fill going,
the second `read_async (2)` fails with `PendingOperation` and `pos = end = 0`
are as the first call left them. -/
theorem read_async_while_pending_witness :
    scenario_A.closed = false ∧ scenario_A.pending = false ∧
    (g_input_stream_read_async scenario_A [0, 0, 0] 3).2.pending = true ∧
    (g_input_stream_read_async (g_input_stream_read_async scenario_A [0, 0, 0] 3).2
      [0, 0] 2).1 = .error .G_IO_ERROR_PENDING ∧
    (g_input_stream_read_async (g_input_stream_read_async scenario_A [0, 0, 0] 3).2
      [0, 0] 2).2.priv = (g_input_stream_read_async scenario_A [0, 0, 0] 3).2.priv :=
  ⟨rfl, rfl, (read_async_while_pending scenario_A [0, 0, 0] [0, 0] 3 2 rfl rfl).2.1,
    congrArg Prod.fst (read_async_while_pending scenario_A [0, 0, 0] [0, 0] 3 2 rfl rfl).2.2.1,
    congrArg (fun r => r.2.priv)
      (read_async_while_pending scenario_A [0, 0, 0] [0, 0] 3 2 rfl rfl).2.2.1⟩

/-! ## Bounds on what a read delivers -/

theorem mem_write_drop_of_le (dst data : List guint8) (off k : Nat)
    (h1 : off + data.length ≤ k) (h2 : off + data.length ≤ dst.length) :
    (mem_write dst off data).drop k = dst.drop k ∧
      (mem_write dst off data).length = dst.length := by
  refine ⟨?_, mem_write_length h2⟩
  simp only [mem_write]
  have hl : (dst.take off ++ data).length = off + data.length := by
    simp only [List.length_append, List.length_take]
    omega
  have hk : k = (dst.take off ++ data).length + (k - (off + data.length)) := by omega
  rw [hk, List.drop_append, List.drop_drop, hl]

theorem memcpy_drop_of_le (dst src : List guint8) (doff soff n k : Nat)
    (h1 : doff + n ≤ k) (h2 : doff + n ≤ dst.length) :
    (memcpy dst doff src soff n).drop k = dst.drop k ∧
      (memcpy dst doff src soff n).length = dst.length := by
  have hlen : (mem_read src soff n).length ≤ n := by
    rw [mem_read_length]
    exact Nat.min_le_left _ _
  exact mem_write_drop_of_le dst (mem_read src soff n) doff k (by omega) (by omega)

/-- C31: read never over-delivers.  For every well-typed state satisfying
`pos ≤ end ≤ len`, every `count` (a `gsize`), every destination of at least
`count` bytes and every backing source that returns at most the number of bytes
requested of it: if `read (count)` succeeds with `k`, then `k ≤ count`, the
destination keeps its length, and every byte of the destination from offset `k`
on is as it was before the call, so that only offsets `[0, k)` are written and
nothing is written past the `count` bytes the caller provided. -/
theorem read_never_over_delivers {σ : Type} (B : BackingSource σ) (hB : read_bounded B)
    (stream : GBufferedInputStream σ) (buffer : List guint8) (count : Nat)
    (ht : well_typed stream.priv) (hinv : cursor_inv stream.priv)
    (hcount : count ≤ G_MAXSIZE) (hbuf : count ≤ buffer.length) (k : Nat)
    (hk : (g_buffered_input_stream_read B stream buffer count).1 = .ok k) :
    k ≤ count ∧
    (g_buffered_input_stream_read B stream buffer count).2.1.length = buffer.length ∧
    (g_buffered_input_stream_read B stream buffer count).2.1.drop k = buffer.drop k ∧
    (g_buffered_input_stream_read B stream buffer count).2.1.drop count =
      buffer.drop count := by
  obtain ⟨t1, t2, t3, t4⟩ := ht
  obtain ⟨i1, i2⟩ := hinv
  have hav : gsize_sub stream.priv.end_ stream.priv.pos = stream.priv.end_ - stream.priv.pos :=
    gsize_sub_eq i1 t3
  by_cases h1 : count ≤ gsize_sub stream.priv.end_ stream.priv.pos
  · rw [read_fast_raw B stream buffer count h1] at hk ⊢
    simp only [Except.ok.injEq] at hk
    subst hk
    obtain ⟨d, l⟩ := memcpy_drop_of_le buffer stream.priv.buffer 0 stream.priv.pos count count
      (by omega) (by omega)
    exact ⟨Nat.le_refl _, l, d, d⟩
  · have ha : gsize_sub stream.priv.end_ stream.priv.pos < count := by omega
    have hc : gsize_sub count (gsize_sub stream.priv.end_ stream.priv.pos) =
        count - gsize_sub stream.priv.end_ stream.priv.pos :=
      gsize_sub_eq (by omega) hcount
    have hfirst : ∀ j, gsize_sub stream.priv.end_ stream.priv.pos ≤ j →
        (memcpy buffer 0 stream.priv.buffer stream.priv.pos
          (gsize_sub stream.priv.end_ stream.priv.pos)).drop j = buffer.drop j ∧
        (memcpy buffer 0 stream.priv.buffer stream.priv.pos
          (gsize_sub stream.priv.end_ stream.priv.pos)).length = buffer.length := by
      intro j hj
      exact memcpy_drop_of_le buffer stream.priv.buffer 0 stream.priv.pos _ j
        (by omega) (by omega)
    by_cases h2 : gsize_sub count (gsize_sub stream.priv.end_ stream.priv.pos) > stream.priv.len
    · rcases hr : B.g_input_stream_read stream.base_stream
        (gsize_sub count (gsize_sub stream.priv.end_ stream.priv.pos)) with ⟨r, base⟩
      cases r with
      | error e =>
        rw [read_bypass_error_raw B stream buffer count h1 h2 e base hr] at hk ⊢
        simp only [] at hk ⊢
        by_cases hz : gsize_sub stream.priv.end_ stream.priv.pos = 0
        · rw [if_pos hz] at hk
          cases hk
        · rw [if_neg hz] at hk
          simp only [Except.ok.injEq] at hk
          subst hk
          exact ⟨by omega, (hfirst _ (Nat.le_refl _)).2, (hfirst _ (Nat.le_refl _)).1,
            (hfirst count (by omega)).1⟩
      | ok bytes =>
        have hn := hB stream.base_stream _ bytes (by rw [hr])
        rw [read_bypass_ok_raw B stream buffer count h1 h2 bytes base hr] at hk ⊢
        simp only [Except.ok.injEq] at hk ⊢
        have hadd : gsize_add (gsize_sub stream.priv.end_ stream.priv.pos) bytes.length =
            gsize_sub stream.priv.end_ stream.priv.pos + bytes.length :=
          gsize_add_eq (by omega)
        have hk2 : k = gsize_sub stream.priv.end_ stream.priv.pos + bytes.length := by
          rw [← hk]
          split
          · exact hadd
          · omega
        have hl := (hfirst _ (Nat.le_refl _)).2
        obtain ⟨d1, l1⟩ := mem_write_drop_of_le
          (memcpy buffer 0 stream.priv.buffer stream.priv.pos
            (gsize_sub stream.priv.end_ stream.priv.pos))
          bytes (gsize_sub stream.priv.end_ stream.priv.pos) k (by omega) (by omega)
        obtain ⟨d2, _⟩ := mem_write_drop_of_le
          (memcpy buffer 0 stream.priv.buffer stream.priv.pos
            (gsize_sub stream.priv.end_ stream.priv.pos))
          bytes (gsize_sub stream.priv.end_ stream.priv.pos) count (by omega) (by omega)
        exact ⟨by omega, by rw [l1, hl], by rw [d1, (hfirst k (by omega)).1],
          by rw [d2, (hfirst count (by omega)).1]⟩
    · rcases hr : B.g_input_stream_read stream.base_stream stream.priv.len with ⟨r, base⟩
      cases r with
      | error e =>
        rw [read_refill_error_raw B stream buffer count t1 h1 h2 e base hr] at hk ⊢
        simp only [] at hk ⊢
        by_cases hz : gsize_sub stream.priv.end_ stream.priv.pos = 0
        · rw [if_pos hz] at hk
          cases hk
        · rw [if_neg hz] at hk
          simp only [Except.ok.injEq] at hk
          subst hk
          exact ⟨by omega, (hfirst _ (Nat.le_refl _)).2, (hfirst _ (Nat.le_refl _)).1,
            (hfirst count (by omega)).1⟩
      | ok data =>
        have hn := hB stream.base_stream _ data (by rw [hr])
        rw [read_refill_ok_raw B stream buffer count t1 h1 h2 data base hr (by omega)] at hk ⊢
        simp only [Except.ok.injEq] at hk ⊢
        have hm := Nat.min_le_left
          (gsize_sub count (gsize_sub stream.priv.end_ stream.priv.pos)) data.length
        have hadd : gsize_add (gsize_sub stream.priv.end_ stream.priv.pos)
            (min (gsize_sub count (gsize_sub stream.priv.end_ stream.priv.pos)) data.length) =
            gsize_sub stream.priv.end_ stream.priv.pos +
              min (gsize_sub count (gsize_sub stream.priv.end_ stream.priv.pos)) data.length :=
          gsize_add_eq (by omega)
        rw [hadd] at hk
        have hl := (hfirst _ (Nat.le_refl _)).2
        obtain ⟨d1, l1⟩ := memcpy_drop_of_le
          (memcpy buffer 0 stream.priv.buffer stream.priv.pos
            (gsize_sub stream.priv.end_ stream.priv.pos))
          (mem_write stream.priv.buffer 0 data)
          (gsize_sub stream.priv.end_ stream.priv.pos) 0
          (min (gsize_sub count (gsize_sub stream.priv.end_ stream.priv.pos)) data.length)
          k (by omega) (by omega)
        obtain ⟨d2, _⟩ := memcpy_drop_of_le
          (memcpy buffer 0 stream.priv.buffer stream.priv.pos
            (gsize_sub stream.priv.end_ stream.priv.pos))
          (mem_write stream.priv.buffer 0 data)
          (gsize_sub stream.priv.end_ stream.priv.pos) 0
          (min (gsize_sub count (gsize_sub stream.priv.end_ stream.priv.pos)) data.length)
          count (by omega) (by omega)
        exact ⟨by omega, by rw [l1, hl], by rw [d1, (hfirst k (by omega)).1],
          by rw [d2, (hfirst count (by omega)).1]⟩

/-- Witness for C31: Scenario A after `read (3)`; `read (5)` into the first five
bytes of a block of seven returns 3 and leaves offsets 3 to 6 as they were. -/
theorem read_never_over_delivers_witness :
    well_typed scenario_A_after_read.priv ∧ cursor_inv scenario_A_after_read.priv ∧
    (5 : Nat) ≤ G_MAXSIZE ∧
    (g_buffered_input_stream_read scripted scenario_A_after_read
      [9, 9, 9, 9, 9, 8, 8] 5).1 = .ok 3 ∧
    (g_buffered_input_stream_read scripted scenario_A_after_read
      [9, 9, 9, 9, 9, 8, 8] 5).2.1 = [4, 5, 6, 9, 9, 8, 8] ∧
    (3 ≤ 5 ∧
      (g_buffered_input_stream_read scripted scenario_A_after_read
        [9, 9, 9, 9, 9, 8, 8] 5).2.1.length = ([9, 9, 9, 9, 9, 8, 8] : List guint8).length ∧
      (g_buffered_input_stream_read scripted scenario_A_after_read
        [9, 9, 9, 9, 9, 8, 8] 5).2.1.drop 3 = ([9, 9, 9, 9, 9, 8, 8] : List guint8).drop 3 ∧
      (g_buffered_input_stream_read scripted scenario_A_after_read
        [9, 9, 9, 9, 9, 8, 8] 5).2.1.drop 5 = ([9, 9, 9, 9, 9, 8, 8] : List guint8).drop 5) :=
  ⟨by decide, by decide, by decide, rfl, by decide,
    read_never_over_delivers scripted scripted_bounded scenario_A_after_read
      [9, 9, 9, 9, 9, 8, 8] 5 (by decide) (by decide) (by decide) (by decide) 3 (by rfl)⟩

/-! ## The pending flag around the fill of the class -/

theorem fill_with_default {σ : Type} (B : BackingSource σ) (stream : GBufferedInputStream σ)
    (count : Int) :
    g_buffered_input_stream_fill_with (g_buffered_input_stream_real_fill B) stream count =
      g_buffered_input_stream_fill B stream count := rfl

theorem read_byte_with_default {σ : Type} (B : BackingSource σ)
    (stream : GBufferedInputStream σ) :
    g_buffered_input_stream_read_byte_with (g_buffered_input_stream_real_fill B) stream =
      g_buffered_input_stream_read_byte B stream := rfl

theorem fill_with_invalid_eq {σ : Type} (class_fill : ClassFill σ)
    (stream : GBufferedInputStream σ) (count : Int) (h : count < -1) :
    g_buffered_input_stream_fill_with class_fill stream count =
      (.error .G_IO_ERROR_INVALID_ARGUMENT, stream) := by
  unfold g_buffered_input_stream_fill_with
  rw [if_pos h]

theorem fill_with_open_eq {σ : Type} (class_fill : ClassFill σ)
    (stream : GBufferedInputStream σ) (count : Int) (h : -1 ≤ count)
    (hc : stream.closed = false) (hp : stream.pending = false) :
    g_buffered_input_stream_fill_with class_fill stream count =
      ((class_fill { stream with pending := true } count).1,
        { (class_fill { stream with pending := true } count).2 with pending := false }) := by
  unfold g_buffered_input_stream_fill_with g_input_stream_set_pending
  rw [if_neg (by omega), if_neg (by simp [hc]), if_neg (by simp [hp])]
  rfl

theorem read_byte_with_fast_eq {σ : Type} (class_fill : ClassFill σ)
    (stream : GBufferedInputStream σ)
    (hc : stream.closed = false) (hp : stream.pending = false)
    (ha : gsize_sub stream.priv.end_ stream.priv.pos ≠ 0) :
    g_buffered_input_stream_read_byte_with class_fill stream =
      (((stream.priv.buffer.getD stream.priv.pos 0).val : Int), none,
        { stream with priv := { stream.priv with pos := gsize_add stream.priv.pos 1 } }) := by
  unfold g_buffered_input_stream_read_byte_with g_input_stream_is_closed
    g_input_stream_set_pending
  rw [if_neg (by simp [hc]), if_neg (by simp [hc]), if_neg (by simp [hp])]
  simp only []
  rw [if_pos ha]
  simp only [g_input_stream_clear_pending, hp]

theorem read_byte_with_slow_error_eq {σ : Type} (class_fill : ClassFill σ)
    (stream : GBufferedInputStream σ)
    (hc : stream.closed = false) (hp : stream.pending = false)
    (ha : gsize_sub stream.priv.end_ stream.priv.pos = 0)
    (e : GError) (s1 : GBufferedInputStream σ)
    (hr : class_fill
        { stream with priv := { stream.priv with pos := 0, end_ := 0 }, pending := true }
        (to_gssize stream.priv.len) = (.error e, s1)) :
    g_buffered_input_stream_read_byte_with class_fill stream =
      (-1, some e, { s1 with pending := false }) := by
  unfold g_buffered_input_stream_read_byte_with g_input_stream_is_closed
    g_input_stream_set_pending
  rw [if_neg (by simp [hc]), if_neg (by simp [hc]), if_neg (by simp [hp])]
  simp only []
  rw [if_neg (by simp [ha])]
  simp only [] at hr
  rw [hr]
  rfl

theorem read_byte_with_slow_ok_eq {σ : Type} (class_fill : ClassFill σ)
    (stream : GBufferedInputStream σ)
    (hc : stream.closed = false) (hp : stream.pending = false)
    (ha : gsize_sub stream.priv.end_ stream.priv.pos = 0)
    (nread : Nat) (s1 : GBufferedInputStream σ)
    (hr : class_fill
        { stream with priv := { stream.priv with pos := 0, end_ := 0 }, pending := true }
        (to_gssize stream.priv.len) = (.ok nread, s1)) :
    g_buffered_input_stream_read_byte_with class_fill stream =
      if nread ≤ 0 then
        (-1, none, { s1 with pending := false })
      else
        (((s1.priv.buffer.getD s1.priv.pos 0).val : Int), none,
          { s1 with priv := { s1.priv with pos := gsize_add s1.priv.pos 1 },
                    pending := false }) := by
  unfold g_buffered_input_stream_read_byte_with g_input_stream_is_closed
    g_input_stream_set_pending
  rw [if_neg (by simp [hc]), if_neg (by simp [hc]), if_neg (by simp [hp])]
  simp only []
  rw [if_neg (by simp [ha])]
  simp only [] at hr
  rw [hr]
  rfl

/-- C29: the pending flag is always released, and is set while the fill engine
runs.  `fill` and `read_byte` call the fill engine as `class->fill`; take any
`fill` of the class, `class_fill`, in its place (the functions of the other
claims are the instances at the default engine, `real_fill`).  For every open,
non-pending state, every `count` and whatever the engine answers (bytes, end of
data or failure):
the pending flag is clear when `fill` or `read_byte` returns, on every return
path (argument rejected, fast path, refill with bytes, end of data, failure);
`fill (count)` with `count ≥ -1` is the engine applied to the stream marked
pending, with the flag cleared afterwards; `read_byte` with nothing buffered is
the engine applied to the emptied stream marked pending, with the flag cleared
afterwards, and with something buffered it does not call the engine.  So an
engine that looks at the flag, or tries to start another operation, finds the
flag set; the default engine leaves the flag as it finds it. -/
theorem pending_flag_released {σ : Type} (B : BackingSource σ) (class_fill : ClassFill σ)
    (stream : GBufferedInputStream σ) (count : Int)
    (hopen : stream.closed = false) (hidle : stream.pending = false) :
    (g_buffered_input_stream_fill B stream count =
        g_buffered_input_stream_fill_with (g_buffered_input_stream_real_fill B) stream count ∧
      g_buffered_input_stream_read_byte B stream =
        g_buffered_input_stream_read_byte_with (g_buffered_input_stream_real_fill B) stream) ∧
    ((g_buffered_input_stream_fill_with class_fill stream count).2.pending = false ∧
      (g_buffered_input_stream_read_byte_with class_fill stream).2.2.pending = false ∧
      (g_buffered_input_stream_fill B stream count).2.pending = false ∧
      (g_buffered_input_stream_read_byte B stream).2.2.pending = false) ∧
    (-1 ≤ count →
      g_buffered_input_stream_fill_with class_fill stream count =
        ((class_fill { stream with pending := true } count).1,
          { (class_fill { stream with pending := true } count).2 with pending := false })) ∧
    (g_buffered_input_stream_get_available stream = 0 →
      (∀ (e : GError) (s1 : GBufferedInputStream σ),
        class_fill
            { stream with priv := { stream.priv with pos := 0, end_ := 0 }, pending := true }
            (to_gssize stream.priv.len) = (.error e, s1) →
        g_buffered_input_stream_read_byte_with class_fill stream =
          (-1, some e, { s1 with pending := false })) ∧
      (∀ (nread : Nat) (s1 : GBufferedInputStream σ),
        class_fill
            { stream with priv := { stream.priv with pos := 0, end_ := 0 }, pending := true }
            (to_gssize stream.priv.len) = (.ok nread, s1) →
        g_buffered_input_stream_read_byte_with class_fill stream =
          if nread ≤ 0 then
            (-1, none, { s1 with pending := false })
          else
            (((s1.priv.buffer.getD s1.priv.pos 0).val : Int), none,
              { s1 with priv := { s1.priv with pos := gsize_add s1.priv.pos 1 },
                        pending := false }))) ∧
    (g_buffered_input_stream_get_available stream ≠ 0 →
      g_buffered_input_stream_read_byte_with class_fill stream =
        (((stream.priv.buffer.getD stream.priv.pos 0).val : Int), none,
          { stream with priv := { stream.priv with pos := gsize_add stream.priv.pos 1 } })) ∧
    (g_buffered_input_stream_real_fill B { stream with pending := true } count).2.pending =
      true := by
  have hfill : ∀ f : ClassFill σ,
      (g_buffered_input_stream_fill_with f stream count).2.pending = false := by
    intro f
    by_cases hc : count < -1
    · rw [fill_with_invalid_eq f stream count hc]
      exact hidle
    · rw [fill_with_open_eq f stream count (by omega) hopen hidle]
  have hbyte : ∀ f : ClassFill σ,
      (g_buffered_input_stream_read_byte_with f stream).2.2.pending = false := by
    intro f
    by_cases ha : gsize_sub stream.priv.end_ stream.priv.pos = 0
    · rcases hr : f
        { stream with priv := { stream.priv with pos := 0, end_ := 0 }, pending := true }
        (to_gssize stream.priv.len) with ⟨r, s1⟩
      cases r with
      | error e => rw [read_byte_with_slow_error_eq f stream hopen hidle ha e s1 hr]
      | ok n =>
        rw [read_byte_with_slow_ok_eq f stream hopen hidle ha n s1 hr]
        split <;> rfl
    · rw [read_byte_with_fast_eq f stream hopen hidle ha]
      exact hidle
  refine ⟨⟨rfl, rfl⟩, ⟨hfill class_fill, hbyte class_fill,
    hfill (g_buffered_input_stream_real_fill B), hbyte (g_buffered_input_stream_real_fill B)⟩,
    fun h1 => fill_with_open_eq class_fill stream count h1 hopen hidle, ?_, ?_,
    (real_fill_of_pending B { stream with pending := true } count true).2.2⟩
  · intro ha
    exact ⟨fun e s1 hr => read_byte_with_slow_error_eq class_fill stream hopen hidle ha e s1 hr,
      fun n s1 hr => read_byte_with_slow_ok_eq class_fill stream hopen hidle ha n s1 hr⟩
  · intro ha
    exact read_byte_with_fast_eq class_fill stream hopen hidle ha

/-- Witness for C29: Scenario A, with an engine that tries to start another
operation while it runs.  Called by `fill (-1)` and by `read_byte`, the engine
finds the operation pending (`PendingOperation`); the flag is clear again when
the calls return.  With the default engine, `fill (-1)` fills 4 bytes and
`read_byte` returns a byte, reaches the end of data or fails, and the flag is
clear each time. -/
theorem pending_flag_released_witness :
    scenario_A.closed = false ∧ scenario_A.pending = false ∧
    g_buffered_input_stream_fill_with (reentrant_fill scripted) scenario_A (-1) =
      (.error .G_IO_ERROR_PENDING, scenario_A) ∧
    g_buffered_input_stream_read_byte_with (reentrant_fill scripted) scenario_A =
      (-1, some .G_IO_ERROR_PENDING, scenario_A) ∧
    (reentrant_fill scripted scenario_A (-1)).1 = .ok 0 ∧
    (g_buffered_input_stream_fill scripted scenario_A (-1)).1 = .ok 4 ∧
    (g_buffered_input_stream_fill scripted scenario_A (-1)).2.pending = false ∧
    (g_buffered_input_stream_read_byte scripted scenario_A).2.2.pending = false ∧
    (g_buffered_input_stream_read_byte scripted three_buffered).2.2.pending = false ∧
    (g_buffered_input_stream_read_byte scripted scenario_A_end).2.2.pending = false ∧
    (g_buffered_input_stream_read_byte scripted scenario_failing).2.2.pending = false ∧
    (g_buffered_input_stream_fill scripted scenario_failing (-1)).2.pending = false :=
  ⟨rfl, rfl,
    (pending_flag_released scripted (reentrant_fill scripted) scenario_A (-1) rfl rfl).2.2.1
      (by decide),
    ((pending_flag_released scripted (reentrant_fill scripted) scenario_A (-1) rfl rfl).2.2.2.1
      (by decide)).1 .G_IO_ERROR_PENDING _ (by rfl),
    rfl, rfl,
    (pending_flag_released scripted (reentrant_fill scripted) scenario_A (-1) rfl rfl).2.1.2.2.1,
    (pending_flag_released scripted (reentrant_fill scripted) scenario_A (-1) rfl rfl).2.1.2.2.2,
    (pending_flag_released scripted (reentrant_fill scripted) three_buffered (-1)
      rfl rfl).2.1.2.2.2,
    (pending_flag_released scripted (reentrant_fill scripted) scenario_A_end (-1)
      rfl rfl).2.1.2.2.2,
    (pending_flag_released scripted (reentrant_fill scripted) scenario_failing (-1)
      rfl rfl).2.1.2.2.2,
    (pending_flag_released scripted (reentrant_fill scripted) scenario_failing (-1)
      rfl rfl).2.1.2.2.1⟩

end GBuffered
